import Mathlib

/-!
# MedConnect appointment scheduling engine

A shallow embedding of `src/models/ScheduleModels.js` (the slot generator) and
`src/services/ScheduleService.js` (hold, book, cancel, reschedule, sweep) together with
theorems about them.

Modelling conventions.

* A JavaScript `Date` and a Firestore `Timestamp` are the number of milliseconds since the
  epoch, as an `Int`.  The clock (`new Date()`, `serverTimestamp()`) is the explicit argument
  `now`.
* The slot generator reads dates on the local wall clock of a fixed-offset time zone (no
  daylight saving).  The minute arithmetic of `holdAppointmentSlot` takes the time zone of
  the host as the explicit argument `zone`, which may have transitions.
* `null` and `undefined` field values are `none`.
* Firestore is a `Ledger`: three keyed collections held as association lists.  A transaction
  (`runTransaction`) reads a snapshot, queues writes in source order and commits them all or
  none; an `update` of a missing document aborts the commit.  The instance `db` is the one
  of the modular SDK (`getFirestore(app)` in `firebase/config.js`), which has no method
  `batch`.
* An auto-generated document id (`doc(collectionRef)`) is the explicit argument `newId`.
* Loops that the source writes as `while` take a fuel argument; running out of fuel is the
  result `GenError.outOfFuel`, never a list.
-/

namespace MedConnect

/-! ## Documents -/

/-- Entry of the `history` array that the booking form puts into `appointmentData`. -/
structure HistoryEntry where
  status : String
  timestamp : Int
  note : String
deriving DecidableEq, Repr

/-- Slot document, `AppointmentSlotModel`, stored at `doctors/{doctorId}/slots/{slotId}`. -/
structure AppointmentSlot where
  doctorId : String
  start : Int
  end_ : Int
  status : String
  appointmentId : Option String
  heldBy : Option String
  holdExpiresAt : Option Int
  type : String
  createdAt : Int
  updatedAt : Option Int
deriving DecidableEq, Repr

/-- Argument of `bookAppointment`, as assembled by `handleBookAppointment`. -/
structure AppointmentData where
  doctorId : String
  patientId : String
  slotId : String
  type : String
  reason : String
  notes : String
  status : String
  history : List HistoryEntry
deriving DecidableEq, Repr

/-- Appointment document, `AppointmentModel`, stored at `appointments/{appointmentId}`. -/
structure Appointment where
  doctorId : String
  patientId : String
  slotId : String
  start : Int
  end_ : Int
  status : String
  type : String
  reason : String
  notes : String
  history : List HistoryEntry
  cancellationReason : Option String
  rescheduledReason : Option String
  createdAt : Int
  updatedAt : Int
deriving DecidableEq, Repr

/-- Document of the sub-collection `appointments/{appointmentId}/events`. -/
structure AppointmentEvent where
  status : String
  timestamp : Int
  userId : String
  note : String
  type : String
  oldSlotId : Option String
  newSlotId : Option String
  oldStart : Option Int
  newStart : Option Int
deriving DecidableEq, Repr

/-- Key of a slot document: `(doctorId, slotId)` of the path `doctors/{doctorId}/slots/{slotId}`. -/
abbrev SlotKey := String × String

/-- The Firestore database: slots, appointments, and the events of every appointment
(each event paired with the id of the appointment whose sub-collection holds it, in the
order the events were written). -/
structure Ledger where
  slots : List (SlotKey × AppointmentSlot)
  appointments : List (String × Appointment)
  events : List (String × AppointmentEvent)
deriving DecidableEq, Repr

/-! ## Keyed collections -/

/-- Read of the document stored under key `k` (`getDoc` / `transaction.get`). -/
def getDoc {κ β : Type} [DecidableEq κ] (k : κ) : List (κ × β) → Option β
  | [] => none
  | (k', v) :: rest => if k' = k then some v else getDoc k rest

/-- Merge of new field values `f` into the document stored under key `k`. -/
def updateDoc {κ β : Type} [DecidableEq κ] (k : κ) (f : β → β) : List (κ × β) → List (κ × β)
  | [] => []
  | (k', v) :: rest =>
    if k' = k then (k', f v) :: updateDoc k f rest else (k', v) :: updateDoc k f rest

/-- Write of a whole document under key `k` (`set`): replaces it, or creates it. -/
def setDoc {κ β : Type} [DecidableEq κ] (k : κ) (v : β) (l : List (κ × β)) : List (κ × β) :=
  match getDoc k l with
  | some _ => updateDoc k (fun _ => v) l
  | none => l ++ [(k, v)]

/-- One queued write of a transaction or write batch. -/
inductive Write where
  | setAppointment (id : String) (doc : Appointment)
  | updateAppointment (id : String) (f : Appointment → Appointment)
  | updateSlot (key : SlotKey) (f : AppointmentSlot → AppointmentSlot)
  | setSlot (key : SlotKey) (doc : AppointmentSlot)
  | addEvent (appointmentId : String) (ev : AppointmentEvent)

/-- Effect of one write; `none` when an `update` names a document that does not exist. -/
def applyWrite (db : Ledger) : Write → Option Ledger
  | .setAppointment id doc => some { db with appointments := setDoc id doc db.appointments }
  | .updateAppointment id f =>
    match getDoc id db.appointments with
    | some _ => some { db with appointments := updateDoc id f db.appointments }
    | none => none
  | .updateSlot key f =>
    match getDoc key db.slots with
    | some _ => some { db with slots := updateDoc key f db.slots }
    | none => none
  | .setSlot key doc => some { db with slots := setDoc key doc db.slots }
  | .addEvent appointmentId ev => some { db with events := db.events ++ [(appointmentId, ev)] }

/-- Effect of the queued writes, in order; `none` as soon as one of them cannot be applied. -/
def applyWrites (db : Ledger) : List Write → Option Ledger
  | [] => some db
  | w :: ws =>
    match applyWrite db w with
    | some db' => applyWrites db' ws
    | none => none

/-- Atomic commit (`runTransaction`; a write batch would commit alike): the body reads the
snapshot `db` and either throws or returns a value with its queued writes; the writes are
applied all together or, when the body throws or a write cannot be applied, not at all. -/
def runTransaction {α : Type} (db : Ledger) (body : Ledger → Except String (α × List Write)) :
    Except String α × Ledger :=
  match body db with
  | .error e => (.error e, db)
  | .ok (a, ws) =>
    match applyWrites db ws with
    | some db' => (.ok a, db')
    | none => (.error "No document to update", db)

/-! ## Hold, book, cancel, reschedule, sweep (`ScheduleService.js`) -/

/-- Number of milliseconds in a minute. -/
def msPerMinute : Int := 60000

/-- Default of the parameter `holdDurationMinutes`. -/
def defaultHoldDurationMinutes : Int := 5

/-- The time zone of the host: the offset of local time from UTC, in minutes, before the
first transition, and the transitions in order of time, each the instant from which an
offset is in force and that offset in minutes. -/
structure TimeZone where
  offset : Int
  transitions : List (Int × Int)
deriving DecidableEq, Repr

/-- The offset of local time from UTC, in milliseconds, in force at the instant `t`. -/
def TimeZone.offsetAt (zone : TimeZone) (t : Int) : Int :=
  (zone.transitions.foldl (fun offset transition =>
    if transition.1 ≤ t then transition.2 else offset) zone.offset) * msPerMinute

/-- The local time value of the instant `t` (`LocalTime(t)` of ECMAScript). -/
def localTime (zone : TimeZone) (t : Int) : Int := t + zone.offsetAt t

/-- The instant of a local time value, walking the transitions from the offset `offset`: a
local time that falls before the next transition under the current offset is read with the
current offset, and so is one that the transition skips (it falls before the transition
under the new offset); a repeated local time is thereby read with the offset before the
transition. -/
def utcFrom : List (Int × Int) → Int → Int → Int
  | [], offset, tLocal => tLocal - offset * msPerMinute
  | transition :: rest, offset, tLocal =>
    if tLocal - offset * msPerMinute < transition.1 ∨
        tLocal - transition.2 * msPerMinute < transition.1 then
      tLocal - offset * msPerMinute
    else utcFrom rest transition.2 tLocal

/-- The instant of a local time value (`UTC(t)` of ECMAScript). -/
def TimeZone.toUTC (zone : TimeZone) (tLocal : Int) : Int :=
  utcFrom zone.transitions zone.offset tLocal

/-- Minute of the hour on the local wall clock, `Date.prototype.getMinutes`. -/
def getMinutes (zone : TimeZone) (date : Int) : Int :=
  localTime zone date / msPerMinute % 60

/-- The date after `setMinutes(min)`: the local time of `date` with its minute field replaced
by `min` (a value outside 0..59 carries into the hours and days), read back as an instant. -/
def setMinutes (zone : TimeZone) (date : Int) (min : Int) : Int :=
  zone.toUTC (localTime zone date - getMinutes zone date * msPerMinute + min * msPerMinute)

/-- Transaction body of `holdAppointmentSlot` (lines 199-225). -/
def holdAppointmentSlotBody (zone : TimeZone) (now : Int) (doctorId slotId userId : String)
    (holdDurationMinutes : Int) (db : Ledger) : Except String (Bool × List Write) :=
  match getDoc (doctorId, slotId) db.slots with
  | none => .error "Slot does not exist"
  | some slotData =>
    if slotData.status ≠ "free" then .ok (false, [])
    else
      let holdExpiresAt := setMinutes zone now (getMinutes zone now + holdDurationMinutes)
      .ok (true, [Write.updateSlot (doctorId, slotId) (fun s =>
        { s with status := "held", heldBy := some userId,
                 holdExpiresAt := some holdExpiresAt, updatedAt := some now })])

/-- Embedding of `holdAppointmentSlot(doctorId, slotId, userId, holdDurationMinutes)` on a
host in the time zone `zone`. -/
def holdAppointmentSlot (db : Ledger) (zone : TimeZone) (now : Int)
    (doctorId slotId userId : String) (holdDurationMinutes : Int) :
    Except String Bool × Ledger :=
  runTransaction db (holdAppointmentSlotBody zone now doctorId slotId userId holdDurationMinutes)

/-- Call of `holdAppointmentSlot(doctorId, slotId, userId)` that leaves `holdDurationMinutes`
to its default. -/
def holdAppointmentSlotDefault (db : Ledger) (zone : TimeZone) (now : Int)
    (doctorId slotId userId : String) : Except String Bool × Ledger :=
  holdAppointmentSlot db zone now doctorId slotId userId defaultHoldDurationMinutes

/-- Transaction body of `bookAppointment` (lines 245-281); `newId` is the id of
`doc(appointmentsRef)`. -/
def bookAppointmentBody (now : Int) (newId : String) (appointmentData : AppointmentData)
    (db : Ledger) : Except String (String × List Write) :=
  match getDoc (appointmentData.doctorId, appointmentData.slotId) db.slots with
  | none => .error "Slot does not exist"
  | some slotData =>
    if slotData.status ≠ "free" ∧
        ¬ (slotData.status = "held" ∧ slotData.heldBy = some appointmentData.patientId) then
      .error "Slot is not available"
    else
      .ok (newId,
        [Write.setAppointment newId
          { doctorId := appointmentData.doctorId
            patientId := appointmentData.patientId
            slotId := appointmentData.slotId
            type := appointmentData.type
            reason := appointmentData.reason
            notes := appointmentData.notes
            history := appointmentData.history
            start := slotData.start
            end_ := slotData.end_
            status := "confirmed"
            cancellationReason := none
            rescheduledReason := none
            createdAt := now
            updatedAt := now },
         Write.updateSlot (appointmentData.doctorId, appointmentData.slotId) (fun s =>
          { s with status := "booked", appointmentId := some newId, heldBy := none,
                   holdExpiresAt := none, updatedAt := some now })])

/-- Embedding of `bookAppointment(appointmentData)`. -/
def bookAppointment (db : Ledger) (now : Int) (newId : String)
    (appointmentData : AppointmentData) : Except String String × Ledger :=
  runTransaction db (bookAppointmentBody now newId appointmentData)

/-- JavaScript `reason || fallback` on strings: the empty string is falsy. -/
def orElse (reason fallback : String) : String :=
  if reason = "" then fallback else reason

/-- Transaction body of `cancelAppointment` (lines 388-425). -/
def cancelAppointmentBody (now : Int) (appointmentId reason userId : String)
    (db : Ledger) : Except String (Unit × List Write) :=
  match getDoc appointmentId db.appointments with
  | none => .error "Appointment does not exist"
  | some appointmentData =>
    .ok ((),
      [Write.updateAppointment appointmentId (fun a =>
        { a with status := "cancelled", cancellationReason := some reason, updatedAt := now }),
       Write.addEvent appointmentId
        { status := "cancelled", timestamp := now, userId := userId,
          note := orElse reason "Appointment cancelled", type := "status_change",
          oldSlotId := none, newSlotId := none, oldStart := none, newStart := none }]
      ++ (if appointmentData.slotId ≠ "" then
            [Write.updateSlot (appointmentData.doctorId, appointmentData.slotId) (fun s =>
              { s with status := "free", appointmentId := none, updatedAt := some now })]
          else []))

/-- Embedding of `cancelAppointment(appointmentId, reason, userId)`. -/
def cancelAppointment (db : Ledger) (now : Int) (appointmentId reason userId : String) :
    Except String Unit × Ledger :=
  runTransaction db (cancelAppointmentBody now appointmentId reason userId)

/-- Argument of `rescheduleAppointment`. -/
structure RescheduleData where
  appointmentId : String
  oldSlotId : String
  newSlotId : String
  reason : String
  userId : String
  doctorId : String
deriving DecidableEq, Repr

/-- Transaction body of `rescheduleAppointment` (lines 452-517). -/
def rescheduleAppointmentBody (now : Int) (rescheduleData : RescheduleData)
    (db : Ledger) : Except String (Unit × List Write) :=
  let appointmentDoc := getDoc rescheduleData.appointmentId db.appointments
  let oldSlotDoc := getDoc (rescheduleData.doctorId, rescheduleData.oldSlotId) db.slots
  let newSlotDoc := getDoc (rescheduleData.doctorId, rescheduleData.newSlotId) db.slots
  match appointmentDoc with
  | none => .error "Appointment does not exist"
  | some appointmentData =>
    match oldSlotDoc with
    | none => .error "Original slot does not exist"
    | some _ =>
      match newSlotDoc with
      | none => .error "New slot does not exist"
      | some newSlotData =>
        if newSlotData.status ≠ "free" then .error "Selected slot is no longer available"
        else
          .ok ((),
            [Write.updateAppointment rescheduleData.appointmentId (fun a =>
              { a with status := "rescheduled", slotId := rescheduleData.newSlotId,
                       start := newSlotData.start, end_ := newSlotData.end_,
                       rescheduledReason := some rescheduleData.reason, updatedAt := now }),
             Write.addEvent rescheduleData.appointmentId
              { status := "rescheduled", timestamp := now, userId := rescheduleData.userId,
                oldSlotId := some rescheduleData.oldSlotId,
                newSlotId := some rescheduleData.newSlotId,
                oldStart := some appointmentData.start, newStart := some newSlotData.start,
                note := orElse rescheduleData.reason "Appointment rescheduled",
                type := "reschedule" },
             Write.updateSlot (rescheduleData.doctorId, rescheduleData.oldSlotId) (fun s =>
              { s with status := "free", appointmentId := none, updatedAt := some now }),
             Write.updateSlot (rescheduleData.doctorId, rescheduleData.newSlotId) (fun s =>
              { s with status := "booked", appointmentId := some rescheduleData.appointmentId,
                       updatedAt := some now })])

/-- Embedding of `rescheduleAppointment(rescheduleData)`. -/
def rescheduleAppointment (db : Ledger) (now : Int) (rescheduleData : RescheduleData) :
    Except String Unit × Ledger :=
  runTransaction db (rescheduleAppointmentBody now rescheduleData)

/-- Query of `cleanupExpiredHolds` (lines 534-538): the doctor's slots with status `held`
whose `holdExpiresAt` is a timestamp not later than `now`. -/
def expiredHold (now : Int) (doctorId : String) (entry : SlotKey × AppointmentSlot) : Bool :=
  decide (entry.1.1 = doctorId) && decide (entry.2.status = "held") &&
    (match entry.2.holdExpiresAt with
     | some t => decide (t ≤ now)
     | none => false)

/-- The fields that `cleanupExpiredHolds` writes into a slot (lines 544-549). -/
def releaseHold (now : Int) (s : AppointmentSlot) : AppointmentSlot :=
  { s with status := "free", heldBy := none, holdExpiresAt := none, updatedAt := some now }

/-- The call `db.batch()` (lines 130 and 541) on the Firestore instance of
`firebase/config.js`: the instance of the modular SDK has no method `batch` (its write
batches are made by `writeBatch(db)`), so the call throws a `TypeError` and no batch
exists. -/
def Ledger.batch (_ : Ledger) : Except String (List Write) :=
  .error "db.batch is not a function"

/-- Embedding of `cleanupExpiredHolds(doctorId)`: the query runs, then `db.batch()` is
called; with a batch there would be one `update` per document of the query, a commit, and
the number of documents of the query as the result. -/
def cleanupExpiredHolds (db : Ledger) (now : Int) (doctorId : String) :
    Except String Nat × Ledger :=
  let docs := db.slots.filter (expiredHold now doctorId)
  match db.batch with
  | .error e => (.error e, db)
  | .ok batch =>
    runTransaction db (fun _ =>
      .ok (docs.length,
        batch ++ docs.map (fun entry => Write.updateSlot entry.1 (releaseHold now))))

/-! ## Materialization of generated slots (`ScheduleService.js`) -/

/-- The documents that the loop of `saveAppointmentSlots` puts into the batch (lines
132-141): one per slot, under the path of the doctor and a generated id (`newIds` lists the
ids of `doc(collection(...))` in order), with `createdAt` and `updatedAt` stamped by the
server. -/
def slotDocuments (now : Int) (newIds : List String) (doctorId : String)
    (slots : List AppointmentSlot) : List (SlotKey × AppointmentSlot) :=
  (newIds.zip slots).map (fun p =>
    ((doctorId, p.1), { p.2 with createdAt := now, updatedAt := some now }))

/-- Embedding of `saveAppointmentSlots(doctorId, slots)`: `db.batch()` is called first; with
a batch there would be one `set` per slot and a commit. -/
def saveAppointmentSlots (db : Ledger) (now : Int) (newIds : List String) (doctorId : String)
    (slots : List AppointmentSlot) : Except String Unit × Ledger :=
  match db.batch with
  | .error e => (.error e, db)
  | .ok batch =>
    runTransaction db (fun _ =>
      .ok ((), batch ++
        (slotDocuments now newIds doctorId slots).map (fun e => Write.setSlot e.1 e.2)))

/-! ## Query of available slots (`ScheduleService.js`) -/

/-- The `where` clauses of `getAvailableSlots` (lines 164-168) on a slot document of the
collection `doctors/{doctorId}/slots`. -/
def availableQuery (doctorId : String) (startDate endDate : Int)
    (entry : SlotKey × AppointmentSlot) : Bool :=
  decide (entry.1.1 = doctorId) && decide (entry.2.start ≥ startDate) &&
    decide (entry.2.start ≤ endDate) && decide (entry.2.status = "free")

/-- The order of the query results, `orderBy('start', 'asc')`: by `start`, and by document
id among equal starts. -/
def startOrder (a b : SlotKey × AppointmentSlot) : Prop :=
  a.2.start < b.2.start ∨ (a.2.start = b.2.start ∧ a.1.2.data ≤ b.1.2.data)

instance : DecidableRel startOrder := fun a b => by
  unfold startOrder
  infer_instance

/-- Embedding of `getAvailableSlots(doctorId, startDate, endDate)`: the documents of the
query in its order, each returned as its id with its data. -/
def getAvailableSlots (db : Ledger) (doctorId : String) (startDate endDate : Int) :
    List (String × AppointmentSlot) :=
  ((db.slots.filter (availableQuery doctorId startDate endDate)).insertionSort startOrder).map
    (fun entry => (entry.1.2, entry.2))

/-! ## Slot generator (`ScheduleModels.js`) -/

/-- Time range `{ start: 'HH:MM', end: 'HH:MM' }` of a day, each string given by the two
numbers that `split(':').map(Number)` reads from it. -/
structure TimeRange where
  startHour : Nat
  startMinute : Nat
  endHour : Nat
  endMinute : Nat
deriving DecidableEq, Repr

/-- Entry of `weeklyHours`. -/
structure DaySchedule where
  dayOfWeek : Nat
  available : Bool
  slots : List TimeRange
deriving DecidableEq, Repr

/-- Weekly availability template, `ScheduleTemplateModel`. -/
structure ScheduleTemplate where
  doctorId : String
  timezone : String
  defaultSlotDuration : Int
  weeklyHours : List DaySchedule
  bufferTime : Int
deriving DecidableEq, Repr

/-- Entry `{ date: 'YYYY-MM-DD', slots }` of `specialHours`; the date string is given by the
number of the day it names, counted from 1970-01-01. -/
structure SpecialDay where
  date : Int
  slots : List TimeRange
deriving DecidableEq, Repr

/-- Schedule exception, `ScheduleExceptionModel`. -/
structure ScheduleException where
  doctorId : String
  type : String
  startDate : Int
  endDate : Int
  reason : String
  specialHours : List SpecialDay
deriving DecidableEq, Repr

/-- Number of milliseconds in a day. -/
def msPerDay : Int := 86400000

/-- Day of the week, `Date.prototype.getDay` (0 is Sunday; 1970-01-01 was a Thursday). -/
def getDay (date : Int) : Nat := ((date / msPerDay + 4) % 7).toNat

/-- Copy of `date` moved to `hours:minutes:00.000` of the same day, `setHours(h, m, 0, 0)`. -/
def setHours (date : Int) (hours minutes : Nat) : Int :=
  date - date % msPerDay + ((hours : Int) * 60 + (minutes : Int)) * msPerMinute

/-- Day named by `date.toISOString().split('T')[0]`: the UTC calendar day of `date`, where
`utcOffset` is the number of minutes the local wall clock is ahead of UTC. -/
def dateString (utcOffset : Int) (date : Int) : Int :=
  (date - utcOffset * msPerMinute) / msPerDay

/-- Failure of the generator: a loop that did not finish within the fuel, or the `TypeError`
of reading `.available` of a missing `weeklyHours` entry. -/
inductive GenError where
  | outOfFuel
  | typeError
deriving DecidableEq, Repr

/-- The object pushed at lines 204-211: a free in-person slot of the template's doctor. -/
def freeSlot (doctorId : String) (now slotStartTime slotEndTime : Int) : AppointmentSlot :=
  { doctorId := doctorId, start := slotStartTime, end_ := slotEndTime, status := "free",
    appointmentId := none, heldBy := none, holdExpiresAt := none, type := "in-person",
    createdAt := now, updatedAt := none }

/-- Inner `while (slotStartTime < rangeEndTime)` loop (lines 198-216): the slots it pushes,
in push order. `createdAt` is the clock reading `now`. -/
def slotLoop (doctorId : String) (slotDuration bufferTime rangeEndTime now : Int) :
    Nat → Int → Except GenError (List AppointmentSlot)
  | 0, slotStartTime =>
    if slotStartTime < rangeEndTime then .error GenError.outOfFuel else .ok []
  | fuel + 1, slotStartTime =>
    if slotStartTime < rangeEndTime then
      let slotEndTime := slotStartTime + slotDuration * msPerMinute
      match slotLoop doctorId slotDuration bufferTime rangeEndTime now fuel
          (slotStartTime + (slotDuration + bufferTime) * msPerMinute) with
      | .error e => .error e
      | .ok rest =>
        if slotEndTime ≤ rangeEndTime then
          .ok (freeSlot doctorId now slotStartTime slotEndTime :: rest)
        else .ok rest
    else .ok []

/-- Body of `daySlots.forEach(timeRange => ...)` (lines 187-217) for the day of
`currentDate`: the slots pushed for every time range, in order. -/
def rangesLoop (template : ScheduleTemplate) (now : Int) (fuel : Nat) (currentDate : Int) :
    List TimeRange → Except GenError (List AppointmentSlot)
  | [] => .ok []
  | timeRange :: others =>
    match slotLoop template.doctorId template.defaultSlotDuration template.bufferTime
        (setHours currentDate timeRange.endHour timeRange.endMinute) now fuel
        (setHours currentDate timeRange.startHour timeRange.startMinute) with
    | .error e => .error e
    | .ok first =>
      match rangesLoop template now fuel currentDate others with
      | .error e => .error e
      | .ok rest => .ok (first ++ rest)

/-- The exception picked for `currentDate` (lines 160-164): the first of the list whose
`[startDate, endDate]` contains `currentDate`. -/
def findException (exceptions : List ScheduleException) (currentDate : Int) :
    Option ScheduleException :=
  exceptions.find? (fun ex => decide (currentDate ≥ ex.startDate) && decide (currentDate ≤ ex.endDate))

/-- Time ranges used for the day (lines 173-184): those of the special day when the picked
exception is of type `special-hours` and lists the day, those of the template otherwise. -/
def daySlotsOf (dayTemplate : DaySchedule) (utcOffset currentDate : Int) :
    Option ScheduleException → List TimeRange
  | some ex =>
    if ex.type = "special-hours" then
      match ex.specialHours.find? (fun sh => decide (sh.date = dateString utcOffset currentDate)) with
      | some specialDay => specialDay.slots
      | none => dayTemplate.slots
    else dayTemplate.slots
  | none => dayTemplate.slots

/-- Whether the picked exception is of type `unavailable` (line 167). -/
def isUnavailable : Option ScheduleException → Bool
  | some ex => decide (ex.type = "unavailable")
  | none => false

/-- Outer `while (currentDate <= endDate)` loop (lines 151-222). -/
def dayLoop (template : ScheduleTemplate) (endDate : Int) (exceptions : List ScheduleException)
    (now utcOffset : Int) (innerFuel : Nat) : Nat → Int → Except GenError (List AppointmentSlot)
  | 0, currentDate => if currentDate ≤ endDate then .error GenError.outOfFuel else .ok []
  | fuel + 1, currentDate =>
    if currentDate ≤ endDate then
      match template.weeklyHours[getDay currentDate]? with
      | none => .error GenError.typeError
      | some dayTemplate =>
        if dayTemplate.available then
          let exception := findException exceptions currentDate
          if isUnavailable exception then
            dayLoop template endDate exceptions now utcOffset innerFuel fuel (currentDate + msPerDay)
          else
            match rangesLoop template now innerFuel currentDate
                (daySlotsOf dayTemplate utcOffset currentDate exception) with
            | .error e => .error e
            | .ok today =>
              match dayLoop template endDate exceptions now utcOffset innerFuel fuel
                  (currentDate + msPerDay) with
              | .error e => .error e
              | .ok rest => .ok (today ++ rest)
        else
          dayLoop template endDate exceptions now utcOffset innerFuel fuel (currentDate + msPerDay)
    else .ok []

/-- Embedding of `generateAvailableSlots(template, startDate, endDate, exceptions)`; `fuel`
bounds the number of iterations of each loop. -/
def generateAvailableSlots (fuel : Nat) (now utcOffset : Int) (template : ScheduleTemplate)
    (startDate endDate : Int) (exceptions : List ScheduleException) :
    Except GenError (List AppointmentSlot) :=
  dayLoop template endDate exceptions now utcOffset fuel fuel startDate

deriving instance DecidableEq for Except

/-! ## Well-formed time ranges -/

/-- Minutes after midnight at which a time range starts. -/
def TimeRange.startMinutes (r : TimeRange) : Int := (r.startHour : Int) * 60 + (r.startMinute : Int)

/-- Minutes after midnight at which a time range ends. -/
def TimeRange.endMinutes (r : TimeRange) : Int := (r.endHour : Int) * 60 + (r.endMinute : Int)

/-- The invariant of the ranges of a day: listed in order without overlap (each range ends
before any later one starts), each with its end after its start, and each a range of times
of day (ending at 24:00 at the latest). -/
def rangesOrdered (ranges : List TimeRange) : Prop :=
  ranges.Pairwise (fun r₁ r₂ => r₁.endMinutes ≤ r₂.startMinutes) ∧
  ∀ r ∈ ranges, r.startMinutes < r.endMinutes ∧ r.endMinutes ≤ 1440

instance (ranges : List TimeRange) : Decidable (rangesOrdered ranges) := by
  unfold rangesOrdered
  infer_instance

/-- A slot without its `createdAt` stamp (the stamp is set to zero). -/
def withoutCreatedAt (s : AppointmentSlot) : AppointmentSlot := { s with createdAt := 0 }

/-! ## Fuel that suffices -/

/-- Length of a time range in milliseconds (zero when the end is not after the start). -/
def TimeRange.span (r : TimeRange) : Nat :=
  ((r.endMinutes - r.startMinutes) * msPerMinute).toNat

/-- Sum of the lengths of the ranges of a list. -/
def totalSpan : List TimeRange → Nat
  | [] => 0
  | r :: rs => r.span + totalSpan rs

/-- Every time range that the generator can walk: those of the weekly template and those of
the special days of the exceptions. -/
def allRanges (template : ScheduleTemplate) (exceptions : List ScheduleException) :
    List TimeRange :=
  template.weeklyHours.flatMap (fun day => day.slots) ++
    exceptions.flatMap (fun ex => ex.specialHours.flatMap (fun sd => sd.slots))

/-- A number of iterations that lets both loops of the generator finish when
`defaultSlotDuration + bufferTime > 0`: more than the milliseconds of all ranges together,
and more than the milliseconds of the date range. -/
def enoughFuel (template : ScheduleTemplate) (exceptions : List ScheduleException)
    (startDate endDate : Int) : Nat :=
  max (totalSpan (allRanges template exceptions) + 1) ((endDate - startDate).toNat + 1)

/-! ## Sample data -/

/-- A free slot of doctor `d1`: Monday 2024-03-04, 09:00 to 09:30. -/
def sampleSlot : AppointmentSlot :=
  { doctorId := "d1", start := 1709542800000, end_ := 1709544600000, status := "free",
    appointmentId := none, heldBy := none, holdExpiresAt := none, type := "in-person",
    createdAt := 0, updatedAt := none }

/-- A ledger with two free slots of doctor `d1` and no appointments. -/
def sampleLedger : Ledger :=
  { slots := [(("d1", "s1"), sampleSlot),
              (("d1", "s2"), { sampleSlot with start := 1709544600000, end_ := 1709546400000 })]
    appointments := []
    events := [] }

/-- Booking request of patient `p` for slot `s1` of doctor `d1`, as the booking form
builds it. -/
def sampleRequest (p : String) : AppointmentData :=
  { doctorId := "d1", patientId := p, slotId := "s1", type := "in-person", reason := "checkup",
    notes := "", status := "requested",
    history := [{ status := "requested", timestamp := 0, note := "Appointment requested by patient" }] }

/-- The sample ledger after `p1` booked slot `s1` (appointment `a1`), cancelled it, and `p2`
booked the slot that became free (appointment `a2`). -/
def ledgerAfterRebooking : Ledger :=
  (bookAppointment
    (cancelAppointment (bookAppointment sampleLedger 0 "a1" (sampleRequest "p1")).2
      1 "a1" "changed my mind" "p1").2
    2 "a2" (sampleRequest "p2")).2

/-- Weekly hours with the given ranges on Monday to Friday and nothing at the weekend. -/
def weekdayHours (ranges : List TimeRange) : List DaySchedule :=
  [{ dayOfWeek := 0, available := false, slots := [] },
   { dayOfWeek := 1, available := true, slots := ranges },
   { dayOfWeek := 2, available := true, slots := ranges },
   { dayOfWeek := 3, available := true, slots := ranges },
   { dayOfWeek := 4, available := true, slots := ranges },
   { dayOfWeek := 5, available := true, slots := ranges },
   { dayOfWeek := 6, available := false, slots := [] }]

/-- Template of doctor `d1`: Monday to Friday 09:00-12:00, 30-minute slots, 10-minute buffer. -/
def sampleTemplate : ScheduleTemplate :=
  { doctorId := "d1", timezone := "UTC", defaultSlotDuration := 30,
    weeklyHours := weekdayHours [{ startHour := 9, startMinute := 0, endHour := 12, endMinute := 0 }],
    bufferTime := 10 }

/-- Monday 2024-03-04, 00:00. -/
def monday : Int := 1709510400000

/-- Instant of the day that starts at `monday`, given in minutes after midnight. -/
def mondayAt (minutes : Int) : Int := monday + minutes * msPerMinute

/-- Sunday 2024-03-03, 00:00. -/
def sunday : Int := monday - msPerDay

/-- A `special-hours` exception covering Monday 2024-03-04 that lists 10:00-11:00 for that
day (day number 19786). -/
def specialMonday : ScheduleException :=
  { doctorId := "d1", type := "special-hours", startDate := monday, endDate := monday + msPerDay,
    reason := "Short day",
    specialHours := [{ date := 19786,
                       slots := [{ startHour := 10, startMinute := 0, endHour := 11, endMinute := 0 }] }] }

/-- An `unavailable` exception covering Sunday 2024-03-03 to Sunday 2024-03-10. -/
def vacationWeek : ScheduleException :=
  { doctorId := "d1", type := "unavailable", startDate := sunday, endDate := monday + 6 * msPerDay,
    reason := "Vacation", specialHours := [] }

/-- A `special-hours` exception covering the week of Monday 2024-03-04 that lists hours only
for Tuesday (day number 19787). -/
def specialWeek : ScheduleException :=
  { doctorId := "d1", type := "special-hours", startDate := monday,
    endDate := monday + 6 * msPerDay, reason := "Conference week",
    specialHours := [{ date := 19787,
                       slots := [{ startHour := 14, startMinute := 0, endHour := 15, endMinute := 0 }] }] }

/-- A `special-hours` exception covering Sunday 2024-03-03 that lists 10:00-11:00 for that
day (day number 19785). -/
def specialSunday : ScheduleException :=
  { doctorId := "d1", type := "special-hours", startDate := sunday, endDate := sunday,
    reason := "Weekend clinic",
    specialHours := [{ date := 19785,
                       slots := [{ startHour := 10, startMinute := 0, endHour := 11, endMinute := 0 }] }] }

/-- Request of `p1` to move appointment `a1` from slot `s1` to slot `s2` of doctor `d1`. -/
def sampleReschedule : RescheduleData :=
  { appointmentId := "a1", oldSlotId := "s1", newSlotId := "s2", reason := "running late",
    userId := "p1", doctorId := "d1" }

/-- The sample ledger after `p1` booked slot `s1` (appointment `a1`). -/
def ledgerAfterBooking : Ledger :=
  (bookAppointment sampleLedger 0 "a1" (sampleRequest "p1")).2

/-- The time zone UTC: offset zero, no transitions. -/
def utcZone : TimeZone := { offset := 0, transitions := [] }

/-- The time zone `America/New_York` around 2024: five hours behind UTC, four hours behind
from 2024-03-10 07:00 UTC, five hours behind again from 2024-11-03 06:00 UTC. -/
def newYork : TimeZone :=
  { offset := -300, transitions := [(1710054000000, -240), (1730613600000, -300)] }

/-- The instant 2024-11-03 05:58:00 UTC, which is 01:58 on the wall clock of New York, two
minutes before the clocks go back. -/
def beforeFallBack : Int := 1730613480000

/-- The ledger after `p1` booked slot `s1` and then placed a hold on slot `s2`. -/
def ledgerWithOwnHold : Ledger :=
  (holdAppointmentSlot ledgerAfterBooking utcZone 1 "d1" "s2" "p1" 5).2

/-- The sample ledger after user `u1` placed a hold on slot `s1` at time 1000; the hold
expires at time 301000. -/
def ledgerWithHold : Ledger :=
  (holdAppointmentSlot sampleLedger utcZone 1000 "d1" "s1" "u1" 5).2

/-- A ledger with no documents. -/
def emptyLedger : Ledger := { slots := [], appointments := [], events := [] }

/-- The slots generated from the sample template for Monday 2024-03-04. -/
def mondaySlots : List AppointmentSlot :=
  [freeSlot "d1" 0 (mondayAt 540) (mondayAt 570),
   freeSlot "d1" 0 (mondayAt 580) (mondayAt 610),
   freeSlot "d1" 0 (mondayAt 620) (mondayAt 650),
   freeSlot "d1" 0 (mondayAt 660) (mondayAt 690)]

/-- The empty ledger after `saveAppointmentSlots` has been called twice with the slots of
Monday 2024-03-04. -/
def ledgerSavedTwice : Ledger :=
  (saveAppointmentSlots
    (saveAppointmentSlots emptyLedger 1 ["g1", "g2", "g3", "g4"] "d1" mondaySlots).2
    2 ["h1", "h2", "h3", "h4"] "d1" mondaySlots).2

/-- The sample template with the range 09:00-12:00 listed twice on every working day. -/
def doubledTemplate : ScheduleTemplate :=
  { sampleTemplate with
    weeklyHours := weekdayHours
      [{ startHour := 9, startMinute := 0, endHour := 12, endMinute := 0 },
       { startHour := 9, startMinute := 0, endHour := 12, endMinute := 0 }] }

/-! ## Call sequences -/

/-- One call of the scheduling service, with the clock reading it sees (and, for a hold, the
time zone of the host). -/
inductive Call where
  | hold (zone : TimeZone) (now : Int) (doctorId slotId userId : String)
      (holdDurationMinutes : Int)
  | book (now : Int) (newId : String) (appointmentData : AppointmentData)
  | cancel (now : Int) (appointmentId reason userId : String)
  | reschedule (now : Int) (rescheduleData : RescheduleData)
  | cleanup (now : Int) (doctorId : String)
deriving DecidableEq, Repr

/-- The ledger after a call, whether the call succeeded or failed. -/
def Call.exec (db : Ledger) : Call → Ledger
  | .hold zone now doctorId slotId userId ttl =>
    (holdAppointmentSlot db zone now doctorId slotId userId ttl).2
  | .book now newId appointmentData => (bookAppointment db now newId appointmentData).2
  | .cancel now appointmentId reason userId =>
    (cancelAppointment db now appointmentId reason userId).2
  | .reschedule now rescheduleData => (rescheduleAppointment db now rescheduleData).2
  | .cleanup now doctorId => (cleanupExpiredHolds db now doctorId).2

/-- Calls that can occur on the ledger `db`: the id generated for a new appointment is not
in use, and a reschedule names as `oldSlotId` the slot that the appointment currently has. -/
def Call.admissible (db : Ledger) : Call → Bool
  | .book _ newId _ => (getDoc newId db.appointments).isNone
  | .reschedule _ rescheduleData =>
    match getDoc rescheduleData.appointmentId db.appointments with
    | some appt => decide (appt.slotId = rescheduleData.oldSlotId)
    | none => true
  | _ => true

/-- The ledger after a sequence of calls; `none` when one of them is not admissible. -/
def runCalls (db : Ledger) : List Call → Option Ledger
  | [] => some db
  | call :: rest => if call.admissible db then runCalls (call.exec db) rest else none

/-- Initial ledgers: every slot is free and there are no appointments. -/
def Ledger.initial (db : Ledger) : Bool :=
  db.slots.all (fun entry => decide (entry.2.status = "free")) && db.appointments.isEmpty

/-- Whether two different appointments that are not cancelled name the same slot. -/
def Ledger.doubleBooked (db : Ledger) : Bool :=
  db.appointments.any (fun a => db.appointments.any (fun b =>
    decide (a.1 ≠ b.1) && decide (a.2.doctorId = b.2.doctorId) &&
      decide (a.2.slotId = b.2.slotId) &&
      decide (a.2.status ≠ "cancelled") && decide (b.2.status ≠ "cancelled")))

/-- Five calls on slot `s1`: `p1` books and cancels, `p2` books, the cancelled appointment of
`p1` is cancelled once more, and `p3` books. -/
def doubleBookingCalls : List Call :=
  [Call.book 0 "a1" (sampleRequest "p1"),
   Call.cancel 1 "a1" "changed my mind" "p1",
   Call.book 2 "a2" (sampleRequest "p2"),
   Call.cancel 3 "a1" "again" "p1",
   Call.book 4 "a3" (sampleRequest "p3")]

/-- The sample ledger with a third free slot `s3`, after `p1` booked `s1` (appointment `a1`)
and `p2` booked `s2` (appointment `a2`). -/
def ledgerTwoBookings : Ledger :=
  (bookAppointment
    (bookAppointment
      { sampleLedger with
        slots := sampleLedger.slots ++
          [(("d1", "s3"), { sampleSlot with start := 1709546400000, end_ := 1709548200000 })] }
      0 "a1" (sampleRequest "p1")).2
    1 "a2" { sampleRequest "p2" with slotId := "s2" }).2

/-- A reschedule of appointment `a1` (stored on slot `s1`) onto slot `s3` in which the
caller names `s2` as the old slot. -/
def strayReschedule : RescheduleData :=
  { appointmentId := "a1", oldSlotId := "s2", newSlotId := "s3", reason := "running late",
    userId := "p1", doctorId := "d1" }

/-! ## Booking form (`AppointmentScheduler.js`) -/

/-- The request that `handleBookAppointment` (lines 154-180) hands to `bookAppointment` for
the signed-in user and the selected slot: status `requested` and a `history` array with one
`requested` entry stamped by the clock. (The form's further fields, such as the insurance
details, are stored as they are and are left out here.) -/
def handleBookAppointment (now : Int) (doctorId userId slotId type reason notes : String) :
    AppointmentData :=
  { doctorId := doctorId, patientId := userId, slotId := slotId, type := type,
    reason := reason, notes := notes, status := "requested",
    history := [{ status := "requested", timestamp := now,
                  note := "Appointment requested by patient" }] }

/-- The documents of the sub-collection `appointments/{appointmentId}/events`, in the order
they were written. -/
def eventsOf (db : Ledger) (appointmentId : String) : List AppointmentEvent :=
  (db.events.filter (fun e => decide (e.1 = appointmentId))).map Prod.snd

/-- The sample ledger after `p1` booked slot `s1` through the booking form at time 10. -/
def ledgerAfterFormBooking : Ledger :=
  (bookAppointment sampleLedger 10 "a1"
    (handleBookAppointment 10 "d1" "p1" "s1" "in-person" "checkup" "")).2

/-! ## Cancel form (`CancelAppointment.js`) and the overlap check (`ScheduleModels.js`) -/

/-- The flag `isWithin24Hours` of the cancel form (lines 16-21): the difference of the two
instants in milliseconds, divided by the milliseconds of an hour, compared with 24. The
division is that of rational numbers: for instants that are whole milliseconds the rounding
of the floating-point quotient never crosses 24. -/
def isWithin24Hours (start now : Int) : Bool :=
  let diffInHours : ℚ := ((start - now : Int) : ℚ) / (1000 * 60 * 60)
  decide (diffInHours ≤ 24)

/-- The overlap check `isSlotAvailable` (lines 235-247); an existing appointment is the pair
of its `start` and `end`. -/
def isSlotAvailable (existingAppointments : List (Int × Int)) (start end_ : Int) : Bool :=
  !existingAppointments.any (fun appointment =>
    let appointmentStart := appointment.1
    let appointmentEnd := appointment.2
    (decide (start ≥ appointmentStart) && decide (start < appointmentEnd)) ||
    (decide (end_ > appointmentStart) && decide (end_ ≤ appointmentEnd)) ||
    (decide (start ≤ appointmentStart) && decide (end_ ≥ appointmentEnd)))

/-- The overlap of two half-open intervals `[start, end)`, in the words of the
specification. -/
def halfOpenOverlap (start end_ : Int) (appointment : Int × Int) : Prop :=
  start < appointment.2 ∧ appointment.1 < end_

instance (start end_ : Int) (appointment : Int × Int) :
    Decidable (halfOpenOverlap start end_ appointment) := by
  unfold halfOpenOverlap
  exact inferInstance

/-! ## Number of slots of a time range -/

/-- The number of slots that the specification gives for a time range of `L` minutes:
`floor((L + b) / (d + b))` for slot duration `d` and buffer `b`. -/
def slotsPerRange (d b : Int) (r : TimeRange) : Nat :=
  ((r.endMinutes - r.startMinutes + b) / (d + b)).toNat

/-- A day of the week with the given time ranges. -/
def dayWith (dayOfWeek : Nat) (slots : List TimeRange) : DaySchedule :=
  { dayOfWeek := dayOfWeek, available := true, slots := slots }

/-- The ranges of a working day of the sample template: 09:00-12:00. -/
def morningHours : List TimeRange :=
  [{ startHour := 9, startMinute := 0, endHour := 12, endMinute := 0 }]

/-- A template whose Monday has three ranges: 08:00-08:20 (shorter than a slot), 09:00-09:30
(exactly one slot) and 10:00-13:00; 30-minute slots with a 10-minute buffer. -/
def threeRangeTemplate : ScheduleTemplate :=
  { sampleTemplate with
    weeklyHours := sampleTemplate.weeklyHours.set 1 (dayWith 1
      [{ startHour := 8, startMinute := 0, endHour := 8, endMinute := 20 },
       { startHour := 9, startMinute := 0, endHour := 9, endMinute := 30 },
       { startHour := 10, startMinute := 0, endHour := 13, endMinute := 0 }]) }

/-! ## Sample data: a full working day -/

/-- Template of doctor `d1`: Monday to Friday 09:00-17:00, 30-minute slots, no buffer. -/
def fullDayTemplate : ScheduleTemplate :=
  { doctorId := "d1", timezone := "UTC", defaultSlotDuration := 30,
    weeklyHours := weekdayHours
      [{ startHour := 9, startMinute := 0, endHour := 17, endMinute := 0 }],
    bufferTime := 0 }

/-- The slots generated from `fullDayTemplate` for Monday 2024-03-04, no exceptions. -/
def fullMondaySlots : List AppointmentSlot :=
  match generateAvailableSlots 20 0 0 fullDayTemplate monday monday [] with
  | .ok slots => slots
  | .error _ => []

/-- The ledger that holds the generated slots of Monday 2024-03-04 under the ids `m01` to
`m16`, each stamped at time 0, and nothing else. -/
def fullMondayLedger : Ledger :=
  { slots := (["m01", "m02", "m03", "m04", "m05", "m06", "m07", "m08",
               "m09", "m10", "m11", "m12", "m13", "m14", "m15", "m16"].zip fullMondaySlots).map
      (fun p => (("d1", p.1), { p.2 with updatedAt := some 0 })),
    appointments := [],
    events := [] }

/-- The request of patient `p1` for slot `m01` of doctor `d1`, the 09:00 slot of Monday
2024-03-04. -/
def mondayRequest : AppointmentData :=
  { sampleRequest "p1" with slotId := "m01" }

/-! ## Slot record invariant -/

/-- The invariant of a slot record, in the words of the specification: the status is one of
`free`, `held`, `booked`; a held slot has `heldBy` and `holdExpiresAt` and no
`appointmentId`; a booked slot has an `appointmentId` and neither `heldBy` nor
`holdExpiresAt`; a free slot has none of the three. -/
def AppointmentSlot.wellFormed (s : AppointmentSlot) : Bool :=
  (decide (s.status = "held") && s.heldBy.isSome && s.holdExpiresAt.isSome &&
      s.appointmentId.isNone) ||
  (decide (s.status = "booked") && s.appointmentId.isSome && s.heldBy.isNone &&
      s.holdExpiresAt.isNone) ||
  (decide (s.status = "free") && s.heldBy.isNone && s.holdExpiresAt.isNone &&
      s.appointmentId.isNone)

/-- Whether every slot of the ledger satisfies the slot record invariant. -/
def Ledger.slotsWellFormed (db : Ledger) : Bool :=
  db.slots.all (fun entry => entry.2.wellFormed)

/-- Four calls on the 09:00 slot `m01`: `p1` books and cancels, `p2` takes a hold, and the
cancelled appointment of `p1` is cancelled once more. -/
def staleCancelCalls : List Call :=
  [Call.book 1 "a1" mondayRequest,
   Call.cancel 2 "a1" "changed my mind" "p1",
   Call.hold utcZone 3 "d1" "m01" "p2" 5,
   Call.cancel 4 "a1" "again" "p1"]

/-! ## Emitted slots as existing appointments -/

/-- The emitted slots other than the one at index `i`, as the `start` and `end` that
`isSlotAvailable` reads from each of them. -/
def otherSlots (slots : List AppointmentSlot) (i : Nat) : List (Int × Int) :=
  (slots.eraseIdx i).map (fun other => (other.start, other.end_))

/-! ## The time ranges that the generator walks -/

/-- The values that `currentDate` takes in the iterations of the outer loop (lines 151 and
221): `startDate`, then one day more each time, as long as the value is not after
`endDate`. -/
def visitedDates (startDate endDate : Int) : List Int :=
  (List.range ((endDate - startDate) / msPerDay + 1).toNat).map
    (fun (k : Nat) => startDate + (k : Int) * msPerDay)

/-- The time ranges that the generator walks in the iteration for `currentDate` (lines
153-187): none when the day is not available in the template or the picked exception is
`unavailable`, the ranges of `daySlotsOf` otherwise. (Without an entry of `weeklyHours` for
the day the generator throws and walks no range.) -/
def dayRanges (template : ScheduleTemplate) (exceptions : List ScheduleException)
    (utcOffset currentDate : Int) : List TimeRange :=
  match template.weeklyHours[getDay currentDate]? with
  | none => []
  | some dayTemplate =>
    if dayTemplate.available then
      if isUnavailable (findException exceptions currentDate) then []
      else daySlotsOf dayTemplate utcOffset currentDate (findException exceptions currentDate)
    else []

/-- The time ranges that the generator walks, each with the value of `currentDate` in its
iteration, in the order in which they are walked. -/
def visitedRanges (template : ScheduleTemplate) (exceptions : List ScheduleException)
    (utcOffset startDate endDate : Int) : List (Int × TimeRange) :=
  (visitedDates startDate endDate).flatMap (fun currentDate =>
    (dayRanges template exceptions utcOffset currentDate).map (fun r => (currentDate, r)))

/-- The instant `rangeStartTime` of a walked time range (lines 190-192). -/
def rangeStartTime (p : Int × TimeRange) : Int := setHours p.1 p.2.startHour p.2.startMinute

/-- The instant `rangeEndTime` of a walked time range (lines 194-196). -/
def rangeEndTime (p : Int × TimeRange) : Int := setHours p.1 p.2.endHour p.2.endMinute

/-- The slots `g` are what the inner loop pushes for the walked time range `p`, in push
order. -/
def emittedFrom (template : ScheduleTemplate) (now : Int) (fuel : Nat) (p : Int × TimeRange)
    (g : List AppointmentSlot) : Prop :=
  slotLoop template.doctorId template.defaultSlotDuration template.bufferTime
    (rangeEndTime p) now fuel (rangeStartTime p) = .ok g

/-! ## Keyed collections: lemmas -/

theorem getDoc_updateDoc_self {κ β : Type} [DecidableEq κ] (k : κ) (f : β → β)
    (l : List (κ × β)) : getDoc k (updateDoc k f l) = (getDoc k l).map f := by
  induction l with
  | nil => rfl
  | cons hd tl ih =>
    obtain ⟨k', v⟩ := hd
    by_cases h : k' = k <;> simp [getDoc, updateDoc, h, ih]

theorem getDoc_updateDoc_ne {κ β : Type} [DecidableEq κ] (k k' : κ) (f : β → β)
    (l : List (κ × β)) (hne : k' ≠ k) : getDoc k' (updateDoc k f l) = getDoc k' l := by
  induction l with
  | nil => rfl
  | cons hd tl ih =>
    obtain ⟨k₀, v⟩ := hd
    by_cases h : k₀ = k
    · subst h
      have h2 : ¬ k₀ = k' := fun e => hne e.symm
      simp [getDoc, updateDoc, h2, ih]
    · by_cases h2 : k₀ = k'
      · subst h2
        simp [getDoc, updateDoc, h]
      · simp [getDoc, updateDoc, h, h2, ih]

theorem map_fst_updateDoc {κ β : Type} [DecidableEq κ] (k : κ) (f : β → β)
    (l : List (κ × β)) : (updateDoc k f l).map Prod.fst = l.map Prod.fst := by
  induction l with
  | nil => rfl
  | cons hd tl ih =>
    obtain ⟨k', v⟩ := hd
    by_cases h : k' = k <;> simp [updateDoc, h, ih]

theorem getDoc_append {κ β : Type} [DecidableEq κ] (k : κ) (l₁ l₂ : List (κ × β)) :
    getDoc k (l₁ ++ l₂) = (getDoc k l₁).orElse (fun _ => getDoc k l₂) := by
  induction l₁ with
  | nil => rfl
  | cons hd tl ih =>
    obtain ⟨k', v⟩ := hd
    by_cases h : k' = k <;> simp [getDoc, h, ih]

theorem getDoc_setDoc_self {κ β : Type} [DecidableEq κ] (k : κ) (v : β) (l : List (κ × β)) :
    getDoc k (setDoc k v l) = some v := by
  unfold setDoc
  cases h : getDoc k l with
  | some w => simp [getDoc_updateDoc_self, h]
  | none => simp [getDoc_append, h, getDoc]

theorem getDoc_setDoc_ne {κ β : Type} [DecidableEq κ] (k k' : κ) (v : β) (l : List (κ × β))
    (hne : k' ≠ k) : getDoc k' (setDoc k v l) = getDoc k' l := by
  unfold setDoc
  cases h : getDoc k l with
  | some w => simp [getDoc_updateDoc_ne _ _ _ _ hne]
  | none =>
    have h2 : ¬ k = k' := fun e => hne e.symm
    cases h3 : getDoc k' l <;> simp [getDoc_append, getDoc, h2, h3]

/-! ## Hold -/

/-- What `holdAppointmentSlot` returns on an existing slot, in one equation. -/
theorem holdAppointmentSlot_eq (db : Ledger) (zone : TimeZone) (now : Int)
    (doctorId slotId userId : String) (ttl : Int) (slot : AppointmentSlot)
    (hslot : getDoc (doctorId, slotId) db.slots = some slot) :
    holdAppointmentSlot db zone now doctorId slotId userId ttl =
      if slot.status ≠ "free" then (.ok false, db)
      else (.ok true, { db with slots := (updateDoc (doctorId, slotId) (fun s =>
        { s with status := "held", heldBy := some userId,
                 holdExpiresAt := some (setMinutes zone now (getMinutes zone now + ttl)),
                 updatedAt := some now })
        db.slots) }) := by
  unfold holdAppointmentSlot runTransaction holdAppointmentSlotBody
  rw [hslot]
  by_cases h : slot.status = "free"
  · simp [h, applyWrites, applyWrite, hslot]
  · simp [h, applyWrites]

/-- Adding minutes through `setMinutes(getMinutes() + minutes)` moves the local time by that
many minutes; in a time zone without transitions it moves the instant by that many
minutes. -/
theorem setMinutes_getMinutes (zone : TimeZone) (date minutes : Int) :
    setMinutes zone date (getMinutes zone date + minutes)
      = zone.toUTC (localTime zone date + minutes * msPerMinute) ∧
    (zone.transitions = [] →
      setMinutes zone date (getMinutes zone date + minutes) = date + minutes * msPerMinute) := by
  have h : setMinutes zone date (getMinutes zone date + minutes)
      = zone.toUTC (localTime zone date + minutes * msPerMinute) := by
    unfold setMinutes
    congr 1
    ring
  refine ⟨h, ?_⟩
  intro hnone
  rw [h]
  simp only [TimeZone.toUTC, localTime, TimeZone.offsetAt, hnone, utcFrom, List.foldl_nil]
  ring

/-- On an existing slot `holdAppointmentSlot` returns `true` exactly when the status is
`free`; it then stamps `held`, `heldBy = userId` and `holdExpiresAt` (the clock reading with
`ttl` added to the minutes of its wall clock) on that slot and changes no other field of it
(start, end, type, appointmentId), no other slot, no appointment and no event; on any other
status it returns `false` and leaves the whole ledger as it was. The default `ttl` is 5. -/
theorem holdAppointmentSlot_effects (db : Ledger) (zone : TimeZone) (now : Int)
    (doctorId slotId userId : String) (ttl : Int) (slot : AppointmentSlot)
    (hslot : getDoc (doctorId, slotId) db.slots = some slot) :
    ((holdAppointmentSlot db zone now doctorId slotId userId ttl).1 = .ok true ↔
        slot.status = "free") ∧
    (slot.status = "free" →
      getDoc (doctorId, slotId)
          (holdAppointmentSlot db zone now doctorId slotId userId ttl).2.slots
        = some { slot with status := "held", heldBy := some userId,
                           holdExpiresAt := some (zone.toUTC (localTime zone now + ttl * 60000)),
                           updatedAt := some now } ∧
      (∀ key, key ≠ (doctorId, slotId) →
        getDoc key (holdAppointmentSlot db zone now doctorId slotId userId ttl).2.slots
          = getDoc key db.slots) ∧
      (holdAppointmentSlot db zone now doctorId slotId userId ttl).2.slots.map Prod.fst
        = db.slots.map Prod.fst ∧
      (holdAppointmentSlot db zone now doctorId slotId userId ttl).2.appointments
        = db.appointments ∧
      (holdAppointmentSlot db zone now doctorId slotId userId ttl).2.events = db.events) ∧
    (slot.status ≠ "free" →
      holdAppointmentSlot db zone now doctorId slotId userId ttl = (.ok false, db)) ∧
    holdAppointmentSlotDefault db zone now doctorId slotId userId
      = holdAppointmentSlot db zone now doctorId slotId userId 5 := by
  rw [holdAppointmentSlot_eq db zone now doctorId slotId userId ttl slot hslot]
  refine ⟨?_, ?_, ?_, rfl⟩
  · by_cases h : slot.status = "free" <;> simp [h]
  · intro h
    rw [if_neg (not_not.mpr h)]
    refine ⟨?_, ?_, ?_, rfl, rfl⟩
    · rw [getDoc_updateDoc_self, hslot, (setMinutes_getMinutes zone now ttl).1]; rfl
    · intro key hkey
      exact getDoc_updateDoc_ne _ _ _ _ hkey
    · exact map_fst_updateDoc _ _ _
  · intro h
    simp [h]

/-- C3 fails on the code: on a host in the time zone of New York, at 2024-11-03 05:58 UTC
(01:58 on the wall clock, two minutes before the clocks go back), `holdAppointmentSlot` with
the default duration on the free slot `s1` returns `true` and stores a `holdExpiresAt` that
is 65 minutes after the clock reading, not 5: the five minutes are added to the minutes of
the wall clock, and 02:03 is read back as an instant after the transition. The status and
`heldBy` are as the claim says, and on a host in UTC the same call stores the clock reading
plus 5 minutes. -/
theorem hold_expiry_at_fall_back :
    getMinutes newYork beforeFallBack = 58 ∧
    (holdAppointmentSlotDefault sampleLedger newYork beforeFallBack "d1" "s1" "u1").1
      = .ok true ∧
    (getDoc ("d1", "s1")
        (holdAppointmentSlotDefault sampleLedger newYork beforeFallBack "d1" "s1" "u1").2.slots).map
        (fun s => (s.status, s.heldBy, s.holdExpiresAt))
      = some ("held", some "u1", some (beforeFallBack + 65 * msPerMinute)) ∧
    (getDoc ("d1", "s1")
        (holdAppointmentSlotDefault sampleLedger utcZone beforeFallBack "d1" "s1" "u1").2.slots).map
        (fun s => (s.status, s.heldBy, s.holdExpiresAt))
      = some ("held", some "u1", some (beforeFallBack + 5 * msPerMinute)) := by
  refine ⟨?_, ?_, ?_, ?_⟩ <;> decide

/-! ## Book -/

/-- What `bookAppointment` returns on an existing slot, in one equation. -/
theorem bookAppointment_eq (db : Ledger) (now : Int) (newId : String) (data : AppointmentData)
    (slot : AppointmentSlot)
    (hslot : getDoc (data.doctorId, data.slotId) db.slots = some slot) :
    bookAppointment db now newId data =
      if slot.status = "free" ∨ (slot.status = "held" ∧ slot.heldBy = some data.patientId) then
        (.ok newId,
          { db with
            appointments := (setDoc newId
              { doctorId := data.doctorId, patientId := data.patientId, slotId := data.slotId,
                type := data.type, reason := data.reason, notes := data.notes,
                history := data.history, start := slot.start, end_ := slot.end_,
                status := "confirmed", cancellationReason := none, rescheduledReason := none,
                createdAt := now, updatedAt := now } db.appointments)
            slots := (updateDoc (data.doctorId, data.slotId) (fun s =>
              { s with status := "booked", appointmentId := some newId, heldBy := none,
                       holdExpiresAt := none, updatedAt := some now }) db.slots) })
      else (.error "Slot is not available", db) := by
  unfold bookAppointment runTransaction bookAppointmentBody
  rw [hslot]
  by_cases h : slot.status = "free" ∨ (slot.status = "held" ∧ slot.heldBy = some data.patientId)
  · have h' : ¬ (slot.status ≠ "free" ∧
        ¬ (slot.status = "held" ∧ slot.heldBy = some data.patientId)) := by tauto
    dsimp only
    rw [if_neg h', if_pos h]
    simp [applyWrites, applyWrite, hslot]
  · have h' : slot.status ≠ "free" ∧
        ¬ (slot.status = "held" ∧ slot.heldBy = some data.patientId) := by tauto
    dsimp only
    rw [if_pos h', if_neg h]

/-- A transaction that reports an error has written nothing. -/
theorem runTransaction_error_unchanged {α : Type} (db : Ledger)
    (body : Ledger → Except String (α × List Write)) (e : String)
    (h : (runTransaction db body).1 = .error e) : (runTransaction db body).2 = db := by
  unfold runTransaction at h ⊢
  cases hb : body db with
  | error e' => rfl
  | ok r =>
    obtain ⟨a, ws⟩ := r
    rw [hb] at h
    dsimp only at h ⊢
    cases hw : applyWrites db ws with
    | none => rfl
    | some db' => rw [hw] at h; simp at h

/-- C2: on an existing slot `bookAppointment` succeeds if and only if the slot is `free`, or
`held` with `heldBy` equal to the booking's `patientId`; otherwise (booked, held by someone
else, any other status) it fails with `Slot is not available`, and on a missing slot with
`Slot does not exist`; every failing call leaves the whole ledger, slots and appointments
and events, exactly as it was, so no appointment is created. -/
theorem bookAppointment_guard (db : Ledger) (now : Int) (newId : String)
    (data : AppointmentData) :
    (∀ slot, getDoc (data.doctorId, data.slotId) db.slots = some slot →
      (((∃ id, (bookAppointment db now newId data).1 = .ok id) ↔
          (slot.status = "free" ∨
            (slot.status = "held" ∧ slot.heldBy = some data.patientId))) ∧
       (¬ (slot.status = "free" ∨
            (slot.status = "held" ∧ slot.heldBy = some data.patientId)) →
          bookAppointment db now newId data = (.error "Slot is not available", db)))) ∧
    (getDoc (data.doctorId, data.slotId) db.slots = none →
      bookAppointment db now newId data = (.error "Slot does not exist", db)) ∧
    (∀ e, (bookAppointment db now newId data).1 = .error e →
      (bookAppointment db now newId data).2 = db) := by
  refine ⟨?_, ?_, ?_⟩
  · intro slot hslot
    rw [bookAppointment_eq db now newId data slot hslot]
    by_cases h : slot.status = "free" ∨
        (slot.status = "held" ∧ slot.heldBy = some data.patientId)
    · simp [h]
    · simp [h]
  · intro hnone
    unfold bookAppointment runTransaction bookAppointmentBody
    rw [hnone]
  · intro e he
    exact runTransaction_error_unchanged db _ e he

/-- Witness of C2: once `p1` has booked slot `s1`, a booking by `p2` fails and changes
nothing. -/
theorem bookAppointment_guard_witness :
    getDoc ("d1", "s1") (bookAppointment sampleLedger 0 "a1" (sampleRequest "p1")).2.slots
      = some { sampleSlot with status := "booked", appointmentId := some "a1",
                               updatedAt := some 0 } ∧
    bookAppointment (bookAppointment sampleLedger 0 "a1" (sampleRequest "p1")).2 1 "a2"
        (sampleRequest "p2")
      = (.error "Slot is not available",
          (bookAppointment sampleLedger 0 "a1" (sampleRequest "p1")).2) :=
  ⟨by decide,
   ((bookAppointment_guard (bookAppointment sampleLedger 0 "a1" (sampleRequest "p1")).2 1 "a2"
      (sampleRequest "p2")).1
        { sampleSlot with status := "booked", appointmentId := some "a1", updatedAt := some 0 }
        (by decide)).2 (by decide)⟩

/-! ## Cancel -/

/-- What `cancelAppointment` returns on an existing appointment, in one equation. -/
theorem cancelAppointment_eq (db : Ledger) (now : Int) (appointmentId reason userId : String)
    (appt : Appointment) (happt : getDoc appointmentId db.appointments = some appt) :
    cancelAppointment db now appointmentId reason userId =
      if appt.slotId ≠ "" then
        match getDoc (appt.doctorId, appt.slotId) db.slots with
        | some _ =>
          (.ok (),
            { slots := updateDoc (appt.doctorId, appt.slotId) (fun s =>
                { s with status := "free", appointmentId := none, updatedAt := some now })
                db.slots
              appointments := updateDoc appointmentId (fun a =>
                { a with status := "cancelled", cancellationReason := some reason,
                         updatedAt := now }) db.appointments
              events := db.events ++ [(appointmentId,
                { status := "cancelled", timestamp := now, userId := userId,
                  note := orElse reason "Appointment cancelled", type := "status_change",
                  oldSlotId := none, newSlotId := none, oldStart := none, newStart := none })] })
        | none => (.error "No document to update", db)
      else
        (.ok (),
          { slots := db.slots
            appointments := updateDoc appointmentId (fun a =>
              { a with status := "cancelled", cancellationReason := some reason,
                       updatedAt := now }) db.appointments
            events := db.events ++ [(appointmentId,
              { status := "cancelled", timestamp := now, userId := userId,
                note := orElse reason "Appointment cancelled", type := "status_change",
                oldSlotId := none, newSlotId := none, oldStart := none, newStart := none })] }) := by
  unfold cancelAppointment runTransaction cancelAppointmentBody
  rw [happt]
  dsimp only
  by_cases h : appt.slotId = ""
  · rw [if_neg (not_not.mpr h), if_neg (not_not.mpr h)]
    simp [applyWrites, applyWrite, happt]
  · rw [if_pos h, if_pos h]
    cases hs : getDoc (appt.doctorId, appt.slotId) db.slots with
    | none => simp [applyWrites, applyWrite, happt, hs]
    | some slot => simp [applyWrites, applyWrite, happt, hs]

/-- C10: a successful `cancelAppointment(appointmentId, reason, userId)` sets the
appointment's status to `cancelled` and its `cancellationReason` to `reason`, leaving its
other fields (doctorId, patientId, slotId, start, end) as they were; appends exactly one
event `{cancelled, userId, note}` with `note = reason`, or `Appointment cancelled` when the
reason is empty; sets the slot named by the appointment's `slotId` to `free` with
`appointmentId` cleared; changes no other appointment and no other slot. It succeeds
whenever the appointment and its slot exist, and on a missing appointment it fails and
leaves the ledger as it was. -/
theorem cancelAppointment_effects (db : Ledger) (now : Int)
    (appointmentId reason userId : String) :
    (∀ db', cancelAppointment db now appointmentId reason userId = (.ok (), db') →
      ∃ appt, getDoc appointmentId db.appointments = some appt ∧
        getDoc appointmentId db'.appointments
          = some { appt with status := "cancelled", cancellationReason := some reason,
                             updatedAt := now } ∧
        (∀ id, id ≠ appointmentId → getDoc id db'.appointments = getDoc id db.appointments) ∧
        db'.appointments.map Prod.fst = db.appointments.map Prod.fst ∧
        db'.events = db.events ++ [(appointmentId,
          { status := "cancelled", timestamp := now, userId := userId,
            note := if reason = "" then "Appointment cancelled" else reason,
            type := "status_change", oldSlotId := none, newSlotId := none,
            oldStart := none, newStart := none })] ∧
        (appt.slotId ≠ "" →
          ∃ slot, getDoc (appt.doctorId, appt.slotId) db.slots = some slot ∧
            getDoc (appt.doctorId, appt.slotId) db'.slots
              = some { slot with status := "free", appointmentId := none,
                                 updatedAt := some now }) ∧
        (appt.slotId = "" → db'.slots = db.slots) ∧
        (∀ key, key ≠ (appt.doctorId, appt.slotId) →
          getDoc key db'.slots = getDoc key db.slots) ∧
        db'.slots.map Prod.fst = db.slots.map Prod.fst) ∧
    (∀ appt slot, getDoc appointmentId db.appointments = some appt →
      getDoc (appt.doctorId, appt.slotId) db.slots = some slot →
      (cancelAppointment db now appointmentId reason userId).1 = .ok ()) ∧
    (getDoc appointmentId db.appointments = none →
      cancelAppointment db now appointmentId reason userId
        = (.error "Appointment does not exist", db)) := by
  refine ⟨?_, ?_, ?_⟩
  · intro db' hok
    cases happt : getDoc appointmentId db.appointments with
    | none =>
      exfalso
      unfold cancelAppointment runTransaction cancelAppointmentBody at hok
      rw [happt] at hok
      simp at hok
    | some appt =>
      refine ⟨appt, rfl, ?_⟩
      rw [cancelAppointment_eq db now appointmentId reason userId appt happt] at hok
      by_cases h : appt.slotId = ""
      · rw [if_neg (not_not.mpr h)] at hok
        have hdb := (Prod.mk.inj hok).2
        subst hdb
        refine ⟨?_, ?_, ?_, rfl, ?_, ?_, ?_, rfl⟩
        · rw [getDoc_updateDoc_self, happt]; rfl
        · intro id hid
          exact getDoc_updateDoc_ne _ _ _ _ hid
        · exact map_fst_updateDoc _ _ _
        · intro hne; exact absurd h hne
        · intro _; rfl
        · intro key _; rfl
      · rw [if_pos h] at hok
        cases hs : getDoc (appt.doctorId, appt.slotId) db.slots with
        | none => rw [hs] at hok; simp at hok
        | some slot =>
          rw [hs] at hok
          have hdb := (Prod.mk.inj hok).2
          subst hdb
          refine ⟨?_, ?_, ?_, rfl, ?_, ?_, ?_, ?_⟩
          · rw [getDoc_updateDoc_self, happt]; rfl
          · intro id hid
            exact getDoc_updateDoc_ne _ _ _ _ hid
          · exact map_fst_updateDoc _ _ _
          · intro _
            refine ⟨slot, rfl, ?_⟩
            show getDoc _ (updateDoc _ _ _) = _
            rw [getDoc_updateDoc_self, hs]; rfl
          · intro he; exact absurd he h
          · intro key hkey
            exact getDoc_updateDoc_ne _ _ _ _ hkey
          · exact map_fst_updateDoc _ _ _
  · intro appt slot happt hslot
    rw [cancelAppointment_eq db now appointmentId reason userId appt happt, hslot]
    by_cases h : appt.slotId = ""
    · rw [if_neg (not_not.mpr h)]
    · rw [if_pos h]
  · intro hnone
    unfold cancelAppointment runTransaction cancelAppointmentBody
    rw [hnone]

/-- Witness of C10: `p1` cancels the appointment `a1` just booked on slot `s1`, which
becomes free again. -/
theorem cancelAppointment_effects_witness :
    (cancelAppointment (bookAppointment sampleLedger 0 "a1" (sampleRequest "p1")).2
        1 "a1" "" "p1").1 = .ok () ∧
    getDoc ("d1", "s1")
        (cancelAppointment (bookAppointment sampleLedger 0 "a1" (sampleRequest "p1")).2
          1 "a1" "" "p1").2.slots
      = some { sampleSlot with updatedAt := some 1 } :=
  ⟨(cancelAppointment_effects (bookAppointment sampleLedger 0 "a1" (sampleRequest "p1")).2
      1 "a1" "" "p1").2.1
      { doctorId := "d1", patientId := "p1", slotId := "s1", start := 1709542800000,
        end_ := 1709544600000, status := "confirmed", type := "in-person", reason := "checkup",
        notes := "", history := (sampleRequest "p1").history, cancellationReason := none,
        rescheduledReason := none, createdAt := 0, updatedAt := 0 }
      { sampleSlot with status := "booked", appointmentId := some "a1", updatedAt := some 0 }
      (by decide) (by decide),
   by decide⟩

/-- C9, as stated, fails: in the ledger where `a1` is already cancelled and its former slot
`s1` has since been booked by `p2` (appointment `a2`), cancelling `a1` again is not rejected;
it succeeds, changes the ledger, and sets the slot booked by `p2` back to `free`. -/
theorem cancelAppointment_terminal_counterexample :
    (getDoc "a1" ledgerAfterRebooking.appointments).map (fun a => a.status)
      = some "cancelled" ∧
    (getDoc ("d1", "s1") ledgerAfterRebooking.slots).map (fun s => (s.status, s.appointmentId))
      = some ("booked", some "a2") ∧
    (cancelAppointment ledgerAfterRebooking 3 "a1" "again" "p1").1 = .ok () ∧
    (cancelAppointment ledgerAfterRebooking 3 "a1" "again" "p1").2 ≠ ledgerAfterRebooking ∧
    (getDoc ("d1", "s1") (cancelAppointment ledgerAfterRebooking 3 "a1" "again" "p1").2.slots).map
        (fun s => (s.status, s.appointmentId))
      = some ("free", none) := by
  decide

/-- C9, amended: `cancelAppointment` does not look at the appointment's status. On an
appointment that is already `cancelled` or `completed`, and whose slot document exists, the
call succeeds: the status is `cancelled` afterwards, `cancellationReason` is the new reason,
one more `cancelled` event is appended, and every other appointment is unchanged. -/
theorem cancelAppointment_terminal (db : Ledger) (now : Int)
    (appointmentId reason userId : String) (appt : Appointment) (slot : AppointmentSlot)
    (happt : getDoc appointmentId db.appointments = some appt)
    (_hterminal : appt.status = "cancelled" ∨ appt.status = "completed")
    (hslot : getDoc (appt.doctorId, appt.slotId) db.slots = some slot) :
    (cancelAppointment db now appointmentId reason userId).1 = .ok () ∧
    getDoc appointmentId (cancelAppointment db now appointmentId reason userId).2.appointments
      = some { appt with status := "cancelled", cancellationReason := some reason,
                         updatedAt := now } ∧
    (∀ id, id ≠ appointmentId →
      getDoc id (cancelAppointment db now appointmentId reason userId).2.appointments
        = getDoc id db.appointments) ∧
    (cancelAppointment db now appointmentId reason userId).2.events
      = db.events ++ [(appointmentId,
          { status := "cancelled", timestamp := now, userId := userId,
            note := if reason = "" then "Appointment cancelled" else reason,
            type := "status_change", oldSlotId := none, newSlotId := none,
            oldStart := none, newStart := none })] := by
  rw [cancelAppointment_eq db now appointmentId reason userId appt happt, hslot]
  by_cases h : appt.slotId = ""
  · rw [if_neg (not_not.mpr h)]
    refine ⟨rfl, ?_, ?_, rfl⟩
    · show getDoc _ (updateDoc _ _ _) = _
      rw [getDoc_updateDoc_self, happt]; rfl
    · intro id hid
      exact getDoc_updateDoc_ne _ _ _ _ hid
  · rw [if_pos h]
    refine ⟨rfl, ?_, ?_, rfl⟩
    · show getDoc _ (updateDoc _ _ _) = _
      rw [getDoc_updateDoc_self, happt]; rfl
    · intro id hid
      exact getDoc_updateDoc_ne _ _ _ _ hid

/-- Witness of the amended C9 on the ledger where `a1` is already cancelled. -/
theorem cancelAppointment_terminal_witness :
    (cancelAppointment ledgerAfterRebooking 3 "a1" "again" "p1").1 = .ok () ∧
    (getDoc "a1" (cancelAppointment ledgerAfterRebooking 3 "a1" "again" "p1").2.appointments).map
        (fun a => (a.status, a.cancellationReason))
      = some ("cancelled", some "again") :=
  ⟨(cancelAppointment_terminal ledgerAfterRebooking 3 "a1" "again" "p1"
      { doctorId := "d1", patientId := "p1", slotId := "s1", start := 1709542800000,
        end_ := 1709544600000, status := "cancelled", type := "in-person", reason := "checkup",
        notes := "", history := (sampleRequest "p1").history,
        cancellationReason := some "changed my mind", rescheduledReason := none,
        createdAt := 0, updatedAt := 1 }
      { sampleSlot with status := "booked", appointmentId := some "a2", updatedAt := some 2 }
      (by decide) (by decide) (by decide)).1,
   by decide⟩

/-! ## No double booking -/

/-- C1 fails on the code: from the sample ledger (all slots free, no appointments) the five
admissible calls of `doubleBookingCalls` reach a ledger in which the appointments `a2` (of
`p2`) and `a3` (of `p3`) are both `confirmed` and both name slot `s1` of doctor `d1`. The
second cancel of the already cancelled `a1` freed the slot that `a2` had booked. -/
theorem no_double_booking_violated :
    sampleLedger.initial = true ∧
    ∃ db, runCalls sampleLedger doubleBookingCalls = some db ∧
      db.doubleBooked = true ∧
      (getDoc "a2" db.appointments).map (fun a => (a.doctorId, a.slotId, a.patientId, a.status))
        = some ("d1", "s1", "p2", "confirmed") ∧
      (getDoc "a3" db.appointments).map (fun a => (a.doctorId, a.slotId, a.patientId, a.status))
        = some ("d1", "s1", "p3", "confirmed") := by
  refine ⟨by decide, _, rfl, ?_, ?_, ?_⟩ <;> decide

/-! ## Slot generator: one time range -/

/-- The inner loop, given enough fuel, returns the slots number `0, 1, ..., n - 1` of the
walk that starts at `start` and advances by `slotDuration + bufferTime` minutes, where the
slots counted are exactly those that end at or before `rangeEnd`. -/
theorem slotLoop_spec (doctorId : String) (d b rangeEnd now : Int) (hd : 0 < d) (hb : 0 ≤ b) :
    ∀ (fuel : Nat) (start : Int), rangeEnd - start ≤ fuel * ((d + b) * msPerMinute) →
      ∃ n : Nat,
        (∀ k : Nat, k < n ↔
          start + k * ((d + b) * msPerMinute) + d * msPerMinute ≤ rangeEnd) ∧
        slotLoop doctorId d b rangeEnd now fuel start =
          .ok ((List.range n).map (fun (k : Nat) => freeSlot doctorId now
            (start + (k : Int) * ((d + b) * msPerMinute))
            (start + (k : Int) * ((d + b) * msPerMinute) + d * msPerMinute))) := by
  have hD : 0 < d * msPerMinute := by unfold msPerMinute; omega
  have hS : d * msPerMinute ≤ (d + b) * msPerMinute := by unfold msPerMinute; omega
  generalize hDdef : d * msPerMinute = D at hD hS
  generalize hSdef : (d + b) * msPerMinute = step at hS
  have none_fit : ∀ start : Int, ¬ start < rangeEnd → ∀ k : Nat,
      ¬ (start + k * step + D ≤ rangeEnd) := by
    intro start hlt k hle
    have : (0 : Int) ≤ k * step := mul_nonneg (Int.ofNat_nonneg k) (by omega)
    omega
  intro fuel
  induction fuel with
  | zero =>
    intro start hfuel
    have hlt : ¬ start < rangeEnd := by simp at hfuel; omega
    refine ⟨0, fun k => ⟨fun h => absurd h (Nat.not_lt_zero k), fun h => absurd h (none_fit start hlt k)⟩, ?_⟩
    simp [slotLoop, hlt]
  | succ fuel ih =>
    intro start hfuel
    by_cases hlt : start < rangeEnd
    · have hfuel' : rangeEnd - (start + step) ≤ fuel * step := by
        push_cast at hfuel
        linarith
      obtain ⟨n', hchar, heq⟩ := ih (start + step) hfuel'
      by_cases hfit : start + D ≤ rangeEnd
      · refine ⟨n' + 1, ?_, ?_⟩
        · intro k
          cases k with
          | zero => simp; omega
          | succ j =>
            have := hchar j
            have e : start + ((j + 1 : Nat) : Int) * step + D = start + step + j * step + D := by
              push_cast; ring
            rw [e]
            omega
        · rw [slotLoop]
          simp only [hlt, if_true, hSdef, hDdef, heq, hfit]
          rw [List.range_succ_eq_map, List.map_cons, List.map_map]
          congr 2
          · simp
          · apply List.map_congr_left
            intro k _
            simp only [Function.comp]
            have e : start + ((k + 1 : Nat) : Int) * step = start + step + k * step := by
              push_cast; ring
            rw [e]
      · have hn' : n' = 0 := by
          by_contra hne
          have h0 := (hchar 0).mp (Nat.pos_of_ne_zero hne)
          simp at h0
          omega
        subst hn'
        refine ⟨0, fun k => ⟨fun h => absurd h (Nat.not_lt_zero k), fun h => ?_⟩, ?_⟩
        · exfalso
          have : (0 : Int) ≤ k * step := mul_nonneg (Int.ofNat_nonneg k) (by omega)
          omega
        · rw [slotLoop]
          simp only [hlt, if_true, hSdef, hDdef, heq, hfit, if_false]
          rfl
    · refine ⟨0, fun k => ⟨fun h => absurd h (Nat.not_lt_zero k), fun h => absurd h (none_fit start hlt k)⟩, ?_⟩
      simp [slotLoop, hlt]

/-- Enough fuel for the inner loop on any range: one iteration per millisecond suffices. -/
theorem fuel_covers (d b span : Int) (fuel : Nat) (hd : 0 < d) (hb : 0 ≤ b)
    (h : span.toNat + 1 ≤ fuel) : span ≤ fuel * ((d + b) * msPerMinute) := by
  have h1 : (1 : Int) ≤ (d + b) * msPerMinute := by unfold msPerMinute; omega
  have h2 : (fuel : Int) ≤ fuel * ((d + b) * msPerMinute) :=
    le_mul_of_one_le_right (Int.ofNat_nonneg fuel) h1
  omega

/-- The outer loop stops at once when the current day is past the end of the range. -/
theorem dayLoop_done (template : ScheduleTemplate) (endDate : Int)
    (exceptions : List ScheduleException) (now utcOffset : Int) (innerFuel fuel : Nat)
    (currentDate : Int) (h : endDate < currentDate) :
    dayLoop template endDate exceptions now utcOffset innerFuel fuel currentDate = .ok [] := by
  have h' : ¬ currentDate ≤ endDate := by omega
  cases fuel <;> simp [dayLoop, h']

/-- The outer loop on a date range that holds a single day. -/
theorem dayLoop_single_day (template : ScheduleTemplate) (startDate endDate : Int)
    (exceptions : List ScheduleException) (now utcOffset : Int) (innerFuel fuel : Nat)
    (hstart : startDate ≤ endDate) (hend : endDate < startDate + msPerDay) :
    dayLoop template endDate exceptions now utcOffset innerFuel (fuel + 1) startDate =
      match template.weeklyHours[getDay startDate]? with
      | none => .error GenError.typeError
      | some dayTemplate =>
        if dayTemplate.available then
          if isUnavailable (findException exceptions startDate) then .ok []
          else rangesLoop template now innerFuel startDate
            (daySlotsOf dayTemplate utcOffset startDate (findException exceptions startDate))
        else .ok [] := by
  rw [dayLoop]
  simp only [hstart, if_true, dayLoop_done template endDate exceptions now utcOffset innerFuel
    fuel (startDate + msPerDay) hend]
  cases template.weeklyHours[getDay startDate]? with
  | none => rfl
  | some dayTemplate =>
    dsimp only
    by_cases ha : dayTemplate.available = true
    · simp only [ha, if_true]
      by_cases hu : isUnavailable (findException exceptions startDate) = true
      · simp only [hu, if_true]
      · simp only [hu]
        cases rangesLoop template now innerFuel startDate
            (daySlotsOf dayTemplate utcOffset startDate (findException exceptions startDate)) with
        | error e => rfl
        | ok today => simp
    · simp only [ha]
      rfl

/-- C4 (buffer correctness): on a date range that holds a single day, available in the
template, with one time range from `s` to `e`, slot duration `d > 0`, buffer `b ≥ 0` and no
exception covering the day, `generateAvailableSlots` (given enough fuel) returns exactly the
slots `[s + k(d+b), s + k(d+b) + d)` for `k = 0, ..., n - 1`, in this order, where `k < n`
holds exactly when `s + k(d+b) + d ≤ e`: every slot has length `d`, none ends after `e`, and
a slot that ends exactly at `e` is included. -/
theorem generateAvailableSlots_buffer (template : ScheduleTemplate)
    (startDate endDate now utcOffset : Int) (exceptions : List ScheduleException)
    (day : DaySchedule) (r : TimeRange)
    (hday : template.weeklyHours[getDay startDate]? = some day)
    (havail : day.available = true) (hslots : day.slots = [r])
    (hexc : findException exceptions startDate = none)
    (hstart : startDate ≤ endDate) (hend : endDate < startDate + msPerDay)
    (hd : 0 < template.defaultSlotDuration) (hb : 0 ≤ template.bufferTime) :
    ∃ n : Nat,
      (∀ k : Nat, k < n ↔
        setHours startDate r.startHour r.startMinute
            + (k : Int) * ((template.defaultSlotDuration + template.bufferTime) * 60000)
            + template.defaultSlotDuration * 60000
          ≤ setHours startDate r.endHour r.endMinute) ∧
      ∃ fuel₀ : Nat, ∀ fuel : Nat, fuel₀ ≤ fuel →
        generateAvailableSlots fuel now utcOffset template startDate endDate exceptions =
          .ok ((List.range n).map (fun (k : Nat) => freeSlot template.doctorId now
            (setHours startDate r.startHour r.startMinute
              + (k : Int) * ((template.defaultSlotDuration + template.bufferTime) * 60000))
            (setHours startDate r.startHour r.startMinute
              + (k : Int) * ((template.defaultSlotDuration + template.bufferTime) * 60000)
              + template.defaultSlotDuration * 60000))) := by
  obtain ⟨n, hchar, heq⟩ := slotLoop_spec template.doctorId template.defaultSlotDuration
    template.bufferTime (setHours startDate r.endHour r.endMinute) now hd hb
    ((setHours startDate r.endHour r.endMinute
      - setHours startDate r.startHour r.startMinute).toNat + 1)
    (setHours startDate r.startHour r.startMinute)
    (fuel_covers _ _ _ _ hd hb (le_refl _))
  refine ⟨n, hchar, (setHours startDate r.endHour r.endMinute
      - setHours startDate r.startHour r.startMinute).toNat + 1, ?_⟩
  intro fuel hfuel
  obtain ⟨n₂, hchar₂, heq₂⟩ := slotLoop_spec template.doctorId template.defaultSlotDuration
    template.bufferTime (setHours startDate r.endHour r.endMinute) now hd hb fuel
    (setHours startDate r.startHour r.startMinute)
    (fuel_covers _ _ _ _ hd hb hfuel)
  have hn : n₂ = n := by
    apply Nat.le_antisymm
    · by_contra hlt
      exact absurd ((hchar n).mpr ((hchar₂ n).mp (by omega))) (by omega)
    · by_contra hlt
      exact absurd ((hchar₂ n₂).mpr ((hchar n₂).mp (by omega))) (by omega)
  subst hn
  obtain ⟨m, rfl⟩ : ∃ m, fuel = m + 1 := ⟨fuel - 1, by omega⟩
  unfold generateAvailableSlots
  rw [dayLoop_single_day template startDate endDate exceptions now utcOffset (m + 1) m
    hstart hend, hday]
  simp only [havail, if_true, hexc, isUnavailable, daySlotsOf, hslots, rangesLoop, heq₂]
  simp [msPerMinute]

/-- Witness of C4, the case of the specification: 30-minute slots, 10-minute buffer, range
09:00-12:00 on Monday 2024-03-04 gives exactly the four slots that start at 09:00, 09:40,
10:20 and 11:00; a fifth would end at 12:10. -/
theorem generateAvailableSlots_buffer_witness :
    (∃ n : Nat,
      (∀ k : Nat, k < n ↔
        setHours monday 9 0 + (k : Int) * (((30 : Int) + 10) * 60000) + 30 * 60000
          ≤ setHours monday 12 0) ∧
      ∃ fuel₀ : Nat, ∀ fuel : Nat, fuel₀ ≤ fuel →
        generateAvailableSlots fuel 0 0 sampleTemplate monday monday [] =
          .ok ((List.range n).map (fun (k : Nat) => freeSlot "d1" 0
            (setHours monday 9 0 + (k : Int) * (((30 : Int) + 10) * 60000))
            (setHours monday 9 0 + (k : Int) * (((30 : Int) + 10) * 60000) + 30 * 60000)))) ∧
    generateAvailableSlots 5 0 0 sampleTemplate monday monday [] =
      .ok [freeSlot "d1" 0 (mondayAt 540) (mondayAt 570),
           freeSlot "d1" 0 (mondayAt 580) (mondayAt 610),
           freeSlot "d1" 0 (mondayAt 620) (mondayAt 650),
           freeSlot "d1" 0 (mondayAt 660) (mondayAt 690)] :=
  ⟨generateAvailableSlots_buffer sampleTemplate monday monday 0 0 []
      { dayOfWeek := 1, available := true,
        slots := [{ startHour := 9, startMinute := 0, endHour := 12, endMinute := 0 }] }
      { startHour := 9, startMinute := 0, endHour := 12, endMinute := 0 }
      (by decide) rfl rfl rfl (by decide) (by decide) (by decide) (by decide),
   by decide⟩

/-! ## Slot generator: exceptions -/

/-- C6 fails on the code: with a `special-hours` exception listing hours for Monday
2024-03-04 placed before an `unavailable` exception that covers the same day, the generator
emits the 10:00 slot of the special hours for that day instead of nothing; with the two
exceptions in the other order it emits nothing. Only the first covering exception of the
list is looked at. -/
theorem unavailable_exception_shadowed :
    vacationWeek.type = "unavailable" ∧
    (vacationWeek.startDate ≤ monday ∧ monday ≤ vacationWeek.endDate) ∧
    generateAvailableSlots 5 0 0 sampleTemplate monday monday [specialMonday, vacationWeek]
      = .ok [freeSlot "d1" 0 (mondayAt 600) (mondayAt 630)] ∧
    generateAvailableSlots 5 0 0 sampleTemplate monday monday [vacationWeek, specialMonday]
      = .ok [] := by
  decide

/-- C7, as stated, fails: Sunday 2024-03-03 has `available = false` in the template and a
`special-hours` exception lists 10:00-11:00 for exactly that day, yet the generator emits
nothing for it, while the exception's ranges would give the 10:00 slot. -/
theorem special_hours_on_closed_day_counterexample :
    (sampleTemplate.weeklyHours[getDay sunday]?).map (fun day => day.available) = some false ∧
    findException [specialSunday] sunday = some specialSunday ∧
    (specialSunday.specialHours.find? (fun sh => decide (sh.date = dateString 0 sunday))).map
        (fun sh => sh.slots)
      = some [{ startHour := 10, startMinute := 0, endHour := 11, endMinute := 0 }] ∧
    rangesLoop sampleTemplate 0 5 sunday
        [{ startHour := 10, startMinute := 0, endHour := 11, endMinute := 0 }]
      = .ok [freeSlot "d1" 0 (sunday + 600 * msPerMinute) (sunday + 630 * msPerMinute)] ∧
    generateAvailableSlots 5 0 0 sampleTemplate sunday sunday [specialSunday] = .ok [] := by
  decide

/-- C7, amended: a day whose weekly template entry has `available = false` is skipped
whatever the exceptions list holds: the outer loop moves on to the next day without emitting
a slot, and on a date range that holds only such a day the generator returns the empty
list. -/
theorem closed_day_skipped (template : ScheduleTemplate) (currentDate now utcOffset : Int)
    (exceptions : List ScheduleException) (day : DaySchedule)
    (hday : template.weeklyHours[getDay currentDate]? = some day)
    (hclosed : day.available = false) :
    (∀ (endDate : Int) (innerFuel fuel : Nat), currentDate ≤ endDate →
      dayLoop template endDate exceptions now utcOffset innerFuel (fuel + 1) currentDate
        = dayLoop template endDate exceptions now utcOffset innerFuel fuel
            (currentDate + msPerDay)) ∧
    (∀ (endDate : Int) (fuel : Nat), currentDate ≤ endDate → endDate < currentDate + msPerDay →
      generateAvailableSlots (fuel + 1) now utcOffset template currentDate endDate exceptions
        = .ok []) := by
  constructor
  · intro endDate innerFuel fuel hle
    rw [dayLoop]
    simp [hle, hday, hclosed]
  · intro endDate fuel hle hlt
    unfold generateAvailableSlots
    rw [dayLoop_single_day template currentDate endDate exceptions now utcOffset (fuel + 1) fuel
      hle hlt, hday]
    simp [hclosed]

/-- Witness of the amended C7: Sunday 2024-03-03 with special hours listed for it. -/
theorem closed_day_skipped_witness :
    generateAvailableSlots 1 0 0 sampleTemplate sunday sunday [specialSunday] = .ok [] :=
  (closed_day_skipped sampleTemplate sunday 0 0 [specialSunday]
    { dayOfWeek := 0, available := false, slots := [] } (by decide) rfl).2 sunday 0
    (by decide) (by decide)

/-- C8, as stated, fails: `specialWeek` and `specialMonday` both cover Monday 2024-03-04 and
only `specialMonday` lists hours for that day. With `specialWeek` first the generator uses
the template's 09:00-12:00 range (four slots), with `specialMonday` first it uses the listed
10:00-11:00 range (one slot): the result depends on the order of the list. -/
theorem most_specific_date_counterexample :
    findException [specialWeek, specialMonday] monday = some specialWeek ∧
    specialWeek.specialHours.find? (fun sh => decide (sh.date = dateString 0 monday)) = none ∧
    (specialMonday.specialHours.find? (fun sh => decide (sh.date = dateString 0 monday))).isSome
      = true ∧
    generateAvailableSlots 5 0 0 sampleTemplate monday monday [specialWeek, specialMonday]
      = .ok [freeSlot "d1" 0 (mondayAt 540) (mondayAt 570),
             freeSlot "d1" 0 (mondayAt 580) (mondayAt 610),
             freeSlot "d1" 0 (mondayAt 620) (mondayAt 650),
             freeSlot "d1" 0 (mondayAt 660) (mondayAt 690)] ∧
    generateAvailableSlots 5 0 0 sampleTemplate monday monday [specialMonday, specialWeek]
      = .ok [freeSlot "d1" 0 (mondayAt 600) (mondayAt 630)] ∧
    generateAvailableSlots 5 0 0 sampleTemplate monday monday [specialWeek, specialMonday]
      ≠ generateAvailableSlots 5 0 0 sampleTemplate monday monday [specialMonday, specialWeek] := by
  decide

/-- The exception picked for a day is the first one of the list that covers it. -/
theorem findException_first (before after : List ScheduleException) (ex : ScheduleException)
    (currentDate : Int)
    (hbefore : ∀ e ∈ before, ¬ (e.startDate ≤ currentDate ∧ currentDate ≤ e.endDate))
    (hex : ex.startDate ≤ currentDate ∧ currentDate ≤ ex.endDate) :
    findException (before ++ ex :: after) currentDate = some ex := by
  unfold findException
  induction before with
  | nil => simp [List.find?, hex.1, hex.2]
  | cons e rest ih =>
    have he := hbefore e (List.mem_cons_self e rest)
    have hfalse : (decide (currentDate ≥ e.startDate) && decide (currentDate ≤ e.endDate))
        = false := by
      by_cases h1 : e.startDate ≤ currentDate
      · have h2 : ¬ currentDate ≤ e.endDate := fun h => he ⟨h1, h⟩
        simp [h2]
      · simp [h1]
    rw [List.cons_append, List.find?_cons, hfalse]
    exact ih (fun e' he' => hbefore e' (List.mem_cons_of_mem e he'))

/-- C8, amended: overlapping exceptions are resolved by list order. On a date range that
holds a single day, the first exception of the list whose `[startDate, endDate]` contains the
day is the only one consulted, so the result is the one obtained with that exception alone;
when the day is available in the template and that exception is of type `special-hours`, the
ranges used are those it lists for the exact date if it lists any, and the template's ranges
otherwise, whatever later exceptions list. -/
theorem first_covering_exception_decides (template : ScheduleTemplate)
    (startDate endDate now utcOffset : Int) (before after : List ScheduleException)
    (ex : ScheduleException) (fuel : Nat)
    (hbefore : ∀ e ∈ before, ¬ (e.startDate ≤ startDate ∧ startDate ≤ e.endDate))
    (hex : ex.startDate ≤ startDate ∧ startDate ≤ ex.endDate)
    (hstart : startDate ≤ endDate) (hend : endDate < startDate + msPerDay) :
    generateAvailableSlots fuel now utcOffset template startDate endDate (before ++ ex :: after)
      = generateAvailableSlots fuel now utcOffset template startDate endDate [ex] ∧
    (∀ day, template.weeklyHours[getDay startDate]? = some day → day.available = true →
      ex.type = "special-hours" →
      generateAvailableSlots (fuel + 1) now utcOffset template startDate endDate
          (before ++ ex :: after)
        = rangesLoop template now (fuel + 1) startDate
            (match ex.specialHours.find? (fun sh => decide (sh.date = dateString utcOffset startDate)) with
             | some specialDay => specialDay.slots
             | none => day.slots)) := by
  have h1 := findException_first before after ex startDate hbefore hex
  have h2 := findException_first [] [] ex startDate (by simp) hex
  rw [List.nil_append] at h2
  constructor
  · unfold generateAvailableSlots
    cases fuel with
    | zero => simp [dayLoop, hstart]
    | succ m =>
      rw [dayLoop_single_day template startDate endDate _ now utcOffset (m + 1) m hstart hend,
        dayLoop_single_day template startDate endDate _ now utcOffset (m + 1) m hstart hend,
        h1, h2]
  · intro day hday havail htype
    unfold generateAvailableSlots
    rw [dayLoop_single_day template startDate endDate _ now utcOffset (fuel + 1) fuel hstart
      hend, h1, hday]
    simp [havail, isUnavailable, htype, daySlotsOf]

/-- Witness of the amended C8: with `specialWeek` ahead of `specialMonday`, Monday 2024-03-04
is generated as with `specialWeek` alone. -/
theorem first_covering_exception_decides_witness :
    generateAvailableSlots 5 0 0 sampleTemplate monday monday [specialWeek, specialMonday]
      = generateAvailableSlots 5 0 0 sampleTemplate monday monday [specialWeek] :=
  (first_covering_exception_decides sampleTemplate monday monday 0 0 [] [specialMonday]
    specialWeek 5 (by simp) (by decide) (by decide) (by decide)).1

/-! ## Slot generator: order, overlap and gaps -/

/-- The inner loop, given enough fuel, returns slots that lie between the start and the end
of the range, have positive length, follow one another without overlap, and are separated
by exactly the buffer. -/
theorem slotLoop_props (doctorId : String) (d b rangeEnd now : Int) (hd : 0 < d) (hb : 0 ≤ b)
    (fuel : Nat) (start : Int) (hfuel : rangeEnd - start ≤ fuel * ((d + b) * msPerMinute)) :
    ∃ g, slotLoop doctorId d b rangeEnd now fuel start = .ok g ∧
      (∀ s ∈ g, start ≤ s.start ∧ s.start < s.end_ ∧ s.end_ ≤ rangeEnd) ∧
      g.Pairwise (fun x y => x.end_ ≤ y.start) ∧
      g.Chain' (fun x y => y.start - x.end_ = b * msPerMinute) := by
  obtain ⟨n, hchar, heq⟩ := slotLoop_spec doctorId d b rangeEnd now hd hb fuel start hfuel
  have hD : 0 < d * msPerMinute := by unfold msPerMinute; omega
  have hS : d * msPerMinute ≤ (d + b) * msPerMinute := by unfold msPerMinute; omega
  refine ⟨_, heq, ?_, ?_, ?_⟩
  · intro s hs
    obtain ⟨k, hk, rfl⟩ := List.mem_map.mp hs
    have hkn := (hchar k).mp (List.mem_range.mp hk)
    have : (0 : Int) ≤ k * ((d + b) * msPerMinute) :=
      mul_nonneg (Int.ofNat_nonneg k) (by omega)
    simp only [freeSlot]
    omega
  · rw [List.pairwise_map]
    refine (List.pairwise_lt_range n).imp ?_
    intro i j hij
    have h1 : ((i : Int) + 1) * ((d + b) * msPerMinute) ≤ (j : Int) * ((d + b) * msPerMinute) :=
      mul_le_mul_of_nonneg_right (by exact_mod_cast hij) (by omega)
    simp only [freeSlot]
    linarith
  · cases n with
    | zero => simp
    | succ m =>
      rw [List.chain'_map, List.chain'_range_succ]
      intro k _
      simp only [freeSlot]
      push_cast
      ring

/-- The loop over the ranges of a day, given enough fuel and ordered ranges, returns the
concatenation of the inner loop's outputs, one per range; the slots lie inside their ranges
and follow one another without overlap. -/
theorem rangesLoop_props (template : ScheduleTemplate) (now : Int) (fuel : Nat)
    (currentDate : Int) (hd : 0 < template.defaultSlotDuration) (hb : 0 ≤ template.bufferTime)
    (hfuel : 86400001 ≤ fuel) :
    ∀ ranges : List TimeRange, rangesOrdered ranges →
      ∃ (l : List AppointmentSlot) (groups : List (List AppointmentSlot)),
        rangesLoop template now fuel currentDate ranges = .ok l ∧
        l = groups.flatten ∧
        (∀ g ∈ groups,
          (∃ (date : Int) (r : TimeRange), slotLoop template.doctorId template.defaultSlotDuration
              template.bufferTime (setHours date r.endHour r.endMinute) now fuel
              (setHours date r.startHour r.startMinute) = .ok g) ∧
          g.Chain' (fun x y => y.start - x.end_ = template.bufferTime * msPerMinute)) ∧
        (∀ s ∈ l, ∃ r ∈ ranges,
          setHours currentDate r.startHour r.startMinute ≤ s.start ∧ s.start < s.end_ ∧
          s.end_ ≤ setHours currentDate r.endHour r.endMinute) ∧
        l.Pairwise (fun x y => x.end_ ≤ y.start) := by
  intro ranges
  induction ranges with
  | nil =>
    intro _
    exact ⟨[], [], rfl, rfl, fun g hg => absurd hg (List.not_mem_nil g),
      fun s hs => absurd hs (List.not_mem_nil s), List.Pairwise.nil⟩
  | cons r rs ih =>
    intro hord
    obtain ⟨hpair, hall⟩ := hord
    rw [List.pairwise_cons] at hpair
    obtain ⟨hhead, htail⟩ := hpair
    have hr := hall r (List.mem_cons_self r rs)
    obtain ⟨rest, groups, hrest, hflat, hgroups, hin, hpw⟩ :=
      ih ⟨htail, fun r' hr' => hall r' (List.mem_cons_of_mem r hr')⟩
    have hspan : setHours currentDate r.endHour r.endMinute
        - setHours currentDate r.startHour r.startMinute
        ≤ fuel * ((template.defaultSlotDuration + template.bufferTime) * msPerMinute) := by
      apply fuel_covers _ _ _ _ hd hb
      have := hr.2
      simp only [setHours, TimeRange.endMinutes, msPerMinute] at this ⊢
      omega
    obtain ⟨g, hg, hgin, hgpw, hgchain⟩ := slotLoop_props template.doctorId
      template.defaultSlotDuration template.bufferTime
      (setHours currentDate r.endHour r.endMinute) now hd hb fuel
      (setHours currentDate r.startHour r.startMinute) hspan
    refine ⟨g ++ rest, g :: groups, ?_, ?_, ?_, ?_, ?_⟩
    · rw [rangesLoop, hg, hrest]
    · rw [List.flatten_cons, hflat]
    · intro g' hg'
      rcases List.mem_cons.mp hg' with h | h
      · subst h
        exact ⟨⟨currentDate, r, hg⟩, hgchain⟩
      · exact hgroups g' h
    · intro s hs
      rcases List.mem_append.mp hs with h | h
      · exact ⟨r, List.mem_cons_self r rs, hgin s h⟩
      · obtain ⟨r', hr', hb'⟩ := hin s h
        exact ⟨r', List.mem_cons_of_mem r hr', hb'⟩
    · rw [List.pairwise_append]
      refine ⟨hgpw, hpw, ?_⟩
      intro x hx y hy
      obtain ⟨r', hr', hy1, _, _⟩ := hin y hy
      have hx3 := (hgin x hx).2.2
      have hle := hhead r' hr'
      simp only [setHours, TimeRange.endMinutes, TimeRange.startMinutes, msPerMinute]
        at hle hx3 hy1
      omega

/-- The ranges used for a day are ordered when those of the template and those of every
special day are. -/
theorem daySlotsOf_ordered (dayTemplate : DaySchedule) (utcOffset currentDate : Int)
    (exceptions : List ScheduleException) (hday : rangesOrdered dayTemplate.slots)
    (hexceptions : ∀ ex ∈ exceptions, ∀ sd ∈ ex.specialHours, rangesOrdered sd.slots) :
    rangesOrdered (daySlotsOf dayTemplate utcOffset currentDate
      (findException exceptions currentDate)) := by
  cases hfind : findException exceptions currentDate with
  | none => exact hday
  | some ex =>
    have hmem : ex ∈ exceptions := List.mem_of_find?_eq_some hfind
    unfold daySlotsOf
    by_cases htype : ex.type = "special-hours"
    · simp only [htype, if_true]
      cases hsd : ex.specialHours.find?
          (fun sh => decide (sh.date = dateString utcOffset currentDate)) with
      | none => exact hday
      | some sd => exact hexceptions ex hmem sd (List.mem_of_find?_eq_some hsd)
    · simp only [htype, if_false]
      exact hday

/-- The outer loop, given enough fuel, a seven-entry week and ordered ranges throughout,
returns the concatenation of the inner loop's outputs; the slots have positive length,
start no earlier than the midnight of the current day, and follow one another without
overlap. -/
theorem dayLoop_props (template : ScheduleTemplate) (endDate : Int)
    (exceptions : List ScheduleException) (now utcOffset : Int) (innerFuel : Nat)
    (hweek : template.weeklyHours.length = 7)
    (htemplate : ∀ day ∈ template.weeklyHours, rangesOrdered day.slots)
    (hexceptions : ∀ ex ∈ exceptions, ∀ sd ∈ ex.specialHours, rangesOrdered sd.slots)
    (hd : 0 < template.defaultSlotDuration) (hb : 0 ≤ template.bufferTime)
    (hinner : 86400001 ≤ innerFuel) :
    ∀ (fuel : Nat) (currentDate : Int), endDate - currentDate < fuel * msPerDay →
      ∃ (l : List AppointmentSlot) (groups : List (List AppointmentSlot)),
        dayLoop template endDate exceptions now utcOffset innerFuel fuel currentDate = .ok l ∧
        l = groups.flatten ∧
        (∀ g ∈ groups,
          (∃ (date : Int) (r : TimeRange), slotLoop template.doctorId
              template.defaultSlotDuration template.bufferTime
              (setHours date r.endHour r.endMinute) now innerFuel
              (setHours date r.startHour r.startMinute) = .ok g) ∧
          g.Chain' (fun x y => y.start - x.end_ = template.bufferTime * msPerMinute)) ∧
        (∀ s ∈ l, currentDate - currentDate % msPerDay ≤ s.start ∧ s.start < s.end_) ∧
        l.Pairwise (fun x y => x.end_ ≤ y.start) := by
  have hempty : ∀ (fuel : Nat) (currentDate : Int), endDate < currentDate →
      ∃ (l : List AppointmentSlot) (groups : List (List AppointmentSlot)),
        dayLoop template endDate exceptions now utcOffset innerFuel fuel currentDate = .ok l ∧
        l = groups.flatten ∧
        (∀ g ∈ groups,
          (∃ (date : Int) (r : TimeRange), slotLoop template.doctorId
              template.defaultSlotDuration template.bufferTime
              (setHours date r.endHour r.endMinute) now innerFuel
              (setHours date r.startHour r.startMinute) = .ok g) ∧
          g.Chain' (fun x y => y.start - x.end_ = template.bufferTime * msPerMinute)) ∧
        (∀ s ∈ l, currentDate - currentDate % msPerDay ≤ s.start ∧ s.start < s.end_) ∧
        l.Pairwise (fun x y => x.end_ ≤ y.start) := by
    intro fuel currentDate hlt
    exact ⟨[], [], dayLoop_done _ _ _ _ _ _ _ _ hlt, rfl,
      fun g hg => absurd hg (List.not_mem_nil g),
      fun s hs => absurd hs (List.not_mem_nil s), List.Pairwise.nil⟩
  intro fuel
  induction fuel with
  | zero =>
    intro currentDate hfuel
    exact hempty 0 currentDate (by simp at hfuel; omega)
  | succ fuel ih =>
    intro currentDate hfuel
    by_cases hle : currentDate ≤ endDate
    · have hnext : endDate - (currentDate + msPerDay) < fuel * msPerDay := by
        push_cast at hfuel
        linarith
      obtain ⟨rest, groups, hrest, hflat, hgroups, hin, hpw⟩ := ih (currentDate + msPerDay) hnext
      have hin' : ∀ s ∈ rest, currentDate - currentDate % msPerDay + msPerDay ≤ s.start ∧
          s.start < s.end_ := by
        intro s hs
        have := hin s hs
        simp only [msPerDay] at this ⊢
        omega
      have hlookup : getDay currentDate < template.weeklyHours.length := by
        rw [hweek]; unfold getDay; omega
      have hday : template.weeklyHours[getDay currentDate]?
          = some (template.weeklyHours[getDay currentDate]) :=
        List.getElem?_eq_getElem hlookup
      have hskip : ∀ s ∈ rest, currentDate - currentDate % msPerDay ≤ s.start ∧
          s.start < s.end_ := by
        intro s hs
        have := hin' s hs
        simp only [msPerDay] at this ⊢
        omega
      rw [dayLoop]
      simp only [hle, if_true, hday]
      by_cases havail : (template.weeklyHours[getDay currentDate]).available = true
      · simp only [havail, if_true]
        by_cases hun : isUnavailable (findException exceptions currentDate) = true
        · simp only [hun, if_true]
          exact ⟨rest, groups, hrest, hflat, hgroups, hskip, hpw⟩
        · simp only [hun]
          obtain ⟨today, groups₀, htoday, hflat₀, hgroups₀, hin₀, hpw₀⟩ :=
            rangesLoop_props template now innerFuel currentDate hd hb hinner _
              (daySlotsOf_ordered (template.weeklyHours[getDay currentDate]) utcOffset
                currentDate exceptions
                (htemplate _ (List.getElem_mem hlookup)) hexceptions)
          have hord := daySlotsOf_ordered (template.weeklyHours[getDay currentDate]) utcOffset
            currentDate exceptions (htemplate _ (List.getElem_mem hlookup)) hexceptions
          have hwin : ∀ s ∈ today, currentDate - currentDate % msPerDay ≤ s.start ∧
              s.start < s.end_ ∧ s.end_ ≤ currentDate - currentDate % msPerDay + msPerDay := by
            intro s hs
            obtain ⟨r, hr, h1, h2, h3⟩ := hin₀ s hs
            have hr2 := (hord.2 r hr).2
            simp only [setHours, TimeRange.endMinutes, msPerMinute, msPerDay] at h1 h3 hr2 ⊢
            omega
          refine ⟨today ++ rest, groups₀ ++ groups, ?_, ?_, ?_, ?_, ?_⟩
          · simp only [htoday, hrest, if_false]
            rfl
          · rw [List.flatten_append, hflat₀, hflat]
          · intro g hg
            rcases List.mem_append.mp hg with h | h
            · exact hgroups₀ g h
            · exact hgroups g h
          · intro s hs
            rcases List.mem_append.mp hs with h | h
            · exact ⟨(hwin s h).1, (hwin s h).2.1⟩
            · exact hskip s h
          · rw [List.pairwise_append]
            refine ⟨hpw₀, hpw, ?_⟩
            intro x hx y hy
            have := (hwin x hx).2.2
            have := (hin' y hy).1
            omega
      · simp only [havail]
        exact ⟨rest, groups, hrest, hflat, hgroups, hskip, hpw⟩
    · exact hempty (fuel + 1) currentDate (by omega)

/-! ## Reschedule -/

/-- An update keeps every document in place: a key is present afterwards exactly when it
was present before. -/
theorem getDoc_updateDoc_isSome {κ β : Type} [DecidableEq κ] (k k' : κ) (f : β → β)
    (l : List (κ × β)) : (getDoc k' (updateDoc k f l)).isSome = (getDoc k' l).isSome := by
  by_cases h : k' = k
  · subst h
    rw [getDoc_updateDoc_self]
    cases getDoc k' l <;> rfl
  · rw [getDoc_updateDoc_ne _ _ _ _ h]

/-- What `rescheduleAppointment` returns when the appointment and both slots exist, in one
equation. -/
theorem rescheduleAppointment_eq (db : Ledger) (now : Int) (rd : RescheduleData)
    (appt : Appointment) (oldSlot newSlot : AppointmentSlot)
    (happt : getDoc rd.appointmentId db.appointments = some appt)
    (hold : getDoc (rd.doctorId, rd.oldSlotId) db.slots = some oldSlot)
    (hnew : getDoc (rd.doctorId, rd.newSlotId) db.slots = some newSlot) :
    rescheduleAppointment db now rd =
      if newSlot.status ≠ "free" then (.error "Selected slot is no longer available", db)
      else
        (.ok (),
          { slots := updateDoc (rd.doctorId, rd.newSlotId) (fun s =>
                { s with status := "booked", appointmentId := some rd.appointmentId,
                         updatedAt := some now })
              (updateDoc (rd.doctorId, rd.oldSlotId) (fun s =>
                { s with status := "free", appointmentId := none, updatedAt := some now })
                db.slots)
            appointments := updateDoc rd.appointmentId (fun a =>
              { a with status := "rescheduled", slotId := rd.newSlotId,
                       start := newSlot.start, end_ := newSlot.end_,
                       rescheduledReason := some rd.reason, updatedAt := now })
              db.appointments
            events := db.events ++ [(rd.appointmentId,
              { status := "rescheduled", timestamp := now, userId := rd.userId,
                oldSlotId := some rd.oldSlotId, newSlotId := some rd.newSlotId,
                oldStart := some appt.start, newStart := some newSlot.start,
                note := orElse rd.reason "Appointment rescheduled", type := "reschedule" })] }) := by
  unfold rescheduleAppointment runTransaction rescheduleAppointmentBody
  simp only [happt, hold, hnew]
  by_cases h : newSlot.status = "free"
  · rw [if_neg (not_not.mpr h), if_neg (not_not.mpr h)]
    have hsome : ∃ s, getDoc (rd.doctorId, rd.newSlotId)
        (updateDoc (rd.doctorId, rd.oldSlotId) (fun s =>
          { s with status := "free", appointmentId := none, updatedAt := some now })
          db.slots) = some s := by
      have := getDoc_updateDoc_isSome (rd.doctorId, rd.oldSlotId) (rd.doctorId, rd.newSlotId)
        (fun s : AppointmentSlot =>
          { s with status := "free", appointmentId := none, updatedAt := some now }) db.slots
      rw [hnew] at this
      exact Option.isSome_iff_exists.mp this
    obtain ⟨s, hs⟩ := hsome
    simp [applyWrites, applyWrite, happt, hold, hs]
  · rw [if_pos h, if_pos h]

/-- A successful `rescheduleAppointment` found the appointment and both slots, and the new
slot free. -/
theorem rescheduleAppointment_ok_inv (db db' : Ledger) (now : Int) (rd : RescheduleData)
    (hok : rescheduleAppointment db now rd = (.ok (), db')) :
    ∃ (appt : Appointment) (oldSlot newSlot : AppointmentSlot),
      getDoc rd.appointmentId db.appointments = some appt ∧
      getDoc (rd.doctorId, rd.oldSlotId) db.slots = some oldSlot ∧
      getDoc (rd.doctorId, rd.newSlotId) db.slots = some newSlot ∧
      newSlot.status = "free" := by
  cases happt : getDoc rd.appointmentId db.appointments with
  | none =>
    unfold rescheduleAppointment runTransaction rescheduleAppointmentBody at hok
    simp [happt] at hok
  | some appt =>
    cases hold : getDoc (rd.doctorId, rd.oldSlotId) db.slots with
    | none =>
      unfold rescheduleAppointment runTransaction rescheduleAppointmentBody at hok
      simp [happt, hold] at hok
    | some oldSlot =>
      cases hnew : getDoc (rd.doctorId, rd.newSlotId) db.slots with
      | none =>
        unfold rescheduleAppointment runTransaction rescheduleAppointmentBody at hok
        simp [happt, hold, hnew] at hok
      | some newSlot =>
        refine ⟨appt, oldSlot, newSlot, rfl, rfl, rfl, ?_⟩
        rw [rescheduleAppointment_eq db now rd appt oldSlot newSlot happt hold hnew] at hok
        by_contra h
        rw [if_pos h] at hok
        simp at hok

/-- C11: a successful `rescheduleAppointment` with `oldSlotId ≠ newSlotId` found the
appointment and both slots, and afterwards the old slot is `free` with `appointmentId`
cleared, the new slot is `booked` with `appointmentId` the rescheduled appointment's id, the
appointment has the new slot's id, start and end and status `rescheduled`, exactly one event
is appended, carrying `oldSlotId`, `newSlotId`, `oldStart` (the appointment's previous
start), `newStart` (the new slot's start), `userId` and the reason, and no other slot or
appointment has changed. The call succeeds whenever the three documents exist and the new
slot is free. -/
theorem rescheduleAppointment_effects (db : Ledger) (now : Int) (rd : RescheduleData)
    (hne : rd.oldSlotId ≠ rd.newSlotId) :
    (∀ db', rescheduleAppointment db now rd = (.ok (), db') →
      ∃ (appt : Appointment) (oldSlot newSlot : AppointmentSlot),
        getDoc rd.appointmentId db.appointments = some appt ∧
        getDoc (rd.doctorId, rd.oldSlotId) db.slots = some oldSlot ∧
        getDoc (rd.doctorId, rd.newSlotId) db.slots = some newSlot ∧
        getDoc (rd.doctorId, rd.oldSlotId) db'.slots
          = some { oldSlot with status := "free", appointmentId := none,
                                updatedAt := some now } ∧
        getDoc (rd.doctorId, rd.newSlotId) db'.slots
          = some { newSlot with status := "booked", appointmentId := some rd.appointmentId,
                                updatedAt := some now } ∧
        getDoc rd.appointmentId db'.appointments
          = some { appt with status := "rescheduled", slotId := rd.newSlotId,
                             start := newSlot.start, end_ := newSlot.end_,
                             rescheduledReason := some rd.reason, updatedAt := now } ∧
        db'.events = db.events ++ [(rd.appointmentId,
          { status := "rescheduled", timestamp := now, userId := rd.userId,
            oldSlotId := some rd.oldSlotId, newSlotId := some rd.newSlotId,
            oldStart := some appt.start, newStart := some newSlot.start,
            note := if rd.reason = "" then "Appointment rescheduled" else rd.reason,
            type := "reschedule" })] ∧
        (∀ key, key ≠ (rd.doctorId, rd.oldSlotId) → key ≠ (rd.doctorId, rd.newSlotId) →
          getDoc key db'.slots = getDoc key db.slots) ∧
        (∀ id, id ≠ rd.appointmentId →
          getDoc id db'.appointments = getDoc id db.appointments)) ∧
    (∀ (appt : Appointment) (oldSlot newSlot : AppointmentSlot),
      getDoc rd.appointmentId db.appointments = some appt →
      getDoc (rd.doctorId, rd.oldSlotId) db.slots = some oldSlot →
      getDoc (rd.doctorId, rd.newSlotId) db.slots = some newSlot →
      newSlot.status = "free" →
      (rescheduleAppointment db now rd).1 = .ok ()) := by
  have hkeys : (rd.doctorId, rd.oldSlotId) ≠ (rd.doctorId, rd.newSlotId) := by
    intro h
    exact hne (Prod.mk.inj h).2
  constructor
  · intro db' hok
    obtain ⟨appt, oldSlot, newSlot, happt, hold, hnew, hfree⟩ :=
      rescheduleAppointment_ok_inv db db' now rd hok
    refine ⟨appt, oldSlot, newSlot, happt, hold, hnew, ?_⟩
    rw [rescheduleAppointment_eq db now rd appt oldSlot newSlot happt hold hnew,
      if_neg (not_not.mpr hfree)] at hok
    have hdb := (Prod.mk.inj hok).2
    subst hdb
    refine ⟨?_, ?_, ?_, rfl, ?_, ?_⟩
    · show getDoc _ (updateDoc _ _ (updateDoc _ _ _)) = _
      rw [getDoc_updateDoc_ne _ _ _ _ hkeys, getDoc_updateDoc_self, hold]; rfl
    · show getDoc _ (updateDoc _ _ (updateDoc _ _ _)) = _
      rw [getDoc_updateDoc_self, getDoc_updateDoc_ne _ _ _ _ hkeys.symm, hnew]; rfl
    · show getDoc _ (updateDoc _ _ _) = _
      rw [getDoc_updateDoc_self, happt]; rfl
    · intro key h1 h2
      show getDoc _ (updateDoc _ _ (updateDoc _ _ _)) = _
      rw [getDoc_updateDoc_ne _ _ _ _ h2, getDoc_updateDoc_ne _ _ _ _ h1]
    · intro id hid
      exact getDoc_updateDoc_ne _ _ _ _ hid
  · intro appt oldSlot newSlot happt hold hnew hfree
    rw [rescheduleAppointment_eq db now rd appt oldSlot newSlot happt hold hnew,
      if_neg (not_not.mpr hfree)]

/-- Witness of C11: `p1` moves appointment `a1` from slot `s1` to the free slot `s2`. -/
theorem rescheduleAppointment_effects_witness :
    (rescheduleAppointment ledgerAfterBooking 5 sampleReschedule).1 = .ok () ∧
    (getDoc ("d1", "s1") (rescheduleAppointment ledgerAfterBooking 5 sampleReschedule).2.slots).map
        (fun s => (s.status, s.appointmentId)) = some ("free", none) ∧
    (getDoc ("d1", "s2") (rescheduleAppointment ledgerAfterBooking 5 sampleReschedule).2.slots).map
        (fun s => (s.status, s.appointmentId)) = some ("booked", some "a1") :=
  ⟨(rescheduleAppointment_effects ledgerAfterBooking 5 sampleReschedule (by decide)).2
      { doctorId := "d1", patientId := "p1", slotId := "s1", start := 1709542800000,
        end_ := 1709544600000, status := "confirmed", type := "in-person", reason := "checkup",
        notes := "", history := (sampleRequest "p1").history, cancellationReason := none,
        rescheduledReason := none, createdAt := 0, updatedAt := 0 }
      { sampleSlot with status := "booked", appointmentId := some "a1", updatedAt := some 0 }
      { sampleSlot with start := 1709544600000, end_ := 1709546400000 }
      (by decide) (by decide) (by decide) (by decide),
   by decide, by decide⟩

/-- C12: `rescheduleAppointment` fails whenever the appointment, the old slot or the new slot
does not exist, or the new slot's status is not `free`; the failing call returns an error and
leaves the whole ledger (both slots, the appointment, its events and everything else)
exactly as it was. -/
theorem rescheduleAppointment_failure (db : Ledger) (now : Int) (rd : RescheduleData)
    (hfail : getDoc rd.appointmentId db.appointments = none ∨
      getDoc (rd.doctorId, rd.oldSlotId) db.slots = none ∨
      getDoc (rd.doctorId, rd.newSlotId) db.slots = none ∨
      ∃ newSlot, getDoc (rd.doctorId, rd.newSlotId) db.slots = some newSlot ∧
        newSlot.status ≠ "free") :
    (∃ e, (rescheduleAppointment db now rd).1 = .error e) ∧
    (rescheduleAppointment db now rd).2 = db := by
  have herr : ∃ e, (rescheduleAppointment db now rd).1 = .error e := by
    cases hres : (rescheduleAppointment db now rd).1 with
    | error e => exact ⟨e, rfl⟩
    | ok u =>
      exfalso
      have hok : rescheduleAppointment db now rd = (.ok (), (rescheduleAppointment db now rd).2) :=
        Prod.ext hres rfl
      obtain ⟨appt, oldSlot, newSlot, happt, hold, hnew, hfree⟩ :=
        rescheduleAppointment_ok_inv db _ now rd hok
      rcases hfail with h | h | h | ⟨s, hs, hne⟩
      · rw [happt] at h; exact Option.noConfusion h
      · rw [hold] at h; exact Option.noConfusion h
      · rw [hnew] at h; exact Option.noConfusion h
      · rw [hnew] at hs
        exact hne (Option.some.inj hs ▸ hfree)
  obtain ⟨e, he⟩ := herr
  exact ⟨⟨e, he⟩, runTransaction_error_unchanged db _ e he⟩

/-- Witness of C12: moving `a1` onto the booked slot `s1` fails and changes nothing. -/
theorem rescheduleAppointment_failure_witness :
    (∃ e, (rescheduleAppointment ledgerAfterBooking 5
        { sampleReschedule with oldSlotId := "s2", newSlotId := "s1" }).1 = .error e) ∧
    (rescheduleAppointment ledgerAfterBooking 5
        { sampleReschedule with oldSlotId := "s2", newSlotId := "s1" }).2 = ledgerAfterBooking :=
  rescheduleAppointment_failure ledgerAfterBooking 5
    { sampleReschedule with oldSlotId := "s2", newSlotId := "s1" }
    (Or.inr (Or.inr (Or.inr
      ⟨{ sampleSlot with status := "booked", appointmentId := some "a1", updatedAt := some 0 },
        by decide, by decide⟩)))

/-- C13, as stated, fails: slot `s2` is `held` with `heldBy = p1`, and the reschedule of `a1`
onto `s2` performed by that same user `p1` is rejected with `Selected slot is no longer
available`, leaving the ledger unchanged. -/
theorem reschedule_onto_own_hold_counterexample :
    (getDoc ("d1", "s2") ledgerWithOwnHold.slots).map (fun s => (s.status, s.heldBy))
      = some ("held", some sampleReschedule.userId) ∧
    rescheduleAppointment ledgerWithOwnHold 5 sampleReschedule
      = (.error "Selected slot is no longer available", ledgerWithOwnHold) := by
  decide

/-- C13, amended: when the appointment and both slots exist, `rescheduleAppointment` succeeds
if and only if the new slot's status is `free`; a new slot that is booked or held, by
whichever user, the one performing the reschedule included, is rejected with `Selected slot
is no longer available` and nothing is written. -/
theorem rescheduleAppointment_needs_free_slot (db : Ledger) (now : Int) (rd : RescheduleData)
    (appt : Appointment) (oldSlot newSlot : AppointmentSlot)
    (happt : getDoc rd.appointmentId db.appointments = some appt)
    (hold : getDoc (rd.doctorId, rd.oldSlotId) db.slots = some oldSlot)
    (hnew : getDoc (rd.doctorId, rd.newSlotId) db.slots = some newSlot) :
    ((rescheduleAppointment db now rd).1 = .ok () ↔ newSlot.status = "free") ∧
    (newSlot.status ≠ "free" →
      rescheduleAppointment db now rd = (.error "Selected slot is no longer available", db)) := by
  rw [rescheduleAppointment_eq db now rd appt oldSlot newSlot happt hold hnew]
  by_cases h : newSlot.status = "free"
  · rw [if_neg (not_not.mpr h)]
    exact ⟨⟨fun _ => h, fun _ => rfl⟩, fun hne => absurd h hne⟩
  · rw [if_pos h]
    refine ⟨⟨fun hok => ?_, fun hfree => absurd hfree h⟩, fun _ => rfl⟩
    simp at hok

/-- Witness of the amended C13 on the ledger where `p1` holds slot `s2`. -/
theorem rescheduleAppointment_needs_free_slot_witness :
    rescheduleAppointment ledgerWithOwnHold 5 sampleReschedule
      = (.error "Selected slot is no longer available", ledgerWithOwnHold) :=
  (rescheduleAppointment_needs_free_slot ledgerWithOwnHold 5 sampleReschedule
    { doctorId := "d1", patientId := "p1", slotId := "s1", start := 1709542800000,
      end_ := 1709544600000, status := "confirmed", type := "in-person", reason := "checkup",
      notes := "", history := (sampleRequest "p1").history, cancellationReason := none,
      rescheduledReason := none, createdAt := 0, updatedAt := 0 }
    { sampleSlot with status := "booked", appointmentId := some "a1", updatedAt := some 0 }
    { sampleSlot with start := 1709544600000, end_ := 1709546400000, status := "held",
                      heldBy := some "p1", holdExpiresAt := some 300001, updatedAt := some 1 }
    (by decide) (by decide) (by decide)).2 (by decide)

/-! ## Sweep of expired holds -/

/-- A document that is read under a key is an entry of the collection. -/
theorem mem_of_getDoc {κ β : Type} [DecidableEq κ] (k : κ) (v : β) (l : List (κ × β))
    (h : getDoc k l = some v) : (k, v) ∈ l := by
  induction l with
  | nil => simp [getDoc] at h
  | cons hd tl ih =>
    obtain ⟨k', w⟩ := hd
    by_cases hk : k' = k
    · subst hk
      simp [getDoc] at h
      subst h
      exact List.mem_cons_self _ _
    · simp [getDoc, hk] at h
      exact List.mem_cons_of_mem _ (ih h)

/-- In a collection without repeated keys, an entry is what is read under its key. -/
theorem getDoc_of_mem {κ β : Type} [DecidableEq κ] (k : κ) (v : β) (l : List (κ × β))
    (hnodup : (l.map Prod.fst).Nodup) (h : (k, v) ∈ l) : getDoc k l = some v := by
  induction l with
  | nil => exact absurd h (List.not_mem_nil _)
  | cons hd tl ih =>
    obtain ⟨k', w⟩ := hd
    rw [List.map_cons, List.nodup_cons] at hnodup
    rcases List.mem_cons.mp h with heq | hmem
    · have h1 := (Prod.mk.inj heq).1
      have h2 := (Prod.mk.inj heq).2
      subst h1; subst h2
      simp [getDoc]
    · have hne : k' ≠ k := by
        intro e
        subst e
        exact hnodup.1 (List.mem_map.mpr ⟨(k', v), hmem, rfl⟩)
      simp only [getDoc, hne, if_false]
      exact ih hnodup.2 hmem

/-- What `cleanupExpiredHolds` returns, in one equation: the `TypeError` of `db.batch()`,
and the ledger as it was. -/
theorem cleanupExpiredHolds_eq (db : Ledger) (now : Int) (doctorId : String) :
    cleanupExpiredHolds db now doctorId
      = (.error "db.batch is not a function", db) := rfl

/-- The query of the sweep, spelled out: the doctor's slot is `held` and its hold expired at
or before `now`. -/
theorem expiredHold_iff (now : Int) (doctorId : String) (key : SlotKey) (slot : AppointmentSlot) :
    expiredHold now doctorId (key, slot) = true ↔
      key.1 = doctorId ∧ slot.status = "held" ∧
        ∃ t, slot.holdExpiresAt = some t ∧ t ≤ now := by
  unfold expiredHold
  cases h : slot.holdExpiresAt with
  | none => simp
  | some t => simp [and_assoc]

/-- C16 fails on the code: `cleanupExpiredHolds` calls `db.batch()` on a Firestore instance
that has no such method, so after its query it throws a `TypeError`, whatever the ledger, the
clock and the doctor: no count is returned and no slot is changed. On the sample ledger in
which `u1` holds slot `s1` until 301000 the sweep at 400000 finds that slot with its query,
throws, and leaves the slot `held` by `u1`. -/
theorem cleanupExpiredHolds_throws :
    (∀ (db : Ledger) (now : Int) (doctorId : String),
      cleanupExpiredHolds db now doctorId
        = (.error "db.batch is not a function", db)) ∧
    (ledgerWithHold.slots.filter (expiredHold 400000 "d1")).map (fun entry => entry.1)
      = [("d1", "s1")] ∧
    (cleanupExpiredHolds ledgerWithHold 400000 "d1").1 ≠ .ok 1 ∧
    (getDoc ("d1", "s1") (cleanupExpiredHolds ledgerWithHold 400000 "d1").2.slots).map
        (fun s => (s.status, s.heldBy, s.holdExpiresAt))
      = some ("held", some "u1", some 301000) := by
  refine ⟨fun db now doctorId => rfl, ?_, ?_, ?_⟩ <;> decide

/-! ## Expired holds on the booking path -/

/-- C15, as stated, fails: slot `s1` is held by `u1` and the hold expired at 301000; at time
400000 the booking of `p2` is rejected with `Slot is not available` and nothing is
written. -/
theorem book_expired_hold_counterexample :
    (getDoc ("d1", "s1") ledgerWithHold.slots).map (fun s => (s.status, s.heldBy, s.holdExpiresAt))
      = some ("held", some "u1", some 301000) ∧
    bookAppointment ledgerWithHold 400000 "a1" (sampleRequest "p2")
      = (.error "Slot is not available", ledgerWithHold) := by
  decide

/-- C15, amended: `bookAppointment` never reads `holdExpiresAt`. On a slot held by user `A`
the booking of a different user `B` is rejected with `Slot is not available` and writes
nothing, whatever the clock reading and whatever `holdExpiresAt` is, so also when the hold
of `A` has expired. -/
theorem book_after_hold_expiry (db : Ledger) (now : Int) (newId userA : String)
    (data : AppointmentData) (slot : AppointmentSlot)
    (hslot : getDoc (data.doctorId, data.slotId) db.slots = some slot)
    (hheld : slot.status = "held") (hby : slot.heldBy = some userA)
    (hother : data.patientId ≠ userA) :
    bookAppointment db now newId data = (.error "Slot is not available", db) := by
  rw [bookAppointment_eq db now newId data slot hslot]
  have hno : ¬ (slot.status = "free" ∨
      (slot.status = "held" ∧ slot.heldBy = some data.patientId)) := by
    rw [hheld, hby]
    intro h
    rcases h with h | ⟨_, h⟩
    · exact absurd h (by decide)
    · exact hother (Option.some.inj h).symm
  rw [if_neg hno]

/-- Witness of the amended C15: `p2` and the slot `s1` that `u1` held until 301000, at the
clock reading 400000. -/
theorem book_after_hold_expiry_witness :
    (getDoc ("d1", "s1") ledgerWithHold.slots).map (fun s => s.holdExpiresAt)
      = some (some 301000) ∧
    bookAppointment ledgerWithHold 400000 "a1" (sampleRequest "p2")
      = (.error "Slot is not available", ledgerWithHold) :=
  ⟨by decide,
   book_after_hold_expiry ledgerWithHold 400000 "a1" "u1" (sampleRequest "p2")
      { sampleSlot with status := "held", heldBy := some "u1", holdExpiresAt := some 301000,
                        updatedAt := some 1000 }
      (by decide) rfl rfl (by decide)⟩

/-! ## Query of available slots -/

/-- What `getAvailableSlots` returns: an id with its data is returned exactly when some
document of the doctor's slots with that id and data satisfies the query. -/
theorem mem_getAvailableSlots (db : Ledger) (doctorId : String) (startDate endDate : Int)
    (id : String) (slot : AppointmentSlot) :
    (id, slot) ∈ getAvailableSlots db doctorId startDate endDate ↔
      ((doctorId, id), slot) ∈ db.slots ∧ startDate ≤ slot.start ∧ slot.start ≤ endDate ∧
        slot.status = "free" := by
  unfold getAvailableSlots
  rw [List.mem_map]
  constructor
  · rintro ⟨⟨⟨d, i⟩, sl⟩, hmem, heq⟩
    rw [(List.perm_insertionSort startOrder _).mem_iff, List.mem_filter] at hmem
    obtain ⟨hin, hq⟩ := hmem
    simp only [availableQuery, Bool.and_eq_true, decide_eq_true_eq] at hq
    simp only [Prod.mk.injEq] at heq
    obtain ⟨h1, h2⟩ := heq
    subst h1; subst h2
    obtain ⟨⟨⟨hd, hs⟩, he⟩, hf⟩ := hq
    subst hd
    exact ⟨hin, hs, he, hf⟩
  · rintro ⟨hin, hs, he, hf⟩
    refine ⟨((doctorId, id), slot), ?_, rfl⟩
    rw [(List.perm_insertionSort startOrder _).mem_iff, List.mem_filter]
    refine ⟨hin, ?_⟩
    simp only [availableQuery, Bool.and_eq_true, decide_eq_true_eq]
    exact ⟨⟨⟨trivial, hs⟩, he⟩, hf⟩

/-- C14, as stated, fails: slot `s1` is `held`, its hold expired at 301000 and its start lies
in the queried day, yet `getAvailableSlots`, which reads no clock, returns only the free slot
`s2`. -/
theorem lazy_expiry_counterexample :
    (getDoc ("d1", "s1") ledgerWithHold.slots).map
        (fun s => (s.status, s.holdExpiresAt, s.start))
      = some ("held", some 301000, mondayAt 540) ∧
    getAvailableSlots ledgerWithHold "d1" monday (monday + msPerDay)
      = [("s2", { sampleSlot with start := 1709544600000, end_ := 1709546400000 })] := by
  decide

/-- C14, amended: `getAvailableSlots` reads neither the clock nor `holdExpiresAt`; it
returns only slots whose status is `free`, so a slot with status `held` is not returned,
whatever its `holdExpiresAt` is and also when its start lies in the queried range. -/
theorem getAvailableSlots_free_only (db : Ledger) (doctorId : String) (startDate endDate : Int) :
    (∀ entry ∈ getAvailableSlots db doctorId startDate endDate, entry.2.status = "free") ∧
    (∀ (id : String) (slot : AppointmentSlot), slot.status = "held" →
      (id, slot) ∉ getAvailableSlots db doctorId startDate endDate) := by
  have hfree : ∀ entry ∈ getAvailableSlots db doctorId startDate endDate,
      entry.2.status = "free" := by
    rintro ⟨id, slot⟩ hmem
    exact ((mem_getAvailableSlots db doctorId startDate endDate id slot).mp hmem).2.2.2
  refine ⟨hfree, ?_⟩
  intro id slot hheld hmem
  have h := hfree (id, slot) hmem
  rw [show (id, slot).2.status = slot.status from rfl, hheld] at h
  exact absurd h (by decide)

/-- Witness of the amended C14: the slot `s1` of the sample ledger, held by `u1` until
301000 and starting on the queried Monday, is not returned. -/
theorem getAvailableSlots_free_only_witness :
    getDoc ("d1", "s1") ledgerWithHold.slots
      = some { sampleSlot with status := "held", heldBy := some "u1",
                               holdExpiresAt := some 301000, updatedAt := some 1000 } ∧
    ("s1", { sampleSlot with status := "held", heldBy := some "u1",
                             holdExpiresAt := some 301000, updatedAt := some 1000 })
      ∉ getAvailableSlots ledgerWithHold "d1" monday (monday + msPerDay) :=
  ⟨by decide,
   (getAvailableSlots_free_only ledgerWithHold "d1" monday (monday + msPerDay)).2 "s1"
    { sampleSlot with status := "held", heldBy := some "u1", holdExpiresAt := some 301000,
                      updatedAt := some 1000 }
    rfl⟩

/-- The order of the query results compares any two documents. -/
theorem startOrder_total (a b : SlotKey × AppointmentSlot) : startOrder a b ∨ startOrder b a := by
  unfold startOrder
  rcases lt_trichotomy a.2.start b.2.start with h | h | h
  · exact Or.inl (Or.inl h)
  · rcases le_total a.1.2.data b.1.2.data with h' | h'
    · exact Or.inl (Or.inr ⟨h, h'⟩)
    · exact Or.inr (Or.inr ⟨h.symm, h'⟩)
  · exact Or.inr (Or.inl h)

/-- The order of the query results is transitive. -/
theorem startOrder_trans (a b c : SlotKey × AppointmentSlot) (hab : startOrder a b)
    (hbc : startOrder b c) : startOrder a c := by
  unfold startOrder at *
  rcases hab with h | ⟨h, h'⟩
  · rcases hbc with k | ⟨k, _⟩
    · exact Or.inl (lt_trans h k)
    · exact Or.inl (k ▸ h)
  · rcases hbc with k | ⟨k, k'⟩
    · exact Or.inl (h ▸ k)
    · exact Or.inr ⟨h.trans k, le_trans h' k'⟩

/-- C17: in a ledger whose slot documents have distinct paths,
`getAvailableSlots(doctorId, startDate, endDate)` returns exactly the doctor's slots with
`startDate ≤ start ≤ endDate` (both bounds included) whose status is `free`, each under its
id and exactly once, sorted by start ascending; no returned slot is `booked` or `held`. -/
theorem getAvailableSlots_spec (db : Ledger) (doctorId : String) (startDate endDate : Int)
    (hnodup : (db.slots.map Prod.fst).Nodup) :
    (∀ (id : String) (slot : AppointmentSlot),
      (id, slot) ∈ getAvailableSlots db doctorId startDate endDate ↔
        getDoc (doctorId, id) db.slots = some slot ∧ startDate ≤ slot.start ∧
          slot.start ≤ endDate ∧ slot.status = "free") ∧
    ((getAvailableSlots db doctorId startDate endDate).map Prod.fst).Nodup ∧
    (getAvailableSlots db doctorId startDate endDate).Pairwise
      (fun a b => a.2.start ≤ b.2.start) ∧
    (∀ entry ∈ getAvailableSlots db doctorId startDate endDate,
      entry.2.status ≠ "booked" ∧ entry.2.status ≠ "held") := by
  refine ⟨?_, ?_, ?_, ?_⟩
  · intro id slot
    rw [mem_getAvailableSlots]
    constructor
    · rintro ⟨hin, h⟩
      exact ⟨getDoc_of_mem _ _ _ hnodup hin, h⟩
    · rintro ⟨hget, h⟩
      exact ⟨mem_of_getDoc _ _ _ hget, h⟩
  · unfold getAvailableSlots
    have hF : ((db.slots.filter (availableQuery doctorId startDate endDate)).map Prod.fst).Nodup :=
      hnodup.sublist ((List.filter_sublist _).map Prod.fst)
    have hperm := List.perm_insertionSort startOrder
      (db.slots.filter (availableQuery doctorId startDate endDate))
    have hS := (hperm.map Prod.fst).nodup_iff.mpr hF
    have hdoc : ∀ k ∈ ((db.slots.filter (availableQuery doctorId startDate endDate)).insertionSort
        startOrder).map Prod.fst, k.1 = doctorId := by
      intro k hk
      obtain ⟨e, he, rfl⟩ := List.mem_map.mp hk
      have hq := (List.mem_filter.mp (hperm.mem_iff.mp he)).2
      simp only [availableQuery, Bool.and_eq_true, decide_eq_true_eq] at hq
      exact hq.1.1.1
    have hmap := List.Nodup.map_on (f := Prod.snd) (fun x hx y hy hxy =>
      Prod.ext ((hdoc x hx).trans (hdoc y hy).symm) hxy) hS
    rw [List.map_map] at hmap ⊢
    exact hmap
  · unfold getAvailableSlots
    haveI : IsTotal (SlotKey × AppointmentSlot) startOrder := ⟨startOrder_total⟩
    haveI : IsTrans (SlotKey × AppointmentSlot) startOrder := ⟨startOrder_trans⟩
    have hsorted := List.sorted_insertionSort startOrder
      (db.slots.filter (availableQuery doctorId startDate endDate))
    rw [List.pairwise_map]
    refine List.Pairwise.imp ?_ hsorted
    intro a b hab
    rcases hab with h | ⟨h, _⟩
    · exact le_of_lt h
    · exact le_of_eq h
  · rintro ⟨id, slot⟩ hmem
    have hfree := ((mem_getAvailableSlots db doctorId startDate endDate id slot).mp hmem).2.2.2
    simp only [hfree]
    exact ⟨by decide, by decide⟩

/-- Witness of C17: in the sample ledger with slot `s1` booked, the query of Monday
2024-03-04 returns only slot `s2`. -/
theorem getAvailableSlots_spec_witness :
    getAvailableSlots ledgerAfterBooking "d1" monday (monday + msPerDay)
      = [("s2", { sampleSlot with start := 1709544600000, end_ := 1709546400000 })] ∧
    ((getAvailableSlots ledgerAfterBooking "d1" monday (monday + msPerDay)).map Prod.fst).Nodup ∧
    (getAvailableSlots ledgerAfterBooking "d1" monday (monday + msPerDay)).Pairwise
      (fun a b => a.2.start ≤ b.2.start) :=
  ⟨by decide,
   (getAvailableSlots_spec ledgerAfterBooking "d1" monday (monday + msPerDay) (by decide)).2.1,
   (getAvailableSlots_spec ledgerAfterBooking "d1" monday (monday + msPerDay) (by decide)).2.2.1⟩

/-! ## Materialization of generated slots -/

/-- What `saveAppointmentSlots` returns, in one equation: the `TypeError` of `db.batch()`,
and the ledger as it was. -/
theorem saveAppointmentSlots_eq (db : Ledger) (now : Int) (newIds : List String)
    (doctorId : String) (slots : List AppointmentSlot) :
    saveAppointmentSlots db now newIds doctorId slots
      = (.error "db.batch is not a function", db) := rfl

/-- C18 fails on the code: `saveAppointmentSlots` calls `db.batch()` on a Firestore instance
that has no such method, so it throws a `TypeError` before any write, whatever the ledger and
the slots. Saving the four slots generated for Monday 2024-03-04 into the empty ledger
throws and stores none of them, and so does the second save: the ledger is still empty, with
no document for the generated 09:00 slot. -/
theorem saveAppointmentSlots_throws :
    (∀ (db : Ledger) (now : Int) (newIds : List String) (doctorId : String)
        (slots : List AppointmentSlot),
      saveAppointmentSlots db now newIds doctorId slots
        = (.error "db.batch is not a function", db)) ∧
    generateAvailableSlots 5 0 0 sampleTemplate monday monday [] = .ok mondaySlots ∧
    saveAppointmentSlots emptyLedger 1 ["g1", "g2", "g3", "g4"] "d1" mondaySlots
      = (.error "db.batch is not a function", emptyLedger) ∧
    ledgerSavedTwice = emptyLedger ∧
    ledgerSavedTwice.slots.filter (fun e =>
        decide (e.1.1 = "d1") && decide (e.2.start = mondayAt 540)) = [] := by
  refine ⟨fun db now newIds doctorId slots => rfl, ?_, ?_, ?_, ?_⟩ <;> decide

/-! ## Slot generator: termination -/

/-- Enough fuel for the inner loop whenever each step advances: one iteration per
millisecond of the range suffices. -/
theorem fuel_covers_step (d b span : Int) (fuel : Nat) (hstep : 0 < d + b)
    (h : span.toNat + 1 ≤ fuel) : span ≤ fuel * ((d + b) * msPerMinute) := by
  have h1 : (1 : Int) ≤ (d + b) * msPerMinute := by unfold msPerMinute; omega
  have h2 : (fuel : Int) ≤ fuel * ((d + b) * msPerMinute) :=
    le_mul_of_one_le_right (Int.ofNat_nonneg fuel) h1
  omega

/-- The inner loop returns a list when the fuel, at `slotDuration + bufferTime` minutes per
iteration, covers the distance to the end of the range. -/
theorem slotLoop_terminates (doctorId : String) (d b rangeEnd now : Int) :
    ∀ (fuel : Nat) (start : Int), rangeEnd - start ≤ fuel * ((d + b) * msPerMinute) →
      ∃ l, slotLoop doctorId d b rangeEnd now fuel start = .ok l := by
  intro fuel
  induction fuel with
  | zero =>
    intro start hfuel
    have hlt : ¬ start < rangeEnd := by simp at hfuel; omega
    exact ⟨[], by simp [slotLoop, hlt]⟩
  | succ fuel ih =>
    intro start hfuel
    by_cases hlt : start < rangeEnd
    · have hfuel' : rangeEnd - (start + (d + b) * msPerMinute)
          ≤ fuel * ((d + b) * msPerMinute) := by
        push_cast at hfuel
        linarith
      obtain ⟨rest, hrest⟩ := ih (start + (d + b) * msPerMinute) hfuel'
      rw [slotLoop]
      simp only [hlt, if_true, hrest]
      by_cases hfit : start + d * msPerMinute ≤ rangeEnd
      · exact ⟨_, by rw [if_pos hfit]⟩
      · exact ⟨_, by rw [if_neg hfit]⟩
    · exact ⟨[], by simp [slotLoop, hlt]⟩

/-- A range of the list is no longer than all of them together. -/
theorem span_le_totalSpan (r : TimeRange) (ranges : List TimeRange) (h : r ∈ ranges) :
    r.span ≤ totalSpan ranges := by
  induction ranges with
  | nil => exact absurd h (List.not_mem_nil _)
  | cons r' rs ih =>
    rcases List.mem_cons.mp h with heq | hmem
    · subst heq
      simp [totalSpan]
    · have := ih hmem
      simp only [totalSpan]
      omega

/-- The loop over the ranges of a day returns a list when `slotDuration + bufferTime > 0`
and the fuel exceeds the length of each range. -/
theorem rangesLoop_terminates (template : ScheduleTemplate) (now : Int) (fuel : Nat)
    (currentDate : Int) (hstep : 0 < template.defaultSlotDuration + template.bufferTime) :
    ∀ ranges : List TimeRange, (∀ r ∈ ranges, r.span + 1 ≤ fuel) →
      ∃ l, rangesLoop template now fuel currentDate ranges = .ok l := by
  intro ranges
  induction ranges with
  | nil => intro _; exact ⟨[], rfl⟩
  | cons r rs ih =>
    intro hfuel
    obtain ⟨rest, hrest⟩ := ih (fun r' hr' => hfuel r' (List.mem_cons_of_mem r hr'))
    have hr := hfuel r (List.mem_cons_self r rs)
    have hspan : setHours currentDate r.endHour r.endMinute
        - setHours currentDate r.startHour r.startMinute
        ≤ fuel * ((template.defaultSlotDuration + template.bufferTime) * msPerMinute) := by
      apply fuel_covers_step _ _ _ _ hstep
      simp only [TimeRange.span, TimeRange.endMinutes, TimeRange.startMinutes, setHours] at hr ⊢
      have e : currentDate - currentDate % msPerDay
            + ((r.endHour : Int) * 60 + (r.endMinute : Int)) * msPerMinute
          - (currentDate - currentDate % msPerDay
            + ((r.startHour : Int) * 60 + (r.startMinute : Int)) * msPerMinute)
          = ((r.endHour : Int) * 60 + (r.endMinute : Int)
            - ((r.startHour : Int) * 60 + (r.startMinute : Int))) * msPerMinute := by ring
      rw [e]
      exact hr
    obtain ⟨first, hfirst⟩ := slotLoop_terminates template.doctorId template.defaultSlotDuration
      template.bufferTime (setHours currentDate r.endHour r.endMinute) now fuel
      (setHours currentDate r.startHour r.startMinute) hspan
    exact ⟨first ++ rest, by rw [rangesLoop, hfirst, hrest]⟩

/-- The ranges used for a day are among the ranges of the template and of the special days
of the exceptions. -/
theorem daySlotsOf_subset (template : ScheduleTemplate) (exceptions : List ScheduleException)
    (utcOffset currentDate : Int) (day : DaySchedule) (hday : day ∈ template.weeklyHours) :
    ∀ r ∈ daySlotsOf day utcOffset currentDate (findException exceptions currentDate),
      r ∈ allRanges template exceptions := by
  intro r hr
  have htemplate : ∀ r ∈ day.slots, r ∈ allRanges template exceptions := by
    intro r hr
    exact List.mem_append_left _ (List.mem_flatMap.mpr ⟨day, hday, hr⟩)
  cases hfind : findException exceptions currentDate with
  | none =>
    rw [hfind] at hr
    exact htemplate r hr
  | some ex =>
    rw [hfind] at hr
    have hmem : ex ∈ exceptions := List.mem_of_find?_eq_some hfind
    unfold daySlotsOf at hr
    by_cases htype : ex.type = "special-hours"
    · simp only [htype, if_true] at hr
      cases hsd : ex.specialHours.find?
          (fun sh => decide (sh.date = dateString utcOffset currentDate)) with
      | none =>
        rw [hsd] at hr
        exact htemplate r hr
      | some sd =>
        rw [hsd] at hr
        exact List.mem_append_right _ (List.mem_flatMap.mpr
          ⟨ex, hmem, List.mem_flatMap.mpr ⟨sd, List.mem_of_find?_eq_some hsd, hr⟩⟩)
    · simp only [htype, if_false] at hr
      exact htemplate r hr

/-- The outer loop, when `slotDuration + bufferTime > 0` and the fuel suffices, does not run
out of fuel, and returns a list when the week has its seven entries. -/
theorem dayLoop_terminates (template : ScheduleTemplate) (endDate : Int)
    (exceptions : List ScheduleException) (now utcOffset : Int) (innerFuel : Nat)
    (hstep : 0 < template.defaultSlotDuration + template.bufferTime)
    (hinner : totalSpan (allRanges template exceptions) + 1 ≤ innerFuel) :
    ∀ (fuel : Nat) (currentDate : Int), endDate - currentDate < fuel * msPerDay →
      dayLoop template endDate exceptions now utcOffset innerFuel fuel currentDate
          ≠ .error GenError.outOfFuel ∧
      (template.weeklyHours.length = 7 →
        ∃ l, dayLoop template endDate exceptions now utcOffset innerFuel fuel currentDate
          = .ok l) := by
  intro fuel
  induction fuel with
  | zero =>
    intro currentDate hfuel
    have hlt : endDate < currentDate := by simp at hfuel; omega
    rw [dayLoop_done _ _ _ _ _ _ _ _ hlt]
    exact ⟨fun h => Except.noConfusion h, fun _ => ⟨[], rfl⟩⟩
  | succ fuel ih =>
    intro currentDate hfuel
    by_cases hle : currentDate ≤ endDate
    · have hnext : endDate - (currentDate + msPerDay) < fuel * msPerDay := by
        push_cast at hfuel
        linarith
      obtain ⟨hno, hlist⟩ := ih (currentDate + msPerDay) hnext
      rw [dayLoop]
      simp only [hle, if_true]
      cases hday : template.weeklyHours[getDay currentDate]? with
      | none =>
        refine ⟨fun h => by simp at h, fun hweek => ?_⟩
        exfalso
        have hlookup : getDay currentDate < template.weeklyHours.length := by
          rw [hweek]; unfold getDay; omega
        rw [List.getElem?_eq_getElem hlookup] at hday
        exact Option.noConfusion hday
      | some day =>
        dsimp only
        have hmem : day ∈ template.weeklyHours := List.getElem?_mem hday
        by_cases havail : day.available = true
        · simp only [havail, if_true]
          by_cases hun : isUnavailable (findException exceptions currentDate) = true
          · simp only [hun, if_true]
            exact ⟨hno, hlist⟩
          · simp only [hun]
            obtain ⟨today, htoday⟩ := rangesLoop_terminates template now innerFuel currentDate
              hstep _ (fun r hr => by
                have h1 := span_le_totalSpan r _
                  (daySlotsOf_subset template exceptions utcOffset currentDate day hmem r hr)
                omega)
            simp only [htoday, if_false]
            cases hrest : dayLoop template endDate exceptions now utcOffset innerFuel fuel
                (currentDate + msPerDay) with
            | error e =>
              refine ⟨fun h => ?_, fun hweek => ?_⟩
              · rw [hrest] at hno
                exact hno (by simpa using h)
              · obtain ⟨l, hl⟩ := hlist hweek
                rw [hrest] at hl
                exact Except.noConfusion hl
            | ok rest =>
              exact ⟨fun h => by simp at h, fun _ => ⟨today ++ rest, rfl⟩⟩
        · simp only [havail]
          exact ⟨hno, hlist⟩
    · have hlt : endDate < currentDate := by omega
      rw [dayLoop_done _ _ _ _ _ _ _ _ hlt]
      exact ⟨fun h => Except.noConfusion h, fun _ => ⟨[], rfl⟩⟩

/-- C20: for every template with `defaultSlotDuration + bufferTime > 0`, every exceptions
list and every date range, `generateAvailableSlots` terminates: with the fuel `enoughFuel`
or more it never runs out of fuel, and it returns a list when `weeklyHours` has its seven
entries (otherwise reading a missing entry raises the `TypeError`). Each iteration of the
inner loop emits at most one slot and continues from the slot start advanced by
`defaultSlotDuration + bufferTime` minutes; each iteration of the outer loop continues from
the current day advanced by one day. -/
theorem generateAvailableSlots_terminates (template : ScheduleTemplate)
    (startDate endDate now utcOffset : Int) (exceptions : List ScheduleException)
    (hstep : 0 < template.defaultSlotDuration + template.bufferTime) :
    (∀ fuel : Nat, enoughFuel template exceptions startDate endDate ≤ fuel →
      generateAvailableSlots fuel now utcOffset template startDate endDate exceptions
          ≠ .error GenError.outOfFuel ∧
      (template.weeklyHours.length = 7 →
        ∃ l, generateAvailableSlots fuel now utcOffset template startDate endDate exceptions
          = .ok l)) ∧
    (∀ (rangeEnd : Int) (fuel : Nat) (start : Int), start < rangeEnd →
      start < start + (template.defaultSlotDuration + template.bufferTime) * 60000 ∧
      slotLoop template.doctorId template.defaultSlotDuration template.bufferTime rangeEnd now
          (fuel + 1) start
        = Except.map (fun rest =>
            if start + template.defaultSlotDuration * 60000 ≤ rangeEnd then
              freeSlot template.doctorId now start
                (start + template.defaultSlotDuration * 60000) :: rest
            else rest)
          (slotLoop template.doctorId template.defaultSlotDuration template.bufferTime
            rangeEnd now fuel
            (start + (template.defaultSlotDuration + template.bufferTime) * 60000))) ∧
    (∀ (innerFuel fuel : Nat) (currentDate : Int), currentDate ≤ endDate →
      (∃ today, dayLoop template endDate exceptions now utcOffset innerFuel (fuel + 1)
          currentDate
        = Except.map (fun rest => today ++ rest)
            (dayLoop template endDate exceptions now utcOffset innerFuel fuel
              (currentDate + msPerDay))) ∨
      ∃ e, dayLoop template endDate exceptions now utcOffset innerFuel (fuel + 1) currentDate
        = .error e) := by
  refine ⟨?_, ?_, ?_⟩
  · intro fuel hfuel
    unfold enoughFuel at hfuel
    have h1 : totalSpan (allRanges template exceptions) + 1 ≤ fuel :=
      le_trans (le_max_left _ _) hfuel
    have h2 : (endDate - startDate).toNat + 1 ≤ fuel := le_trans (le_max_right _ _) hfuel
    have h3 : endDate - startDate < fuel * msPerDay := by
      have : (fuel : Int) ≤ fuel * msPerDay :=
        le_mul_of_one_le_right (Int.ofNat_nonneg fuel) (by unfold msPerDay; omega)
      omega
    exact dayLoop_terminates template endDate exceptions now utcOffset fuel hstep h1 fuel
      startDate h3
  · intro rangeEnd fuel start hlt
    refine ⟨by omega, ?_⟩
    rw [slotLoop]
    simp only [hlt, if_true, msPerMinute]
    cases slotLoop template.doctorId template.defaultSlotDuration template.bufferTime rangeEnd
        now fuel (start + (template.defaultSlotDuration + template.bufferTime) * 60000) with
    | error e => rfl
    | ok rest =>
      by_cases hfit : start + template.defaultSlotDuration * 60000 ≤ rangeEnd
      · simp [Except.map, hfit]
      · simp [Except.map, hfit]
  · intro innerFuel fuel currentDate hle
    have hid : ∀ r : Except GenError (List AppointmentSlot),
        r = Except.map (fun rest => ([] : List AppointmentSlot) ++ rest) r := by
      intro r
      cases r <;> simp [Except.map]
    rw [dayLoop]
    simp only [hle, if_true]
    cases template.weeklyHours[getDay currentDate]? with
    | none => exact Or.inr ⟨_, rfl⟩
    | some day =>
      dsimp only
      by_cases havail : day.available = true
      · simp only [havail, if_true]
        by_cases hun : isUnavailable (findException exceptions currentDate) = true
        · simp only [hun, if_true]
          exact Or.inl ⟨[], hid _⟩
        · simp only [hun, Bool.false_eq_true, if_false]
          cases rangesLoop template now innerFuel currentDate
              (daySlotsOf day utcOffset currentDate (findException exceptions currentDate)) with
          | error e => exact Or.inr ⟨e, rfl⟩
          | ok today =>
            refine Or.inl ⟨today, ?_⟩
            cases dayLoop template endDate exceptions now utcOffset innerFuel fuel
                (currentDate + msPerDay) <;> rfl
      · simp only [havail]
        exact Or.inl ⟨[], hid _⟩

/-- Witness of C20: the sample template with a buffer of -10 minutes (so that each step
advances by 20 minutes) on Monday 2024-03-04 returns a list, of eight slots. -/
theorem generateAvailableSlots_terminates_witness :
    (∃ l, generateAvailableSlots
        (enoughFuel { sampleTemplate with bufferTime := -10 } [] monday monday) 0 0
        { sampleTemplate with bufferTime := -10 } monday monday [] = .ok l) ∧
    (generateAvailableSlots 10 0 0 { sampleTemplate with bufferTime := -10 } monday monday []).map
        List.length = .ok 8 :=
  ⟨((generateAvailableSlots_terminates { sampleTemplate with bufferTime := -10 } monday monday
      0 0 [] (by decide)).1 _ (le_refl _)).2 (by decide),
   by decide⟩

/-! ## Slot generator: determinism -/

/-- The inner loop, run at two clock readings, gives the same slots up to `createdAt`. -/
theorem slotLoop_clock (doctorId : String) (d b rangeEnd now₁ now₂ : Int) :
    ∀ (fuel : Nat) (start : Int),
      Except.map (List.map withoutCreatedAt) (slotLoop doctorId d b rangeEnd now₁ fuel start)
        = Except.map (List.map withoutCreatedAt)
            (slotLoop doctorId d b rangeEnd now₂ fuel start) := by
  intro fuel
  induction fuel with
  | zero =>
    intro start
    by_cases hlt : start < rangeEnd <;> simp [slotLoop, hlt]
  | succ fuel ih =>
    intro start
    rw [slotLoop, slotLoop]
    by_cases hlt : start < rangeEnd
    · simp only [hlt, if_true]
      have h := ih (start + (d + b) * msPerMinute)
      cases h1 : slotLoop doctorId d b rangeEnd now₁ fuel (start + (d + b) * msPerMinute) with
      | error e₁ =>
        cases h2 : slotLoop doctorId d b rangeEnd now₂ fuel (start + (d + b) * msPerMinute) with
        | error e₂ =>
          rw [h1, h2] at h
          simpa [Except.map] using h
        | ok l₂ =>
          rw [h1, h2] at h
          simp [Except.map] at h
      | ok l₁ =>
        cases h2 : slotLoop doctorId d b rangeEnd now₂ fuel (start + (d + b) * msPerMinute) with
        | error e₂ =>
          rw [h1, h2] at h
          simp [Except.map] at h
        | ok l₂ =>
          rw [h1, h2] at h
          simp only [Except.map, Except.ok.injEq] at h
          by_cases hfit : start + d * msPerMinute ≤ rangeEnd
          · simp only [hfit, if_true, Except.map, List.map_cons, h]
            rfl
          · simp only [hfit, if_false, Except.map, h]
    · simp only [hlt, if_false]

/-- The loop over the ranges of a day, run at two clock readings, gives the same slots up
to `createdAt`. -/
theorem rangesLoop_clock (template : ScheduleTemplate) (now₁ now₂ : Int) (fuel : Nat)
    (currentDate : Int) :
    ∀ ranges : List TimeRange,
      Except.map (List.map withoutCreatedAt) (rangesLoop template now₁ fuel currentDate ranges)
        = Except.map (List.map withoutCreatedAt)
            (rangesLoop template now₂ fuel currentDate ranges) := by
  intro ranges
  induction ranges with
  | nil => rfl
  | cons r rs ih =>
    rw [rangesLoop, rangesLoop]
    have h := slotLoop_clock template.doctorId template.defaultSlotDuration template.bufferTime
      (setHours currentDate r.endHour r.endMinute) now₁ now₂ fuel
      (setHours currentDate r.startHour r.startMinute)
    cases h1 : slotLoop template.doctorId template.defaultSlotDuration template.bufferTime
        (setHours currentDate r.endHour r.endMinute) now₁ fuel
        (setHours currentDate r.startHour r.startMinute) <;>
      cases h2 : slotLoop template.doctorId template.defaultSlotDuration template.bufferTime
        (setHours currentDate r.endHour r.endMinute) now₂ fuel
        (setHours currentDate r.startHour r.startMinute) <;>
      rw [h1, h2] at h <;>
      simp only [Except.map, Except.ok.injEq, Except.error.injEq, reduceCtorEq] at h
    · subst h
      rfl
    · cases k1 : rangesLoop template now₁ fuel currentDate rs <;>
        cases k2 : rangesLoop template now₂ fuel currentDate rs <;>
        rw [k1, k2] at ih <;>
        simp only [Except.map, Except.ok.injEq, Except.error.injEq, reduceCtorEq] at ih
      · subst ih
        rfl
      · simp only [Except.map, List.map_append, h, ih]

/-- The outer loop, run at two clock readings, gives the same slots up to `createdAt`. -/
theorem dayLoop_clock (template : ScheduleTemplate) (endDate : Int)
    (exceptions : List ScheduleException) (now₁ now₂ utcOffset : Int) (innerFuel : Nat) :
    ∀ (fuel : Nat) (currentDate : Int),
      Except.map (List.map withoutCreatedAt)
          (dayLoop template endDate exceptions now₁ utcOffset innerFuel fuel currentDate)
        = Except.map (List.map withoutCreatedAt)
            (dayLoop template endDate exceptions now₂ utcOffset innerFuel fuel currentDate) := by
  intro fuel
  induction fuel with
  | zero =>
    intro currentDate
    by_cases hle : currentDate ≤ endDate <;> simp [dayLoop, hle]
  | succ fuel ih =>
    intro currentDate
    rw [dayLoop, dayLoop]
    by_cases hle : currentDate ≤ endDate
    · simp only [hle, if_true]
      have hnext := ih (currentDate + msPerDay)
      cases template.weeklyHours[getDay currentDate]? with
      | none => rfl
      | some day =>
        dsimp only
        by_cases havail : day.available = true
        · simp only [havail, if_true]
          by_cases hun : isUnavailable (findException exceptions currentDate) = true
          · simp only [hun, if_true]
            exact hnext
          · simp only [hun, Bool.false_eq_true, if_false]
            have h := rangesLoop_clock template now₁ now₂ innerFuel currentDate
              (daySlotsOf day utcOffset currentDate (findException exceptions currentDate))
            cases h1 : rangesLoop template now₁ innerFuel currentDate
                (daySlotsOf day utcOffset currentDate (findException exceptions currentDate)) <;>
              cases h2 : rangesLoop template now₂ innerFuel currentDate
                (daySlotsOf day utcOffset currentDate (findException exceptions currentDate)) <;>
              rw [h1, h2] at h <;>
              simp only [Except.map, Except.ok.injEq, Except.error.injEq, reduceCtorEq] at h
            · subst h
              rfl
            · cases k1 : dayLoop template endDate exceptions now₁ utcOffset innerFuel fuel
                  (currentDate + msPerDay) <;>
                cases k2 : dayLoop template endDate exceptions now₂ utcOffset innerFuel fuel
                  (currentDate + msPerDay) <;>
                rw [k1, k2] at hnext <;>
                simp only [Except.map, Except.ok.injEq, Except.error.injEq, reduceCtorEq]
                  at hnext
              · subst hnext
                rfl
              · simp only [Except.map, List.map_append, h, hnext]
        · simp only [havail]
          exact hnext
    · simp only [hle, if_false]

/-- More fuel does not change what the inner loop returns. -/
theorem slotLoop_fuel_le (doctorId : String) (d b rangeEnd now : Int) :
    ∀ (fuel fuel' : Nat) (start : Int) (l : List AppointmentSlot), fuel ≤ fuel' →
      slotLoop doctorId d b rangeEnd now fuel start = .ok l →
      slotLoop doctorId d b rangeEnd now fuel' start = .ok l := by
  intro fuel
  induction fuel with
  | zero =>
    intro fuel' start l _ h
    by_cases hlt : start < rangeEnd
    · simp [slotLoop, hlt] at h
    · simp only [slotLoop, hlt, if_false] at h
      cases fuel' <;> simp only [slotLoop, hlt, if_false, h]
  | succ fuel ih =>
    intro fuel' start l hle h
    obtain ⟨m, rfl⟩ : ∃ m, fuel' = m + 1 := ⟨fuel' - 1, by omega⟩
    rw [slotLoop] at h ⊢
    by_cases hlt : start < rangeEnd
    · simp only [hlt, if_true] at h ⊢
      cases hrest : slotLoop doctorId d b rangeEnd now fuel (start + (d + b) * msPerMinute) with
      | error e =>
        rw [hrest] at h
        exact Except.noConfusion h
      | ok rest =>
        rw [hrest] at h
        rw [ih m _ rest (by omega) hrest]
        exact h
    · simp only [hlt, if_false] at h ⊢
      exact h

/-- More fuel does not change what the loop over the ranges of a day returns. -/
theorem rangesLoop_fuel_le (template : ScheduleTemplate) (now : Int) (fuel fuel' : Nat)
    (currentDate : Int) (hle : fuel ≤ fuel') :
    ∀ (ranges : List TimeRange) (l : List AppointmentSlot),
      rangesLoop template now fuel currentDate ranges = .ok l →
      rangesLoop template now fuel' currentDate ranges = .ok l := by
  intro ranges
  induction ranges with
  | nil => intro l h; exact h
  | cons r rs ih =>
    intro l h
    rw [rangesLoop] at h ⊢
    cases hfirst : slotLoop template.doctorId template.defaultSlotDuration template.bufferTime
        (setHours currentDate r.endHour r.endMinute) now fuel
        (setHours currentDate r.startHour r.startMinute) with
    | error e =>
      rw [hfirst] at h
      exact Except.noConfusion h
    | ok first =>
      rw [hfirst] at h
      rw [slotLoop_fuel_le _ _ _ _ _ fuel fuel' _ first hle hfirst]
      cases hrest : rangesLoop template now fuel currentDate rs with
      | error e =>
        rw [hrest] at h
        exact Except.noConfusion h
      | ok rest =>
        rw [hrest] at h
        rw [ih rest hrest]
        exact h

/-- More fuel, for either loop, does not change what the outer loop returns. -/
theorem dayLoop_fuel_le (template : ScheduleTemplate) (endDate : Int)
    (exceptions : List ScheduleException) (now utcOffset : Int) (innerFuel innerFuel' : Nat)
    (hinner : innerFuel ≤ innerFuel') :
    ∀ (fuel fuel' : Nat) (currentDate : Int) (l : List AppointmentSlot), fuel ≤ fuel' →
      dayLoop template endDate exceptions now utcOffset innerFuel fuel currentDate = .ok l →
      dayLoop template endDate exceptions now utcOffset innerFuel' fuel' currentDate = .ok l := by
  intro fuel
  induction fuel with
  | zero =>
    intro fuel' currentDate l _ h
    by_cases hle : currentDate ≤ endDate
    · simp [dayLoop, hle] at h
    · simp only [dayLoop, hle, if_false] at h
      rw [dayLoop_done _ _ _ _ _ _ _ _ (by omega)]
      exact h
  | succ fuel ih =>
    intro fuel' currentDate l hfuel h
    obtain ⟨m, rfl⟩ : ∃ m, fuel' = m + 1 := ⟨fuel' - 1, by omega⟩
    rw [dayLoop] at h ⊢
    by_cases hle : currentDate ≤ endDate
    · simp only [hle, if_true] at h ⊢
      cases hday : template.weeklyHours[getDay currentDate]? with
      | none =>
        rw [hday] at h
        exact Except.noConfusion h
      | some day =>
        rw [hday] at h
        dsimp only at h ⊢
        by_cases havail : day.available = true
        · simp only [havail, if_true] at h ⊢
          by_cases hun : isUnavailable (findException exceptions currentDate) = true
          · simp only [hun, if_true] at h ⊢
            exact ih m _ l (by omega) h
          · simp only [hun, Bool.false_eq_true, if_false] at h ⊢
            cases htoday : rangesLoop template now innerFuel currentDate
                (daySlotsOf day utcOffset currentDate (findException exceptions currentDate)) with
            | error e =>
              rw [htoday] at h
              exact Except.noConfusion h
            | ok today =>
              rw [htoday] at h
              rw [rangesLoop_fuel_le template now innerFuel innerFuel' currentDate hinner _ today
                htoday]
              cases hrest : dayLoop template endDate exceptions now utcOffset innerFuel fuel
                  (currentDate + msPerDay) with
              | error e =>
                rw [hrest] at h
                exact Except.noConfusion h
              | ok rest =>
                rw [hrest] at h
                rw [ih m _ rest (by omega) hrest]
                exact h
        · simp only [havail] at h ⊢
          exact ih m _ l (by omega) h
    · simp only [hle, if_false] at h ⊢
      exact h

/-- The slots of the inner loop start inside the range, each later than the one before,
when `slotDuration + bufferTime > 0`. -/
theorem slotLoop_starts (doctorId : String) (d b rangeEnd now : Int) (hstep : 0 < d + b) :
    ∀ (fuel : Nat) (start : Int) (l : List AppointmentSlot),
      slotLoop doctorId d b rangeEnd now fuel start = .ok l →
      (∀ s ∈ l, start ≤ s.start ∧ s.start < rangeEnd) ∧
      l.Pairwise (fun x y => x.start < y.start) := by
  have hpos : 0 < (d + b) * msPerMinute := by unfold msPerMinute; omega
  intro fuel
  induction fuel with
  | zero =>
    intro start l h
    by_cases hlt : start < rangeEnd
    · simp [slotLoop, hlt] at h
    · simp only [slotLoop, hlt, if_false, Except.ok.injEq] at h
      subst h
      exact ⟨fun s hs => absurd hs (List.not_mem_nil s), List.Pairwise.nil⟩
  | succ fuel ih =>
    intro start l h
    rw [slotLoop] at h
    by_cases hlt : start < rangeEnd
    · simp only [hlt, if_true] at h
      cases hrest : slotLoop doctorId d b rangeEnd now fuel (start + (d + b) * msPerMinute) with
      | error e =>
        rw [hrest] at h
        exact Except.noConfusion h
      | ok rest =>
        rw [hrest] at h
        obtain ⟨hin, hpw⟩ := ih _ rest hrest
        have hin' : ∀ s ∈ rest, start < s.start ∧ s.start < rangeEnd := by
          intro s hs
          have := hin s hs
          omega
        by_cases hfit : start + d * msPerMinute ≤ rangeEnd
        · simp only [hfit, if_true, Except.ok.injEq] at h
          subst h
          refine ⟨?_, List.pairwise_cons.mpr ⟨fun s hs => (hin' s hs).1, hpw⟩⟩
          intro s hs
          rcases List.mem_cons.mp hs with heq | hmem
          · subst heq
            exact ⟨le_refl _, hlt⟩
          · exact ⟨le_of_lt (hin' s hmem).1, (hin' s hmem).2⟩
        · simp only [hfit, if_false, Except.ok.injEq] at h
          subst h
          exact ⟨fun s hs => ⟨le_of_lt (hin' s hs).1, (hin' s hs).2⟩, hpw⟩
    · simp only [hlt, if_false, Except.ok.injEq] at h
      subst h
      exact ⟨fun s hs => absurd hs (List.not_mem_nil s), List.Pairwise.nil⟩

/-- The slots of a day start inside their ranges, each later than the one before, when the
ranges are ordered and `slotDuration + bufferTime > 0`. -/
theorem rangesLoop_starts (template : ScheduleTemplate) (now : Int) (fuel : Nat)
    (currentDate : Int) (hstep : 0 < template.defaultSlotDuration + template.bufferTime) :
    ∀ (ranges : List TimeRange) (l : List AppointmentSlot), rangesOrdered ranges →
      rangesLoop template now fuel currentDate ranges = .ok l →
      (∀ s ∈ l, ∃ r ∈ ranges, setHours currentDate r.startHour r.startMinute ≤ s.start ∧
        s.start < setHours currentDate r.endHour r.endMinute) ∧
      l.Pairwise (fun x y => x.start < y.start) := by
  intro ranges
  induction ranges with
  | nil =>
    intro l _ h
    simp only [rangesLoop, Except.ok.injEq] at h
    subst h
    exact ⟨fun s hs => absurd hs (List.not_mem_nil s), List.Pairwise.nil⟩
  | cons r rs ih =>
    intro l hord h
    obtain ⟨hpair, hall⟩ := hord
    rw [List.pairwise_cons] at hpair
    obtain ⟨hhead, htail⟩ := hpair
    rw [rangesLoop] at h
    cases hfirst : slotLoop template.doctorId template.defaultSlotDuration template.bufferTime
        (setHours currentDate r.endHour r.endMinute) now fuel
        (setHours currentDate r.startHour r.startMinute) with
    | error e =>
      rw [hfirst] at h
      exact Except.noConfusion h
    | ok first =>
      rw [hfirst] at h
      cases hrest : rangesLoop template now fuel currentDate rs with
      | error e =>
        rw [hrest] at h
        exact Except.noConfusion h
      | ok rest =>
        rw [hrest] at h
        simp only [Except.ok.injEq] at h
        subst h
        obtain ⟨hfin, hfpw⟩ := slotLoop_starts _ _ _ _ _ hstep _ _ _ hfirst
        obtain ⟨hrin, hrpw⟩ := ih rest
          ⟨htail, fun r' hr' => hall r' (List.mem_cons_of_mem r hr')⟩ hrest
        refine ⟨?_, ?_⟩
        · intro s hs
          rcases List.mem_append.mp hs with hm | hm
          · exact ⟨r, List.mem_cons_self r rs, hfin s hm⟩
          · obtain ⟨r', hr', hb'⟩ := hrin s hm
            exact ⟨r', List.mem_cons_of_mem r hr', hb'⟩
        · rw [List.pairwise_append]
          refine ⟨hfpw, hrpw, ?_⟩
          intro x hx y hy
          obtain ⟨r', hr', hy1, _⟩ := hrin y hy
          have hx2 := (hfin x hx).2
          have hle := hhead r' hr'
          simp only [setHours, TimeRange.endMinutes, TimeRange.startMinutes, msPerMinute]
            at hle hx2 hy1
          omega

/-- The slots of the outer loop start each later than the one before, when the ranges of the
template and of the special days are ordered and `slotDuration + bufferTime > 0`. -/
theorem dayLoop_starts (template : ScheduleTemplate) (endDate : Int)
    (exceptions : List ScheduleException) (now utcOffset : Int) (innerFuel : Nat)
    (htemplate : ∀ day ∈ template.weeklyHours, rangesOrdered day.slots)
    (hexceptions : ∀ ex ∈ exceptions, ∀ sd ∈ ex.specialHours, rangesOrdered sd.slots)
    (hstep : 0 < template.defaultSlotDuration + template.bufferTime) :
    ∀ (fuel : Nat) (currentDate : Int) (l : List AppointmentSlot),
      dayLoop template endDate exceptions now utcOffset innerFuel fuel currentDate = .ok l →
      (∀ s ∈ l, currentDate - currentDate % msPerDay ≤ s.start) ∧
      l.Pairwise (fun x y => x.start < y.start) := by
  intro fuel
  induction fuel with
  | zero =>
    intro currentDate l h
    by_cases hle : currentDate ≤ endDate
    · simp [dayLoop, hle] at h
    · simp only [dayLoop, hle, if_false, Except.ok.injEq] at h
      subst h
      exact ⟨fun s hs => absurd hs (List.not_mem_nil s), List.Pairwise.nil⟩
  | succ fuel ih =>
    intro currentDate l h
    rw [dayLoop] at h
    by_cases hle : currentDate ≤ endDate
    · simp only [hle, if_true] at h
      have hskip : ∀ rest : List AppointmentSlot,
          dayLoop template endDate exceptions now utcOffset innerFuel fuel
            (currentDate + msPerDay) = .ok rest →
          (∀ s ∈ rest, currentDate - currentDate % msPerDay + msPerDay ≤ s.start) ∧
          rest.Pairwise (fun x y => x.start < y.start) := by
        intro rest hrest
        obtain ⟨hin, hpw⟩ := ih _ rest hrest
        refine ⟨fun s hs => ?_, hpw⟩
        have := hin s hs
        simp only [msPerDay] at this ⊢
        omega
      have hweaken : ∀ rest : List AppointmentSlot,
          (∀ s ∈ rest, currentDate - currentDate % msPerDay + msPerDay ≤ s.start) →
          ∀ s ∈ rest, currentDate - currentDate % msPerDay ≤ s.start := by
        intro rest hin s hs
        have := hin s hs
        simp only [msPerDay] at this ⊢
        omega
      cases hday : template.weeklyHours[getDay currentDate]? with
      | none =>
        rw [hday] at h
        exact Except.noConfusion h
      | some day =>
        rw [hday] at h
        dsimp only at h
        have hmem : day ∈ template.weeklyHours := List.getElem?_mem hday
        by_cases havail : day.available = true
        · simp only [havail, if_true] at h
          by_cases hun : isUnavailable (findException exceptions currentDate) = true
          · simp only [hun, if_true] at h
            exact ⟨hweaken l (hskip l h).1, (hskip l h).2⟩
          · simp only [hun, Bool.false_eq_true, if_false] at h
            cases htoday : rangesLoop template now innerFuel currentDate
                (daySlotsOf day utcOffset currentDate (findException exceptions currentDate)) with
            | error e =>
              rw [htoday] at h
              exact Except.noConfusion h
            | ok today =>
              rw [htoday] at h
              cases hrest : dayLoop template endDate exceptions now utcOffset innerFuel fuel
                  (currentDate + msPerDay) with
              | error e =>
                rw [hrest] at h
                exact Except.noConfusion h
              | ok rest =>
                rw [hrest] at h
                simp only [Except.ok.injEq] at h
                subst h
                have hord := daySlotsOf_ordered day utcOffset currentDate exceptions
                  (htemplate day hmem) hexceptions
                obtain ⟨htin, htpw⟩ := rangesLoop_starts template now innerFuel currentDate
                  hstep _ today hord htoday
                obtain ⟨hrin, hrpw⟩ := hskip rest hrest
                have hwin : ∀ s ∈ today, currentDate - currentDate % msPerDay ≤ s.start ∧
                    s.start < currentDate - currentDate % msPerDay + msPerDay := by
                  intro s hs
                  obtain ⟨r, hr, h1, h2⟩ := htin s hs
                  have hr2 := (hord.2 r hr).2
                  simp only [setHours, TimeRange.endMinutes, msPerMinute, msPerDay]
                    at h1 h2 hr2 ⊢
                  omega
                refine ⟨?_, ?_⟩
                · intro s hs
                  rcases List.mem_append.mp hs with hm | hm
                  · exact (hwin s hm).1
                  · exact hweaken rest hrin s hm
                · rw [List.pairwise_append]
                  refine ⟨htpw, hrpw, ?_⟩
                  intro x hx y hy
                  have := (hwin x hx).2
                  have := hrin y hy
                  omega
        · simp only [havail] at h
          exact ⟨hweaken l (hskip l h).1, (hskip l h).2⟩
    · simp only [hle, if_false, Except.ok.injEq] at h
      subst h
      exact ⟨fun s hs => absurd hs (List.not_mem_nil s), List.Pairwise.nil⟩

/-- C19, as stated, fails in its last part: for the template that lists the range
09:00-12:00 twice, the list generated for Monday 2024-03-04 holds every (start, end) pair
twice. -/
theorem repeated_pair_counterexample :
    generateAvailableSlots 5 0 0 doubledTemplate monday monday []
      = .ok (mondaySlots ++ mondaySlots) ∧
    ¬ ((mondaySlots ++ mondaySlots).map (fun s => (s.start, s.end_))).Nodup := by
  decide

/-- C19, amended: two runs of `generateAvailableSlots` with the same template, exceptions and
date range (and time zone) that return a list return the same slots in the same order up to
the `createdAt` stamp, whatever the clock readings and the fuel: the same (start, end),
doctorId, status and type for every slot. For a template and exceptions whose daily ranges
are ordered, non-overlapping ranges of times of day, with
`defaultSlotDuration + bufferTime > 0`, the returned list has strictly increasing starts and
so holds no (start, end) pair twice; with seven day entries and enough fuel a list is
returned. -/
theorem generateAvailableSlots_deterministic (template : ScheduleTemplate)
    (startDate endDate utcOffset : Int) (exceptions : List ScheduleException) :
    (∀ (fuel₁ fuel₂ : Nat) (now₁ now₂ : Int) (l₁ l₂ : List AppointmentSlot),
      generateAvailableSlots fuel₁ now₁ utcOffset template startDate endDate exceptions
        = .ok l₁ →
      generateAvailableSlots fuel₂ now₂ utcOffset template startDate endDate exceptions
        = .ok l₂ →
      l₁.map withoutCreatedAt = l₂.map withoutCreatedAt) ∧
    ((∀ day ∈ template.weeklyHours, rangesOrdered day.slots) →
      (∀ ex ∈ exceptions, ∀ sd ∈ ex.specialHours, rangesOrdered sd.slots) →
      0 < template.defaultSlotDuration + template.bufferTime →
      (∀ (fuel : Nat) (now : Int) (l : List AppointmentSlot),
        generateAvailableSlots fuel now utcOffset template startDate endDate exceptions
          = .ok l →
        (l.map (fun s => (s.start, s.end_))).Nodup) ∧
      (template.weeklyHours.length = 7 →
        ∀ (fuel : Nat) (now : Int), enoughFuel template exceptions startDate endDate ≤ fuel →
          ∃ l, generateAvailableSlots fuel now utcOffset template startDate endDate exceptions
            = .ok l)) := by
  constructor
  · intro fuel₁ fuel₂ now₁ now₂ l₁ l₂ h₁ h₂
    unfold generateAvailableSlots at h₁ h₂
    have k₁ := dayLoop_fuel_le template endDate exceptions now₁ utcOffset fuel₁
      (max fuel₁ fuel₂) (le_max_left _ _) fuel₁ (max fuel₁ fuel₂) startDate l₁
      (le_max_left _ _) h₁
    have k₂ := dayLoop_fuel_le template endDate exceptions now₂ utcOffset fuel₂
      (max fuel₁ fuel₂) (le_max_right _ _) fuel₂ (max fuel₁ fuel₂) startDate l₂
      (le_max_right _ _) h₂
    have hc := dayLoop_clock template endDate exceptions now₁ now₂ utcOffset (max fuel₁ fuel₂)
      (max fuel₁ fuel₂) startDate
    rw [k₁, k₂] at hc
    simpa [Except.map] using hc
  · intro htemplate hexceptions hstep
    constructor
    · intro fuel now l h
      unfold generateAvailableSlots at h
      obtain ⟨_, hpw⟩ := dayLoop_starts template endDate exceptions now utcOffset fuel
        htemplate hexceptions hstep fuel startDate l h
      unfold List.Nodup
      rw [List.pairwise_map]
      refine hpw.imp ?_
      intro x y hxy heq
      have := (Prod.mk.inj heq).1
      omega
    · intro hweek fuel now hfuel
      unfold enoughFuel at hfuel
      have h1 : totalSpan (allRanges template exceptions) + 1 ≤ fuel :=
        le_trans (le_max_left _ _) hfuel
      have h2 : (endDate - startDate).toNat + 1 ≤ fuel := le_trans (le_max_right _ _) hfuel
      have h3 : endDate - startDate < fuel * msPerDay := by
        have : (fuel : Int) ≤ fuel * msPerDay :=
          le_mul_of_one_le_right (Int.ofNat_nonneg fuel) (by unfold msPerDay; omega)
        omega
      exact (dayLoop_terminates template endDate exceptions now utcOffset fuel hstep h1 fuel
        startDate h3).2 hweek

/-- Witness of the amended C19: the sample template on Monday 2024-03-04, run with fuel 5 at
clock reading 0 and with fuel 9 at clock reading 77. -/
theorem generateAvailableSlots_deterministic_witness :
    generateAvailableSlots 5 0 0 sampleTemplate monday monday [] = .ok mondaySlots ∧
    (∃ l, generateAvailableSlots 9 77 0 sampleTemplate monday monday [] = .ok l ∧
      mondaySlots.map withoutCreatedAt = l.map withoutCreatedAt) ∧
    (mondaySlots.map (fun s => (s.start, s.end_))).Nodup :=
  ⟨by decide,
   ⟨mondaySlots.map (fun s => { s with createdAt := 77 }), by decide,
    (generateAvailableSlots_deterministic sampleTemplate monday monday 0 []).1 5 9 0 77
      mondaySlots (mondaySlots.map (fun s => { s with createdAt := 77 }))
      (by decide) (by decide)⟩,
   ((generateAvailableSlots_deterministic sampleTemplate monday monday 0 []).2
      (by decide) (by simp) (by decide)).1 5 0 mondaySlots (by decide)⟩

/-! ## Book: effects -/

/-- A successful `bookAppointment` found the slot, free or held by the booking patient, and
returns the generated id. -/
theorem bookAppointment_ok_inv (db db' : Ledger) (now : Int) (newId id : String)
    (data : AppointmentData) (hok : bookAppointment db now newId data = (.ok id, db')) :
    ∃ slot : AppointmentSlot,
      getDoc (data.doctorId, data.slotId) db.slots = some slot ∧
      (slot.status = "free" ∨ (slot.status = "held" ∧ slot.heldBy = some data.patientId)) ∧
      id = newId := by
  cases hslot : getDoc (data.doctorId, data.slotId) db.slots with
  | none =>
    unfold bookAppointment runTransaction bookAppointmentBody at hok
    simp [hslot] at hok
  | some slot =>
    refine ⟨slot, rfl, ?_⟩
    rw [bookAppointment_eq db now newId data slot hslot] at hok
    by_cases h : slot.status = "free" ∨
        (slot.status = "held" ∧ slot.heldBy = some data.patientId)
    · rw [if_pos h] at hok
      refine ⟨h, ?_⟩
      have := (Prod.mk.inj hok).1
      simp only [Except.ok.injEq] at this
      exact this.symm
    · rw [if_neg h] at hok
      simp at hok

/-- C26: a successful `bookAppointment` returns the generated id and creates under it one
appointment with the request's doctorId, patientId and slotId, the slot's start and end, and
status `confirmed` whatever status the request carried; when the id is new the appointment
is added to the collection, and every other appointment is unchanged; the slot becomes
`booked` with `appointmentId` the returned id and `heldBy`, `holdExpiresAt` cleared; every
other slot is unchanged, no slot is created or removed, and no event is written. -/
theorem bookAppointment_effects (db : Ledger) (now : Int) (newId : String)
    (data : AppointmentData) :
    ∀ (id : String) (db' : Ledger), bookAppointment db now newId data = (.ok id, db') →
      ∃ slot : AppointmentSlot,
        getDoc (data.doctorId, data.slotId) db.slots = some slot ∧ id = newId ∧
        getDoc id db'.appointments
          = some { doctorId := data.doctorId, patientId := data.patientId,
                   slotId := data.slotId, start := slot.start, end_ := slot.end_,
                   status := "confirmed", type := data.type, reason := data.reason,
                   notes := data.notes, history := data.history, cancellationReason := none,
                   rescheduledReason := none, createdAt := now, updatedAt := now } ∧
        (∀ other, other ≠ id → getDoc other db'.appointments = getDoc other db.appointments) ∧
        (getDoc newId db.appointments = none →
          db'.appointments = db.appointments ++ [(newId,
            { doctorId := data.doctorId, patientId := data.patientId,
              slotId := data.slotId, start := slot.start, end_ := slot.end_,
              status := "confirmed", type := data.type, reason := data.reason,
              notes := data.notes, history := data.history, cancellationReason := none,
              rescheduledReason := none, createdAt := now, updatedAt := now })]) ∧
        getDoc (data.doctorId, data.slotId) db'.slots
          = some { slot with status := "booked", appointmentId := some id, heldBy := none,
                             holdExpiresAt := none, updatedAt := some now } ∧
        (∀ key, key ≠ (data.doctorId, data.slotId) →
          getDoc key db'.slots = getDoc key db.slots) ∧
        db'.slots.map Prod.fst = db.slots.map Prod.fst ∧
        db'.events = db.events := by
  intro id db' hok
  obtain ⟨slot, hslot, hguard, hid⟩ := bookAppointment_ok_inv db db' now newId id data hok
  subst hid
  refine ⟨slot, hslot, rfl, ?_⟩
  rw [bookAppointment_eq db now id data slot hslot, if_pos hguard] at hok
  have hdb := (Prod.mk.inj hok).2
  subst hdb
  refine ⟨getDoc_setDoc_self _ _ _, ?_, ?_, ?_, ?_, map_fst_updateDoc _ _ _, rfl⟩
  · intro other hne
    exact getDoc_setDoc_ne _ _ _ _ hne
  · intro hnew
    show setDoc _ _ _ = _
    unfold setDoc
    rw [hnew]
  · show getDoc _ (updateDoc _ _ _) = _
    rw [getDoc_updateDoc_self, hslot]
    rfl
  · intro key hkey
    exact getDoc_updateDoc_ne _ _ _ _ hkey

/-- Witness of C26: `p1` books the free slot `s1` of the sample ledger; the request carries
status `requested`, the appointment is `confirmed`. -/
theorem bookAppointment_effects_witness :
    (sampleRequest "p1").status = "requested" ∧
    ∃ slot : AppointmentSlot,
      getDoc ("d1", "s1") sampleLedger.slots = some slot ∧
      getDoc "a1" ledgerAfterBooking.appointments
        = some { doctorId := "d1", patientId := "p1", slotId := "s1", start := slot.start,
                 end_ := slot.end_, status := "confirmed", type := "in-person",
                 reason := "checkup", notes := "", history := (sampleRequest "p1").history,
                 cancellationReason := none, rescheduledReason := none, createdAt := 0,
                 updatedAt := 0 } :=
  ⟨rfl, by
    obtain ⟨slot, h1, _, h3, _⟩ := bookAppointment_effects sampleLedger 0 "a1"
      (sampleRequest "p1") "a1" ledgerAfterBooking (by decide)
    exact ⟨slot, h1, h3⟩⟩

/-! ## Reschedule: which slot is freed -/

/-- C27, as stated, fails: appointment `a1` is stored on slot `s1`, and the caller passes
`oldSlotId = s2`, the slot booked by `p2`. The reschedule succeeds; afterwards the slot that
the appointment referenced, `s1`, is still `booked`, the slot of `p2` is `free`, and `s3` is
`booked`. -/
theorem reschedule_stray_old_slot_counterexample :
    (getDoc "a1" ledgerTwoBookings.appointments).map (fun a => a.slotId) = some "s1" ∧
    (getDoc ("d1", "s2") ledgerTwoBookings.slots).map (fun s => (s.status, s.appointmentId))
      = some ("booked", some "a2") ∧
    (rescheduleAppointment ledgerTwoBookings 5 strayReschedule).1 = .ok () ∧
    (getDoc ("d1", "s1") (rescheduleAppointment ledgerTwoBookings 5 strayReschedule).2.slots).map
        (fun s => (s.status, s.appointmentId)) = some ("booked", some "a1") ∧
    (getDoc ("d1", "s2") (rescheduleAppointment ledgerTwoBookings 5 strayReschedule).2.slots).map
        (fun s => (s.status, s.appointmentId)) = some ("free", none) ∧
    (getDoc ("d1", "s3") (rescheduleAppointment ledgerTwoBookings 5 strayReschedule).2.slots).map
        (fun s => (s.status, s.appointmentId)) = some ("booked", some "a1") := by
  decide

/-- C27, amended: after every successful `rescheduleAppointment` with
`oldSlotId ≠ newSlotId` the slot that is `free` is the one the caller names, `oldSlotId`
under the caller's `doctorId`, and no slot other than that one and the new slot has changed;
the slot stored in the appointment is freed only when the caller names it: when it is
neither the named old slot nor the new slot it is exactly as before the call. -/
theorem rescheduleAppointment_frees_named_slot (db db' : Ledger) (now : Int)
    (rd : RescheduleData) (hne : rd.oldSlotId ≠ rd.newSlotId)
    (hok : rescheduleAppointment db now rd = (.ok (), db')) :
    ∃ (appt : Appointment) (oldSlot : AppointmentSlot),
      getDoc rd.appointmentId db.appointments = some appt ∧
      getDoc (rd.doctorId, rd.oldSlotId) db.slots = some oldSlot ∧
      getDoc (rd.doctorId, rd.oldSlotId) db'.slots
        = some { oldSlot with status := "free", appointmentId := none,
                              updatedAt := some now } ∧
      (∀ key, key ≠ (rd.doctorId, rd.oldSlotId) → key ≠ (rd.doctorId, rd.newSlotId) →
        getDoc key db'.slots = getDoc key db.slots) ∧
      ((appt.doctorId, appt.slotId) ≠ (rd.doctorId, rd.oldSlotId) →
        (appt.doctorId, appt.slotId) ≠ (rd.doctorId, rd.newSlotId) →
        getDoc (appt.doctorId, appt.slotId) db'.slots
          = getDoc (appt.doctorId, appt.slotId) db.slots) := by
  have hkeys : (rd.doctorId, rd.oldSlotId) ≠ (rd.doctorId, rd.newSlotId) := by
    intro h
    exact hne (Prod.mk.inj h).2
  obtain ⟨appt, oldSlot, newSlot, happt, hold, hnew, hfree⟩ :=
    rescheduleAppointment_ok_inv db db' now rd hok
  rw [rescheduleAppointment_eq db now rd appt oldSlot newSlot happt hold hnew,
    if_neg (not_not.mpr hfree)] at hok
  have hdb := (Prod.mk.inj hok).2
  subst hdb
  have hframe : ∀ key, key ≠ (rd.doctorId, rd.oldSlotId) → key ≠ (rd.doctorId, rd.newSlotId) →
      getDoc key (updateDoc (rd.doctorId, rd.newSlotId) (fun s : AppointmentSlot =>
          { s with status := "booked", appointmentId := some rd.appointmentId,
                   updatedAt := some now })
        (updateDoc (rd.doctorId, rd.oldSlotId) (fun s : AppointmentSlot =>
          { s with status := "free", appointmentId := none, updatedAt := some now })
          db.slots)) = getDoc key db.slots := by
    intro key h1 h2
    rw [getDoc_updateDoc_ne _ _ _ _ h2, getDoc_updateDoc_ne _ _ _ _ h1]
  refine ⟨appt, oldSlot, happt, hold, ?_, hframe, fun h1 h2 => hframe _ h1 h2⟩
  show getDoc _ (updateDoc _ _ (updateDoc _ _ _)) = _
  rw [getDoc_updateDoc_ne _ _ _ _ hkeys, getDoc_updateDoc_self, hold]
  rfl

/-- Witness of the amended C27: the reschedule of `a1` that names `s2` as the old slot. -/
theorem rescheduleAppointment_frees_named_slot_witness :
    ∃ (appt : Appointment) (oldSlot : AppointmentSlot),
      getDoc "a1" ledgerTwoBookings.appointments = some appt ∧
      getDoc ("d1", "s2") ledgerTwoBookings.slots = some oldSlot ∧
      getDoc ("d1", "s2") (rescheduleAppointment ledgerTwoBookings 5 strayReschedule).2.slots
        = some { oldSlot with status := "free", appointmentId := none,
                              updatedAt := some 5 } := by
  obtain ⟨appt, oldSlot, h1, h2, h3, _⟩ := rescheduleAppointment_frees_named_slot
    ledgerTwoBookings (rescheduleAppointment ledgerTwoBookings 5 strayReschedule).2 5
    strayReschedule (by decide) (by decide)
  exact ⟨appt, oldSlot, h1, h2, h3⟩

/-! ## Appointment history -/

/-- A successful `cancelAppointment` found the appointment; the ledger afterwards has the
appointment rewritten and one event appended. -/
theorem cancelAppointment_ok_inv (db db' : Ledger) (now : Int)
    (appointmentId reason userId : String)
    (hok : cancelAppointment db now appointmentId reason userId = (.ok (), db')) :
    ∃ appt : Appointment,
      getDoc appointmentId db.appointments = some appt ∧
      db'.appointments = updateDoc appointmentId (fun a =>
        { a with status := "cancelled", cancellationReason := some reason, updatedAt := now })
        db.appointments ∧
      db'.events = db.events ++ [(appointmentId,
        { status := "cancelled", timestamp := now, userId := userId,
          note := orElse reason "Appointment cancelled", type := "status_change",
          oldSlotId := none, newSlotId := none, oldStart := none, newStart := none })] := by
  cases happt : getDoc appointmentId db.appointments with
  | none =>
    unfold cancelAppointment runTransaction cancelAppointmentBody at hok
    simp [happt] at hok
  | some appt =>
    refine ⟨appt, rfl, ?_⟩
    rw [cancelAppointment_eq db now appointmentId reason userId appt happt] at hok
    by_cases h : appt.slotId = ""
    · rw [if_neg (not_not.mpr h)] at hok
      have hdb := (Prod.mk.inj hok).2
      subst hdb
      exact ⟨rfl, rfl⟩
    · rw [if_pos h] at hok
      cases hs : getDoc (appt.doctorId, appt.slotId) db.slots with
      | none => rw [hs] at hok; simp at hok
      | some slot =>
        rw [hs] at hok
        have hdb := (Prod.mk.inj hok).2
        subst hdb
        exact ⟨rfl, rfl⟩

/-- The last event of an appointment after one more event has been written for it. -/
theorem eventsOf_append (db : Ledger) (events : List (String × AppointmentEvent))
    (appointmentId : String) (ev : AppointmentEvent)
    (h : db.events = events ++ [(appointmentId, ev)]) :
    (eventsOf db appointmentId).getLast? = some ev := by
  simp [eventsOf, h, List.filter_append]

/-- C22, as stated, fails: right after `p1` booked slot `s1` through the booking form, the
appointment's status is `confirmed` while the only entry of its `history` array is
`requested`, and its `events` sub-collection, the history that the cancel and reschedule
paths write to, is empty. -/
theorem history_after_booking_counterexample :
    (bookAppointment sampleLedger 10 "a1"
      (handleBookAppointment 10 "d1" "p1" "s1" "in-person" "checkup" "")).1 = .ok "a1" ∧
    (getDoc "a1" ledgerAfterFormBooking.appointments).map
        (fun a => (a.status, a.history.map (fun h => h.status)))
      = some ("confirmed", ["requested"]) ∧
    eventsOf ledgerAfterFormBooking "a1" = [] := by
  decide

/-- C22, amended: a successful booking made through the booking form stores the appointment
with status `confirmed` and a `history` array whose single entry is `requested`, and writes
no event; every later successful `cancelAppointment` or `rescheduleAppointment` leaves the
`history` array as it is and appends one event to the appointment's `events`, after which
the events are non-empty and the status of the last one equals the appointment's status. -/
theorem appointment_history (db : Ledger) (now : Int) :
    (∀ (formTime : Int) (doctorId userId slotId type reason notes newId id : String)
        (db' : Ledger),
      bookAppointment db now newId
          (handleBookAppointment formTime doctorId userId slotId type reason notes)
        = (.ok id, db') →
      ∃ appt : Appointment, getDoc id db'.appointments = some appt ∧
        appt.status = "confirmed" ∧
        appt.history = [{ status := "requested", timestamp := formTime,
                          note := "Appointment requested by patient" }] ∧
        eventsOf db' id = eventsOf db id) ∧
    (∀ (appointmentId reason userId : String) (db' : Ledger),
      cancelAppointment db now appointmentId reason userId = (.ok (), db') →
      ∃ (before after : Appointment) (ev : AppointmentEvent),
        getDoc appointmentId db.appointments = some before ∧
        getDoc appointmentId db'.appointments = some after ∧
        after.status = "cancelled" ∧ after.history = before.history ∧
        (eventsOf db' appointmentId).getLast? = some ev ∧ ev.status = after.status) ∧
    (∀ (rd : RescheduleData) (db' : Ledger),
      rescheduleAppointment db now rd = (.ok (), db') →
      ∃ (before after : Appointment) (ev : AppointmentEvent),
        getDoc rd.appointmentId db.appointments = some before ∧
        getDoc rd.appointmentId db'.appointments = some after ∧
        after.status = "rescheduled" ∧ after.history = before.history ∧
        (eventsOf db' rd.appointmentId).getLast? = some ev ∧ ev.status = after.status) := by
  refine ⟨?_, ?_, ?_⟩
  · intro formTime doctorId userId slotId type reason notes newId id db' hok
    obtain ⟨slot, hslot, hguard, hid⟩ := bookAppointment_ok_inv db db' now newId id _ hok
    subst hid
    rw [bookAppointment_eq db now id _ slot hslot, if_pos hguard] at hok
    have hdb := (Prod.mk.inj hok).2
    subst hdb
    exact ⟨_, getDoc_setDoc_self _ _ _, rfl, rfl, rfl⟩
  · intro appointmentId reason userId db' hok
    obtain ⟨appt, happt, happs, hevents⟩ :=
      cancelAppointment_ok_inv db db' now appointmentId reason userId hok
    have hget : getDoc appointmentId db'.appointments = some
        { appt with status := "cancelled", cancellationReason := some reason,
                    updatedAt := now } := by
      rw [happs, getDoc_updateDoc_self, happt]
      rfl
    exact ⟨appt, _, _, happt, hget, rfl, rfl,
      eventsOf_append db' db.events appointmentId _ hevents, rfl⟩
  · intro rd db' hok
    obtain ⟨appt, oldSlot, newSlot, happt, hold, hnew, hfree⟩ :=
      rescheduleAppointment_ok_inv db db' now rd hok
    rw [rescheduleAppointment_eq db now rd appt oldSlot newSlot happt hold hnew,
      if_neg (not_not.mpr hfree)] at hok
    have hdb := (Prod.mk.inj hok).2
    subst hdb
    have hget : ∀ (f : Appointment → Appointment),
        getDoc rd.appointmentId (updateDoc rd.appointmentId f db.appointments)
          = some (f appt) := by
      intro f
      rw [getDoc_updateDoc_self, happt]
      rfl
    exact ⟨appt, _, _, happt, hget _, rfl, rfl,
      eventsOf_append _ db.events rd.appointmentId _ rfl, rfl⟩

/-- Witness of the amended C22: the booking of `p1` through the form, and its cancellation. -/
theorem appointment_history_witness :
    (∃ appt : Appointment, getDoc "a1" ledgerAfterFormBooking.appointments = some appt ∧
      appt.status = "confirmed" ∧
      appt.history = [{ status := "requested", timestamp := 10,
                        note := "Appointment requested by patient" }] ∧
      eventsOf ledgerAfterFormBooking "a1" = eventsOf sampleLedger "a1") ∧
    (eventsOf (cancelAppointment ledgerAfterFormBooking 20 "a1" "ill" "p1").2 "a1").map
        (fun ev => ev.status) = ["cancelled"] :=
  ⟨(appointment_history sampleLedger 10).1 10 "d1" "p1" "s1" "in-person" "checkup" "" "a1" "a1"
      ledgerAfterFormBooking (by decide),
   by decide⟩

/-! ## Late-cancellation flag and overlap check -/

/-- `isSlotAvailable` is the half-open overlap test whenever the interval asked about and the
existing appointments are non-empty intervals. -/
theorem isSlotAvailable_iff (existing : List (Int × Int)) (start end_ : Int)
    (hlt : start < end_) (hex : ∀ a ∈ existing, a.1 < a.2) :
    isSlotAvailable existing start end_ = true ↔
      ∀ a ∈ existing, ¬ halfOpenOverlap start end_ a := by
  unfold isSlotAvailable halfOpenOverlap
  simp only [Bool.not_eq_true', List.any_eq_false, Bool.or_eq_true, Bool.and_eq_true,
    decide_eq_true_eq]
  constructor
  · intro h a ha hov
    have := hex a ha
    apply h a ha
    omega
  · intro h a ha hov
    have := hex a ha
    apply h a ha
    omega

/-- C25: the late-cancellation flag of the cancel form is true exactly when
`start - now` is at most 24 hours, that is 86,400,000 ms; it is true at exactly 24 hours
and false for every start more than 24 hours ahead. -/
theorem isWithin24Hours_spec (start now : Int) :
    (isWithin24Hours start now = true ↔ start - now ≤ 86400000) ∧
    isWithin24Hours (now + 86400000) now = true ∧
    (now + 86400000 < start → isWithin24Hours start now = false) := by
  have key : ∀ s n : Int, isWithin24Hours s n = true ↔ s - n ≤ 86400000 := by
    intro s n
    unfold isWithin24Hours
    simp only [decide_eq_true_eq]
    rw [div_le_iff₀ (by norm_num)]
    have : (24 : ℚ) * (1000 * 60 * 60) = ((86400000 : Int) : ℚ) := by norm_num
    rw [this, Int.cast_le]
  refine ⟨key start now, (key _ _).mpr (by omega), ?_⟩
  intro h
  rw [← Bool.not_eq_true, key]
  omega

/-- Witness of C25: a start exactly 24 hours ahead is flagged, one millisecond later is not,
and a start in the past is flagged as well. -/
theorem isWithin24Hours_spec_witness :
    isWithin24Hours (monday + 86400000) monday = true ∧
    ((monday + 86400000 < monday + 86400001) ∧
      isWithin24Hours (monday + 86400001) monday = false) ∧
    isWithin24Hours (monday - 1) monday = true :=
  ⟨(isWithin24Hours_spec (monday + 86400000) monday).2.1,
   ⟨by decide, (isWithin24Hours_spec (monday + 86400001) monday).2.2 (by decide)⟩,
   ((isWithin24Hours_spec (monday - 1) monday).1).mpr (by decide)⟩

/-- C28: for a non-empty interval and non-empty existing appointments `isSlotAvailable` is
true exactly when no appointment overlaps the interval as half-open intervals; an interval
that only touches an appointment is available, and with no appointments the answer is
true. -/
theorem isSlotAvailable_half_open (existing : List (Int × Int)) (start end_ : Int) :
    (start < end_ → (∀ a ∈ existing, a.1 < a.2) →
      (isSlotAvailable existing start end_ = true ↔
        ∀ a ∈ existing, ¬ halfOpenOverlap start end_ a)) ∧
    (∀ a : Int × Int, a.1 < a.2 → start < a.1 → isSlotAvailable [a] start a.1 = true) ∧
    (∀ a : Int × Int, a.1 < a.2 → a.2 < end_ → isSlotAvailable [a] a.2 end_ = true) ∧
    isSlotAvailable [] start end_ = true := by
  refine ⟨isSlotAvailable_iff existing start end_, ?_, ?_, rfl⟩
  · intro a ha hs
    rw [isSlotAvailable_iff [a] start a.1 hs (by simpa using ha)]
    simp [halfOpenOverlap]
  · intro a ha he
    rw [isSlotAvailable_iff [a] a.2 end_ he (by simpa using ha)]
    simp [halfOpenOverlap]

/-- Witness of C28: against the appointments 09:00-09:30 and 10:00-10:30 (in minutes) the
interval 09:30-10:00 touches both and is available, the interval 09:15-09:45 is not. -/
theorem isSlotAvailable_half_open_witness :
    isSlotAvailable [(540, 570), (600, 630)] 570 600 = true ∧
    isSlotAvailable [(540, 570), (600, 630)] 555 585 = false ∧
    (isSlotAvailable [(540, 570), (600, 630)] 570 600 = true ↔
      ∀ a ∈ [((540 : Int), (570 : Int)), (600, 630)], ¬ halfOpenOverlap 570 600 a) :=
  ⟨by decide, by decide,
   (isSlotAvailable_half_open [(540, 570), (600, 630)] 570 600).1 (by decide) (by decide)⟩

/-! ## Slot generator: number of slots -/

/-- The inner loop on a time range of a day, given fuel beyond the length of the range,
returns `floor((L + b) / (d + b))` slots, `L` being the length of the range in minutes. -/
theorem slotLoop_length (doctorId : String) (d b now : Int) (hd : 0 < d) (hb : 0 ≤ b)
    (date : Int) (r : TimeRange) (fuel : Nat) (hfuel : r.span + 1 ≤ fuel) :
    ∃ g, slotLoop doctorId d b (setHours date r.endHour r.endMinute) now fuel
        (setHours date r.startHour r.startMinute) = .ok g ∧
      g.length = slotsPerRange d b r := by
  have e : setHours date r.endHour r.endMinute - setHours date r.startHour r.startMinute
      = (r.endMinutes - r.startMinutes) * msPerMinute := by
    simp only [setHours, TimeRange.endMinutes, TimeRange.startMinutes]
    ring
  have hspan : setHours date r.endHour r.endMinute - setHours date r.startHour r.startMinute
      ≤ fuel * ((d + b) * msPerMinute) := by
    apply fuel_covers _ _ _ _ hd hb
    rw [e]
    exact hfuel
  obtain ⟨n, hchar, heq⟩ := slotLoop_spec doctorId d b (setHours date r.endHour r.endMinute)
    now hd hb fuel (setHours date r.startHour r.startMinute) hspan
  refine ⟨_, heq, ?_⟩
  rw [List.length_map, List.length_range]
  have hpos : 0 < d + b := by omega
  have hiff : ∀ k : Nat, k < n ↔ k < slotsPerRange d b r := by
    intro k
    rw [hchar k]
    unfold slotsPerRange
    rw [Int.lt_toNat, ← Int.add_one_le_iff, Int.le_ediv_iff_mul_le hpos]
    generalize hL : r.endMinutes - r.startMinutes = L at e
    have e' : setHours date r.endHour r.endMinute
        = setHours date r.startHour r.startMinute + L * msPerMinute := by omega
    rw [e']
    have e'' : setHours date r.startHour r.startMinute + (k : Int) * ((d + b) * msPerMinute)
          + d * msPerMinute
        = setHours date r.startHour r.startMinute
          + ((k : Int) * (d + b) + d) * msPerMinute := by ring
    have e3 : ((k : Int) + 1) * (d + b) = (k : Int) * (d + b) + d + b := by ring
    rw [e'', e3]
    generalize (k : Int) * (d + b) = x
    unfold msPerMinute
    omega
  apply Nat.le_antisymm
  · by_contra h
    exact absurd ((hiff _).mp (Nat.lt_of_not_le h)) (Nat.lt_irrefl _)
  · by_contra h
    exact absurd ((hiff _).mpr (Nat.lt_of_not_le h)) (Nat.lt_irrefl _)

/-- The loop over the ranges of a day, given fuel beyond the length of each range, returns
as many slots as the ranges have together. -/
theorem rangesLoop_length (template : ScheduleTemplate) (now : Int) (fuel : Nat)
    (currentDate : Int) (hd : 0 < template.defaultSlotDuration) (hb : 0 ≤ template.bufferTime) :
    ∀ ranges : List TimeRange, (∀ r ∈ ranges, r.span + 1 ≤ fuel) →
      ∃ l, rangesLoop template now fuel currentDate ranges = .ok l ∧
        l.length = (ranges.map
          (slotsPerRange template.defaultSlotDuration template.bufferTime)).sum := by
  intro ranges
  induction ranges with
  | nil => intro _; exact ⟨[], rfl, rfl⟩
  | cons r rs ih =>
    intro hfuel
    obtain ⟨rest, hrest, hlen⟩ := ih (fun r' hr' => hfuel r' (List.mem_cons_of_mem r hr'))
    obtain ⟨g, hg, hglen⟩ := slotLoop_length template.doctorId template.defaultSlotDuration
      template.bufferTime now hd hb currentDate r fuel (hfuel r (List.mem_cons_self r rs))
    refine ⟨g ++ rest, ?_, ?_⟩
    · rw [rangesLoop]
      simp only [hg, hrest]
    · rw [List.length_append, hglen, hlen, List.map_cons, List.sum_cons]

/-- C29: on a date range that holds a single day, available in the template and covered by
no exception, with slot duration `d > 0` and buffer `b ≥ 0`, `generateAvailableSlots` (given
enough fuel) returns `floor((L + b) / (d + b))` slots for each time range of the day, `L ≥ 0`
being the length of the range in minutes: the result has as many slots as the ranges of the
day have together, and when the day has a single range the result has
`floor((L + b) / (d + b))` slots, none when `L < d` and one when `L = d`. -/
theorem generateAvailableSlots_count (template : ScheduleTemplate)
    (startDate endDate now utcOffset : Int) (exceptions : List ScheduleException)
    (day : DaySchedule)
    (hday : template.weeklyHours[getDay startDate]? = some day)
    (havail : day.available = true)
    (hexc : findException exceptions startDate = none)
    (hstart : startDate ≤ endDate) (hend : endDate < startDate + msPerDay)
    (hd : 0 < template.defaultSlotDuration) (hb : 0 ≤ template.bufferTime) :
    ∃ fuel₀ : Nat, ∀ fuel : Nat, fuel₀ ≤ fuel →
      ∃ l, generateAvailableSlots fuel now utcOffset template startDate endDate exceptions
          = .ok l ∧
        l.length = (day.slots.map
          (slotsPerRange template.defaultSlotDuration template.bufferTime)).sum ∧
        ∀ r : TimeRange, day.slots = [r] →
          (r.startMinutes ≤ r.endMinutes →
            (l.length : Int) = (r.endMinutes - r.startMinutes + template.bufferTime)
              / (template.defaultSlotDuration + template.bufferTime)) ∧
          (r.endMinutes - r.startMinutes < template.defaultSlotDuration → l = []) ∧
          (r.endMinutes - r.startMinutes = template.defaultSlotDuration → l.length = 1) := by
  refine ⟨totalSpan day.slots + 1, ?_⟩
  intro fuel hfuel
  obtain ⟨l, hl, hlen⟩ := rangesLoop_length template now fuel startDate hd hb day.slots
    (fun r hr => by have := span_le_totalSpan r day.slots hr; omega)
  obtain ⟨m, rfl⟩ : ∃ m, fuel = m + 1 := ⟨fuel - 1, by omega⟩
  refine ⟨l, ?_, hlen, ?_⟩
  · unfold generateAvailableSlots
    rw [dayLoop_single_day template startDate endDate exceptions now utcOffset (m + 1) m
      hstart hend, hday]
    simp only [havail, if_true, hexc, isUnavailable, daySlotsOf]
    exact hl
  · intro r hr
    rw [hr] at hlen
    simp only [List.map_cons, List.map_nil, List.sum_cons, List.sum_nil, add_zero,
      slotsPerRange] at hlen
    have hpos : 0 < template.defaultSlotDuration + template.bufferTime := by omega
    generalize hL : r.endMinutes - r.startMinutes = L at hlen
    refine ⟨?_, ?_, ?_⟩
    · intro hle
      have h : 0 ≤ L + template.bufferTime := by omega
      rw [hlen, Int.toNat_of_nonneg (Int.ediv_nonneg h (le_of_lt hpos))]
    · intro hlt
      have : (L + template.bufferTime) / (template.defaultSlotDuration + template.bufferTime)
          ≤ 0 := by
        have := Int.ediv_lt_of_lt_mul hpos (show L + template.bufferTime
          < 1 * (template.defaultSlotDuration + template.bufferTime) by omega)
        omega
      apply List.eq_nil_of_length_eq_zero
      omega
    · intro heq
      rw [hlen, heq, Int.ediv_self (ne_of_gt hpos)]
      rfl

/-- Witness of C29: Monday 2024-03-04 of the sample template (09:00-12:00, 30-minute slots,
10-minute buffer) has `floor(190 / 40) = 4` slots; a Monday with the ranges 08:00-08:20,
09:00-09:30 and 10:00-13:00 has `0 + 1 + 4 = 5`. -/
theorem generateAvailableSlots_count_witness :
    (∃ fuel₀ : Nat, ∀ fuel : Nat, fuel₀ ≤ fuel →
      ∃ l, generateAvailableSlots fuel 0 0 sampleTemplate monday monday [] = .ok l ∧
        l.length = ((dayWith 1 morningHours).slots.map (slotsPerRange 30 10)).sum ∧
        ∀ r : TimeRange, (dayWith 1 morningHours).slots = [r] →
          (r.startMinutes ≤ r.endMinutes →
            (l.length : Int) = (r.endMinutes - r.startMinutes + 10) / (30 + 10)) ∧
          (r.endMinutes - r.startMinutes < 30 → l = []) ∧
          (r.endMinutes - r.startMinutes = 30 → l.length = 1)) ∧
    (generateAvailableSlots 5 0 0 sampleTemplate monday monday []).map List.length = .ok 4 ∧
    (generateAvailableSlots 5 0 0 threeRangeTemplate monday monday []).map List.length
      = .ok 5 ∧
    threeRangeTemplate.weeklyHours[1]?.map
      (fun day => day.slots.map (slotsPerRange 30 10)) = some [0, 1, 4] :=
  ⟨generateAvailableSlots_count sampleTemplate monday monday 0 0 [] (dayWith 1 morningHours)
      (by decide) rfl rfl (by decide) (by decide) (by decide) (by decide),
   by decide, by decide, by decide⟩

/-! ## Booking lifecycle -/

/-- C23: for every free slot `S`, users `A` and `B` (distinct or not) and time zone of the
host, a hold of `S` by `A` succeeds; a hold by `B` after it returns `false` and changes
nothing; the booking of `S` by `A` then succeeds and returns the id of the new appointment;
a hold by `B` after the booking again returns `false` and changes nothing; the cancellation
of that appointment succeeds, after which `S` is `free` again, with its `start` as before,
and is among the results of `getAvailableSlots` for every range that contains `S.start`. -/
theorem booking_lifecycle (db : Ledger) (zone : TimeZone) (doctorId slotId A B : String)
    (slot : AppointmentSlot)
    (t₁ t₂ t₃ t₄ t₅ ttlA ttlB : Int) (newId reason userId : String) (data : AppointmentData)
    (startDate endDate : Int)
    (hslot : getDoc (doctorId, slotId) db.slots = some slot)
    (hfree : slot.status = "free") (hid : slotId ≠ "")
    (hdoctor : data.doctorId = doctorId) (hslotId : data.slotId = slotId)
    (hpatient : data.patientId = A)
    (hrange : startDate ≤ slot.start ∧ slot.start ≤ endDate) :
    ∃ db₁ db₂ db₃ : Ledger,
      holdAppointmentSlot db zone t₁ doctorId slotId A ttlA = (.ok true, db₁) ∧
      holdAppointmentSlot db₁ zone t₂ doctorId slotId B ttlB = (.ok false, db₁) ∧
      bookAppointment db₁ t₃ newId data = (.ok newId, db₂) ∧
      holdAppointmentSlot db₂ zone t₄ doctorId slotId B ttlB = (.ok false, db₂) ∧
      cancelAppointment db₂ t₅ newId reason userId = (.ok (), db₃) ∧
      ∃ slot' : AppointmentSlot,
        getDoc (doctorId, slotId) db₃.slots = some slot' ∧
        slot'.status = "free" ∧ slot'.start = slot.start ∧ slot'.end_ = slot.end_ ∧
        (slotId, slot') ∈ getAvailableSlots db₃ doctorId startDate endDate := by
  subst hdoctor hslotId hpatient
  have h1 := holdAppointmentSlot_eq db zone t₁ data.doctorId data.slotId data.patientId ttlA slot
    hslot
  rw [if_neg (not_not.mpr hfree)] at h1
  have hs1 := getDoc_updateDoc_self (data.doctorId, data.slotId) (fun s : AppointmentSlot =>
    { s with status := "held", heldBy := some data.patientId,
             holdExpiresAt := some (setMinutes zone t₁ (getMinutes zone t₁ + ttlA)),
             updatedAt := some t₁ }) db.slots
  rw [hslot, Option.map_some'] at hs1
  obtain ⟨db₁, h1, hs1⟩ : ∃ db₁ : Ledger,
      holdAppointmentSlot db zone t₁ data.doctorId data.slotId data.patientId ttlA
        = (.ok true, db₁) ∧
      getDoc (data.doctorId, data.slotId) db₁.slots = some
        { slot with status := "held", heldBy := some data.patientId,
                    holdExpiresAt := some (setMinutes zone t₁ (getMinutes zone t₁ + ttlA)),
                    updatedAt := some t₁ } := ⟨_, h1, hs1⟩
  have h2 : holdAppointmentSlot db₁ zone t₂ data.doctorId data.slotId B ttlB = (.ok false, db₁) := by
    rw [holdAppointmentSlot_eq db₁ zone t₂ data.doctorId data.slotId B ttlB _ hs1]
    exact if_pos (show ("held" : String) ≠ "free" by decide)
  have h3 := bookAppointment_eq db₁ t₃ newId data _ hs1
  rw [if_pos (Or.inr ⟨rfl, rfl⟩)] at h3
  have hs2 := getDoc_updateDoc_self (data.doctorId, data.slotId) (fun s : AppointmentSlot =>
    { s with status := "booked", appointmentId := some newId, heldBy := none,
             holdExpiresAt := none, updatedAt := some t₃ }) db₁.slots
  rw [hs1, Option.map_some'] at hs2
  obtain ⟨db₂, h3, hs2, appt, happt, hadoctor, haslot⟩ : ∃ db₂ : Ledger,
      bookAppointment db₁ t₃ newId data = (.ok newId, db₂) ∧
      getDoc (data.doctorId, data.slotId) db₂.slots = some
        { slot with status := "booked", appointmentId := some newId, heldBy := none,
                    holdExpiresAt := none, updatedAt := some t₃ } ∧
      ∃ appt : Appointment, getDoc newId db₂.appointments = some appt ∧
        appt.doctorId = data.doctorId ∧ appt.slotId = data.slotId :=
    ⟨_, h3, hs2, _, getDoc_setDoc_self newId _ _, rfl, rfl⟩
  have h4 : holdAppointmentSlot db₂ zone t₄ data.doctorId data.slotId B ttlB = (.ok false, db₂) := by
    rw [holdAppointmentSlot_eq db₂ zone t₄ data.doctorId data.slotId B ttlB _ hs2]
    exact if_pos (show ("booked" : String) ≠ "free" by decide)
  have h5 := cancelAppointment_eq db₂ t₅ newId reason userId appt happt
  rw [hadoctor, haslot, if_pos hid] at h5
  simp only [hs2] at h5
  have hs3 := getDoc_updateDoc_self (data.doctorId, data.slotId) (fun s : AppointmentSlot =>
    { s with status := "free", appointmentId := none, updatedAt := some t₅ }) db₂.slots
  rw [hs2, Option.map_some'] at hs3
  refine ⟨db₁, db₂, _, h1, h2, h3, h4, h5, _, hs3, rfl, rfl, rfl, ?_⟩
  rw [mem_getAvailableSlots]
  exact ⟨mem_of_getDoc _ _ _ hs3, hrange.1, hrange.2, rfl⟩

/-- Witness of C23: the 09:00 slot of Monday 2024-03-04 among the sixteen slots generated
from the Monday-to-Friday 09:00-17:00 template with 30-minute slots and no buffer; `p1`
holds and books it, the holds of `p2` fail, and after the cancellation the slot is listed
for that Monday again. -/
theorem booking_lifecycle_witness :
    fullMondaySlots.length = 16 ∧
    (getDoc ("d1", "m01") fullMondayLedger.slots).map (fun s => (s.start, s.end_, s.status))
      = some (mondayAt 540, mondayAt 570, "free") ∧
    ∃ db₁ db₂ db₃ : Ledger,
      holdAppointmentSlot fullMondayLedger utcZone 1 "d1" "m01" "p1" 5 = (.ok true, db₁) ∧
      holdAppointmentSlot db₁ utcZone 2 "d1" "m01" "p2" 5 = (.ok false, db₁) ∧
      bookAppointment db₁ 3 "a1" mondayRequest = (.ok "a1", db₂) ∧
      holdAppointmentSlot db₂ utcZone 4 "d1" "m01" "p2" 5 = (.ok false, db₂) ∧
      cancelAppointment db₂ 5 "a1" "ill" "p1" = (.ok (), db₃) ∧
      ∃ slot' : AppointmentSlot,
        getDoc ("d1", "m01") db₃.slots = some slot' ∧
        slot'.status = "free" ∧ slot'.start = mondayAt 540 ∧ slot'.end_ = mondayAt 570 ∧
        ("m01", slot') ∈ getAvailableSlots db₃ "d1" monday (monday + msPerDay) :=
  ⟨by decide, by decide,
   booking_lifecycle fullMondayLedger utcZone "d1" "m01" "p1" "p2"
     { freeSlot "d1" 0 (mondayAt 540) (mondayAt 570) with updatedAt := some 0 }
     1 2 3 4 5 5 5 "a1" "ill" "p1" mondayRequest monday (monday + msPerDay)
     (by decide) (by decide) (by decide) rfl rfl rfl (by decide)⟩

/-! ## Slot record invariant -/

/-- C21 fails on the code: from the ledger of the freshly generated slots of Monday
2024-03-04 (all free, well formed, no appointments), the four admissible calls of
`staleCancelCalls` reach a ledger whose slot `m01` has status `free` while `heldBy` is `p2`
and `holdExpiresAt` is set. The invariant holds after the first three calls; the second
cancel of the already cancelled `a1` sets the slot that `p2` holds to `free` and, unlike
`bookAppointment` and the update prepared by `cleanupExpiredHolds`, leaves `heldBy` and
`holdExpiresAt` as they are. -/
theorem slot_invariant_violated :
    fullMondayLedger.initial = true ∧ fullMondayLedger.slotsWellFormed = true ∧
    (runCalls fullMondayLedger (staleCancelCalls.take 3)).map Ledger.slotsWellFormed
      = some true ∧
    ∃ db, runCalls fullMondayLedger staleCancelCalls = some db ∧
      db.slotsWellFormed = false ∧
      (getDoc ("d1", "m01") db.slots).map
          (fun s => (s.status, s.heldBy, s.holdExpiresAt, s.appointmentId))
        = some ("free", some "p2", some 300003, none) := by
  refine ⟨by decide, by decide, by decide, _, rfl, ?_, ?_⟩ <;> decide

/-! ## Slot generator: days of the date range -/

/-- C24 fails on the code: with the Monday-to-Friday 09:00-17:00 template (30-minute slots,
no buffer, no exceptions) and the date range from Monday 2024-03-04 15:00 to Tuesday
2024-03-05 09:00, the generator returns the sixteen slots of Monday (09:00 to 16:30) and no
slot of Tuesday, a day of the range that is available in the template: the loop compares
the instants, and Tuesday 15:00 is already past the end of the range. From Monday 00:00 to
Tuesday 00:00 it returns the slots of both days; for a Saturday or a Sunday it returns
none. -/
theorem last_day_dropped :
    generateAvailableSlots 20 0 0 fullDayTemplate (mondayAt 900) (mondayAt 1980) []
      = .ok fullMondaySlots ∧
    fullMondaySlots.map (fun s => (s.start, s.end_))
      = (List.range 16).map (fun (k : Nat) =>
          (mondayAt (540 + 30 * (k : Int)), mondayAt (570 + 30 * (k : Int)))) ∧
    getDay (mondayAt 1980) = 2 ∧
    (fullDayTemplate.weeklyHours[getDay (mondayAt 1980)]?).map (fun day => day.available)
      = some true ∧
    (generateAvailableSlots 20 0 0 fullDayTemplate monday (mondayAt 1440) []).map
        (fun l => l.map (fun s => decide (s.start < mondayAt 1440)))
      = .ok (List.replicate 16 true ++ List.replicate 16 false) ∧
    generateAvailableSlots 20 0 0 fullDayTemplate (monday + 5 * msPerDay)
      (monday + 5 * msPerDay) [] = .ok [] ∧
    generateAvailableSlots 20 0 0 fullDayTemplate sunday sunday [] = .ok [] := by
  refine ⟨?_, ?_, ?_, ?_, ?_, ?_, ?_⟩ <;> decide

/-! ## Slot generator and overlap check -/

/-- In a list whose elements are pairwise related, every element other than the one at index
`i` is related to it, on one side or the other. -/
theorem pairwise_eraseIdx {α : Type} (R : α → α → Prop) :
    ∀ (l : List α), l.Pairwise R → ∀ (i : Nat) (hi : i < l.length),
      ∀ o ∈ l.eraseIdx i, R o (l.get ⟨i, hi⟩) ∨ R (l.get ⟨i, hi⟩) o := by
  intro l
  induction l with
  | nil => intro _ i hi; exact absurd hi (Nat.not_lt_zero i)
  | cons a t ih =>
    intro hpw i hi o ho
    rw [List.pairwise_cons] at hpw
    cases i with
    | zero =>
      rw [List.eraseIdx_cons_zero] at ho
      exact Or.inr (hpw.1 o ho)
    | succ j =>
      rw [List.eraseIdx_cons_succ] at ho
      rcases List.mem_cons.mp ho with heq | hmem
      · subst heq
        exact Or.inl (hpw.1 _ (List.get_mem _ _ _))
      · exact ih hpw.2 j (Nat.lt_of_succ_lt_succ hi) o hmem

/-- C30: for every template with a seven-entry week, ordered non-overlapping ranges (in the
template and in the special days of the exceptions), `d > 0` and `b ≥ 0`, and every date
range, `generateAvailableSlots` (given enough fuel) returns a list in which every slot
passes `isSlotAvailable` against all the other slots of the list. -/
theorem generateAvailableSlots_isSlotAvailable (template : ScheduleTemplate)
    (startDate endDate now utcOffset : Int) (exceptions : List ScheduleException)
    (hweek : template.weeklyHours.length = 7)
    (htemplate : ∀ day ∈ template.weeklyHours, rangesOrdered day.slots)
    (hexceptions : ∀ ex ∈ exceptions, ∀ sd ∈ ex.specialHours, rangesOrdered sd.slots)
    (hd : 0 < template.defaultSlotDuration) (hb : 0 ≤ template.bufferTime) :
    ∃ fuel₀ : Nat, ∀ fuel : Nat, fuel₀ ≤ fuel →
      ∃ l : List AppointmentSlot,
        generateAvailableSlots fuel now utcOffset template startDate endDate exceptions
          = .ok l ∧
        ∀ (i : Nat) (hi : i < l.length),
          isSlotAvailable (otherSlots l i) (l.get ⟨i, hi⟩).start (l.get ⟨i, hi⟩).end_
            = true := by
  refine ⟨max 86400001 ((endDate - startDate).toNat + 1), ?_⟩
  intro fuel hfuel
  have h1 : 86400001 ≤ fuel := le_trans (le_max_left _ _) hfuel
  have h2 : (endDate - startDate).toNat + 1 ≤ fuel := le_trans (le_max_right _ _) hfuel
  have h3 : endDate - startDate < fuel * msPerDay := by
    have : (fuel : Int) ≤ fuel * msPerDay :=
      le_mul_of_one_le_right (Int.ofNat_nonneg fuel) (by unfold msPerDay; omega)
    omega
  obtain ⟨l, groups, hl, _, _, hin, hpw⟩ :=
    dayLoop_props template endDate exceptions now utcOffset fuel hweek htemplate hexceptions
      hd hb h1 fuel startDate h3
  refine ⟨l, hl, ?_⟩
  intro i hi
  have hself := (hin _ (List.get_mem l i hi)).2
  rw [isSlotAvailable_iff _ _ _ hself]
  · intro a ha
    obtain ⟨o, ho, rfl⟩ := List.mem_map.mp ha
    have hoth := (hin o (List.mem_of_mem_eraseIdx ho)).2
    have := pairwise_eraseIdx (fun x y : AppointmentSlot => x.end_ ≤ y.start) l hpw i hi o ho
    unfold halfOpenOverlap
    dsimp only
    omega
  · intro a ha
    obtain ⟨o, ho, rfl⟩ := List.mem_map.mp ha
    exact (hin o (List.mem_of_mem_eraseIdx ho)).2

/-- Witness of C30: the week of Monday 2024-03-04 of the Monday-to-Friday 09:00-17:00
template with no buffer, where adjacent slots touch; for instance the 09:30 slot of Monday is
available against the other fifteen slots of that day. -/
theorem generateAvailableSlots_isSlotAvailable_witness :
    (∃ fuel₀ : Nat, ∀ fuel : Nat, fuel₀ ≤ fuel →
      ∃ l : List AppointmentSlot,
        generateAvailableSlots fuel 0 0 fullDayTemplate monday (monday + 6 * msPerDay) []
          = .ok l ∧
        ∀ (i : Nat) (hi : i < l.length),
          isSlotAvailable (otherSlots l i) (l.get ⟨i, hi⟩).start (l.get ⟨i, hi⟩).end_
            = true) ∧
    isSlotAvailable (otherSlots fullMondaySlots 1) (mondayAt 570) (mondayAt 600) = true ∧
    (otherSlots fullMondaySlots 1).take 2
      = [(mondayAt 540, mondayAt 570), (mondayAt 600, mondayAt 630)] :=
  ⟨generateAvailableSlots_isSlotAvailable fullDayTemplate monday (monday + 6 * msPerDay) 0 0 []
      (by decide) (by decide) (by simp) (by decide) (by decide),
   by decide, by decide⟩

/-! ## Slot generator: the walked ranges and their slots -/

/-- The outer loop visits `startDate` and then the dates from the next day on. -/
theorem visitedDates_of_le (startDate endDate : Int) (h : startDate ≤ endDate) :
    visitedDates startDate endDate
      = startDate :: visitedDates (startDate + msPerDay) endDate := by
  unfold visitedDates
  have hn : ((endDate - startDate) / msPerDay + 1).toNat
      = ((endDate - (startDate + msPerDay)) / msPerDay + 1).toNat + 1 := by
    unfold msPerDay
    omega
  rw [hn, List.range_succ_eq_map, List.map_cons, List.map_map]
  congr 1
  · simp
  · apply List.map_congr_left
    intro k _
    simp only [Function.comp]
    push_cast
    ring

/-- The outer loop visits no date when `startDate` is after `endDate`. -/
theorem visitedDates_of_lt (startDate endDate : Int) (h : endDate < startDate) :
    visitedDates startDate endDate = [] := by
  unfold visitedDates
  have hn : ((endDate - startDate) / msPerDay + 1).toNat = 0 := by
    unfold msPerDay
    omega
  rw [hn]
  rfl

/-- Two elements of a list whose elements are pairwise related are equal or related, one way
or the other. -/
theorem pairwise_mem_cases {α : Type} (R : α → α → Prop) :
    ∀ (l : List α), l.Pairwise R → ∀ a ∈ l, ∀ b ∈ l, a = b ∨ R a b ∨ R b a := by
  intro l
  induction l with
  | nil => intro _ a ha; exact absurd ha (List.not_mem_nil a)
  | cons hd tl ih =>
    intro hpw a ha b hb
    rw [List.pairwise_cons] at hpw
    rcases List.mem_cons.mp ha with rfl | ha'
    · rcases List.mem_cons.mp hb with rfl | hb'
      · exact Or.inl rfl
      · exact Or.inr (Or.inl (hpw.1 b hb'))
    · rcases List.mem_cons.mp hb with rfl | hb'
      · exact Or.inr (Or.inr (hpw.1 a ha'))
      · exact ih hpw.2 a ha' b hb'

/-- The loop over the ranges of a day, given enough fuel and ordered ranges, returns the
concatenation of one group of slots per range, in the order of the ranges; each group is what
the inner loop pushes for its range, lies inside that range, and has consecutive slots
exactly the buffer apart. -/
theorem rangesLoop_groups (template : ScheduleTemplate) (now : Int) (fuel : Nat)
    (currentDate : Int) (hd : 0 < template.defaultSlotDuration) (hb : 0 ≤ template.bufferTime)
    (hfuel : 86400001 ≤ fuel) :
    ∀ ranges : List TimeRange, rangesOrdered ranges →
      ∃ groups : List (List AppointmentSlot),
        rangesLoop template now fuel currentDate ranges = .ok groups.flatten ∧
        List.Forall₂ (fun p g => emittedFrom template now fuel p g ∧
            (∀ s ∈ g, rangeStartTime p ≤ s.start ∧ s.start < s.end_ ∧
              s.end_ ≤ rangeEndTime p) ∧
            g.Chain' (fun x y => y.start - x.end_ = template.bufferTime * msPerMinute))
          (ranges.map (fun r => (currentDate, r))) groups := by
  intro ranges
  induction ranges with
  | nil => intro _; exact ⟨[], rfl, List.Forall₂.nil⟩
  | cons r rs ih =>
    intro hord
    obtain ⟨hpair, hall⟩ := hord
    rw [List.pairwise_cons] at hpair
    have hr := hall r (List.mem_cons_self r rs)
    obtain ⟨groups, hrest, hforall⟩ :=
      ih ⟨hpair.2, fun r' hr' => hall r' (List.mem_cons_of_mem r hr')⟩
    have hspan : setHours currentDate r.endHour r.endMinute
        - setHours currentDate r.startHour r.startMinute
        ≤ fuel * ((template.defaultSlotDuration + template.bufferTime) * msPerMinute) := by
      apply fuel_covers _ _ _ _ hd hb
      have := hr.2
      simp only [setHours, TimeRange.endMinutes, msPerMinute] at this ⊢
      omega
    obtain ⟨g, hg, hgin, _, hgchain⟩ := slotLoop_props template.doctorId
      template.defaultSlotDuration template.bufferTime
      (setHours currentDate r.endHour r.endMinute) now hd hb fuel
      (setHours currentDate r.startHour r.startMinute) hspan
    refine ⟨g :: groups, ?_, ?_⟩
    · rw [rangesLoop, hg, hrest]
      rfl
    · rw [List.map_cons]
      exact List.Forall₂.cons ⟨hg, hgin, hgchain⟩ hforall

/-- The ranges walked on a day are ordered when those of the template and those of every
special day are. -/
theorem dayRanges_ordered (template : ScheduleTemplate) (exceptions : List ScheduleException)
    (utcOffset currentDate : Int)
    (htemplate : ∀ day ∈ template.weeklyHours, rangesOrdered day.slots)
    (hexceptions : ∀ ex ∈ exceptions, ∀ sd ∈ ex.specialHours, rangesOrdered sd.slots) :
    rangesOrdered (dayRanges template exceptions utcOffset currentDate) := by
  have hnil : rangesOrdered [] := ⟨List.Pairwise.nil, fun r hr => absurd hr (List.not_mem_nil r)⟩
  unfold dayRanges
  cases hday : template.weeklyHours[getDay currentDate]? with
  | none => exact hnil
  | some dayTemplate =>
    dsimp only
    have hmem : dayTemplate ∈ template.weeklyHours := List.getElem?_mem hday
    by_cases havail : dayTemplate.available = true
    · simp only [havail, if_true]
      by_cases hun : isUnavailable (findException exceptions currentDate) = true
      · simp only [hun, if_true]
        exact hnil
      · simp only [hun]
        exact daySlotsOf_ordered dayTemplate utcOffset currentDate exceptions
          (htemplate _ hmem) hexceptions
    · simp only [havail]
      exact hnil

/-- The outer loop, given enough fuel, a seven-entry week and ordered ranges throughout,
returns the concatenation of one group of slots per walked time range, in the order in which
the ranges are walked; each group is what the inner loop pushes for its range, lies inside
that range, and has consecutive slots exactly the buffer apart. -/
theorem dayLoop_groups (template : ScheduleTemplate) (endDate : Int)
    (exceptions : List ScheduleException) (now utcOffset : Int) (innerFuel : Nat)
    (hweek : template.weeklyHours.length = 7)
    (htemplate : ∀ day ∈ template.weeklyHours, rangesOrdered day.slots)
    (hexceptions : ∀ ex ∈ exceptions, ∀ sd ∈ ex.specialHours, rangesOrdered sd.slots)
    (hd : 0 < template.defaultSlotDuration) (hb : 0 ≤ template.bufferTime)
    (hinner : 86400001 ≤ innerFuel) :
    ∀ (fuel : Nat) (currentDate : Int), endDate - currentDate < fuel * msPerDay →
      ∃ groups : List (List AppointmentSlot),
        dayLoop template endDate exceptions now utcOffset innerFuel fuel currentDate
          = .ok groups.flatten ∧
        List.Forall₂ (fun p g => emittedFrom template now innerFuel p g ∧
            (∀ s ∈ g, rangeStartTime p ≤ s.start ∧ s.start < s.end_ ∧
              s.end_ ≤ rangeEndTime p) ∧
            g.Chain' (fun x y => y.start - x.end_ = template.bufferTime * msPerMinute))
          (visitedRanges template exceptions utcOffset currentDate endDate) groups := by
  have hempty : ∀ (fuel : Nat) (currentDate : Int), endDate < currentDate →
      ∃ groups : List (List AppointmentSlot),
        dayLoop template endDate exceptions now utcOffset innerFuel fuel currentDate
          = .ok groups.flatten ∧
        List.Forall₂ (fun p g => emittedFrom template now innerFuel p g ∧
            (∀ s ∈ g, rangeStartTime p ≤ s.start ∧ s.start < s.end_ ∧
              s.end_ ≤ rangeEndTime p) ∧
            g.Chain' (fun x y => y.start - x.end_ = template.bufferTime * msPerMinute))
          (visitedRanges template exceptions utcOffset currentDate endDate) groups := by
    intro fuel currentDate hlt
    refine ⟨[], dayLoop_done _ _ _ _ _ _ _ _ hlt, ?_⟩
    unfold visitedRanges
    rw [visitedDates_of_lt _ _ hlt]
    exact List.Forall₂.nil
  intro fuel
  induction fuel with
  | zero =>
    intro currentDate hfuel
    exact hempty 0 currentDate (by simp at hfuel; omega)
  | succ fuel ih =>
    intro currentDate hfuel
    by_cases hle : currentDate ≤ endDate
    · have hnext : endDate - (currentDate + msPerDay) < fuel * msPerDay := by
        push_cast at hfuel
        linarith
      obtain ⟨groups, hrest, hforall⟩ := ih (currentDate + msPerDay) hnext
      have hlookup : getDay currentDate < template.weeklyHours.length := by
        rw [hweek]; unfold getDay; omega
      have hday : template.weeklyHours[getDay currentDate]?
          = some (template.weeklyHours[getDay currentDate]) :=
        List.getElem?_eq_getElem hlookup
      have hvisited : visitedRanges template exceptions utcOffset currentDate endDate
          = (dayRanges template exceptions utcOffset currentDate).map
              (fun r => (currentDate, r))
            ++ visitedRanges template exceptions utcOffset (currentDate + msPerDay) endDate := by
        unfold visitedRanges
        rw [visitedDates_of_le _ _ hle, List.flatMap_cons]
      rw [hvisited, dayLoop]
      unfold dayRanges
      simp only [hle, if_true, hday]
      by_cases havail : (template.weeklyHours[getDay currentDate]).available = true
      · simp only [havail, if_true]
        by_cases hun : isUnavailable (findException exceptions currentDate) = true
        · simp only [hun, if_true, List.map_nil, List.nil_append]
          exact ⟨groups, hrest, hforall⟩
        · simp only [hun]
          obtain ⟨groups₀, htoday, hforall₀⟩ :=
            rangesLoop_groups template now innerFuel currentDate hd hb hinner _
              (daySlotsOf_ordered (template.weeklyHours[getDay currentDate]) utcOffset
                currentDate exceptions
                (htemplate _ (List.getElem_mem hlookup)) hexceptions)
          refine ⟨groups₀ ++ groups, ?_, ?_⟩
          · simp only [htoday, hrest, if_false, List.flatten_append]
            rfl
          · exact List.rel_append hforall₀ hforall
      · simp only [havail]
        exact ⟨groups, hrest, hforall⟩
    · exact hempty (fuel + 1) currentDate (by omega)

/-- The walked time ranges follow one another without overlap: each ends no later than any
later one starts. -/
theorem visitedRanges_pairwise (template : ScheduleTemplate)
    (exceptions : List ScheduleException) (utcOffset startDate endDate : Int)
    (htemplate : ∀ day ∈ template.weeklyHours, rangesOrdered day.slots)
    (hexceptions : ∀ ex ∈ exceptions, ∀ sd ∈ ex.specialHours, rangesOrdered sd.slots) :
    (visitedRanges template exceptions utcOffset startDate endDate).Pairwise
      (fun p q => rangeEndTime p ≤ rangeStartTime q) := by
  unfold visitedRanges
  rw [List.pairwise_flatMap]
  constructor
  · intro date _
    rw [List.pairwise_map]
    refine (dayRanges_ordered template exceptions utcOffset date htemplate hexceptions).1.imp ?_
    intro r₁ r₂ h
    simp only [rangeEndTime, rangeStartTime, setHours, TimeRange.endMinutes,
      TimeRange.startMinutes, msPerMinute] at h ⊢
    omega
  · unfold visitedDates
    rw [List.pairwise_map]
    refine (List.pairwise_lt_range _).imp ?_
    intro i j hij x hx y hy
    obtain ⟨r₁, hr₁, rfl⟩ := List.mem_map.mp hx
    obtain ⟨r₂, _, rfl⟩ := List.mem_map.mp hy
    have h1 := ((dayRanges_ordered template exceptions utcOffset _ htemplate hexceptions).2
      r₁ hr₁).2
    simp only [rangeEndTime, rangeStartTime, setHours, TimeRange.endMinutes, msPerMinute,
      msPerDay] at h1 ⊢
    omega

/-- In a concatenation of groups of slots, one per time range of a list of ranges that
follow one another without overlap, every slot lies inside a range of the list, and two
consecutive slots that lie inside one and the same range are exactly the buffer apart,
provided that each group lies inside its range and has consecutive slots exactly the buffer
apart. -/
theorem chain_within_range (V : List (Int × TimeRange)) (gap : Int)
    (hV : V.Pairwise (fun p q => rangeEndTime p ≤ rangeStartTime q)) :
    ∀ (W : List (Int × TimeRange)) (groups : List (List AppointmentSlot)), W.Sublist V →
      List.Forall₂ (fun p g =>
          (∀ s ∈ g, rangeStartTime p ≤ s.start ∧ s.start < s.end_ ∧ s.end_ ≤ rangeEndTime p) ∧
          g.Chain' (fun x y => y.start - x.end_ = gap)) W groups →
      (∀ s ∈ groups.flatten, ∃ p ∈ W,
        rangeStartTime p ≤ s.start ∧ s.start < s.end_ ∧ s.end_ ≤ rangeEndTime p) ∧
      groups.flatten.Chain' (fun x y =>
        (∃ p ∈ V, rangeStartTime p ≤ x.start ∧ y.end_ ≤ rangeEndTime p) →
          y.start - x.end_ = gap) := by
  intro W groups hsub hforall
  induction hforall with
  | nil => exact ⟨fun s hs => absurd hs (List.not_mem_nil s), List.chain'_nil⟩
  | @cons p g W' gs hpg _ ih =>
    have hsub' : W'.Sublist V := (List.sublist_cons_self p W').trans hsub
    obtain ⟨hin, hchain⟩ := ih hsub'
    have hpV : p ∈ V := hsub.subset (List.mem_cons_self p W')
    have hW := (List.pairwise_cons.mp (hV.sublist hsub)).1
    rw [List.flatten_cons]
    refine ⟨?_, ?_⟩
    · intro s hs
      rcases List.mem_append.mp hs with h | h
      · exact ⟨p, List.mem_cons_self p W', hpg.1 s h⟩
      · obtain ⟨q, hq, hs'⟩ := hin s h
        exact ⟨q, List.mem_cons_of_mem p hq, hs'⟩
    · have hg : g.Chain' (fun x y =>
          (∃ p ∈ V, rangeStartTime p ≤ x.start ∧ y.end_ ≤ rangeEndTime p) →
            y.start - x.end_ = gap) := by
        refine List.Chain'.imp ?_ hpg.2
        intro x y h _
        exact h
      refine List.Chain'.append hg hchain ?_
      intro x hx y hy
      have hxg := hpg.1 x (List.mem_of_mem_getLast? hx)
      obtain ⟨q, hq, hyq⟩ := hin y (List.mem_of_mem_head? hy)
      have hpq := hW q hq
      rintro ⟨R, hRV, hR1, hR2⟩
      rcases pairwise_mem_cases _ V hV R hRV p hpV with h | h | h
      · subst h
        omega
      · omega
      · omega

/-- C5: for a template with seven day entries whose daily ranges are ordered, non-overlapping
ranges of times of day with end after start (and likewise the ranges of every special day of
the exceptions), slot duration `d > 0` and buffer `b ≥ 0`, and every date range,
`generateAvailableSlots` (given enough fuel) returns a list that is strictly increasing by
start and in which every slot ends no later than any later slot starts (in particular any
two consecutive slots `x`, `y` satisfy `x.end ≤ y.start`). The list is the concatenation of
one group of slots per walked time range, in the order in which the generator walks the
ranges of the days of the date range; each group is what the inner loop pushes for its
range, and consecutive slots of a group satisfy `y.start - x.end = bufferTime` minutes.
Every slot lies inside a walked range, and any two consecutive slots of the list that lie
inside one and the same walked range satisfy `y.start - x.end = bufferTime` minutes. -/
theorem generateAvailableSlots_ordered (template : ScheduleTemplate)
    (startDate endDate now utcOffset : Int) (exceptions : List ScheduleException)
    (hweek : template.weeklyHours.length = 7)
    (htemplate : ∀ day ∈ template.weeklyHours, rangesOrdered day.slots)
    (hexceptions : ∀ ex ∈ exceptions, ∀ sd ∈ ex.specialHours, rangesOrdered sd.slots)
    (hd : 0 < template.defaultSlotDuration) (hb : 0 ≤ template.bufferTime) :
    ∃ fuel₀ : Nat, ∀ fuel : Nat, fuel₀ ≤ fuel →
      ∃ (l : List AppointmentSlot) (groups : List (List AppointmentSlot)),
        generateAvailableSlots fuel now utcOffset template startDate endDate exceptions
          = .ok l ∧
        l.Pairwise (fun x y => x.start < y.start) ∧
        l.Pairwise (fun x y => x.end_ ≤ y.start) ∧
        l.Chain' (fun x y => x.end_ ≤ y.start) ∧
        l = groups.flatten ∧
        List.Forall₂ (fun p g => emittedFrom template now fuel p g ∧
            g.Chain' (fun x y => y.start - x.end_ = template.bufferTime * msPerMinute))
          (visitedRanges template exceptions utcOffset startDate endDate) groups ∧
        (∀ s ∈ l, ∃ p ∈ visitedRanges template exceptions utcOffset startDate endDate,
          rangeStartTime p ≤ s.start ∧ s.end_ ≤ rangeEndTime p) ∧
        l.Chain' (fun x y =>
          (∃ p ∈ visitedRanges template exceptions utcOffset startDate endDate,
            rangeStartTime p ≤ x.start ∧ y.end_ ≤ rangeEndTime p) →
          y.start - x.end_ = template.bufferTime * msPerMinute) := by
  refine ⟨max 86400001 ((endDate - startDate).toNat + 1), ?_⟩
  intro fuel hfuel
  have h1 : 86400001 ≤ fuel := le_trans (le_max_left _ _) hfuel
  have h2 : (endDate - startDate).toNat + 1 ≤ fuel := le_trans (le_max_right _ _) hfuel
  have h3 : endDate - startDate < fuel * msPerDay := by
    have : (fuel : Int) ≤ fuel * msPerDay :=
      le_mul_of_one_le_right (Int.ofNat_nonneg fuel) (by unfold msPerDay; omega)
    omega
  obtain ⟨l, _, hl, _, _, hin, hpw⟩ :=
    dayLoop_props template endDate exceptions now utcOffset fuel hweek htemplate hexceptions
      hd hb h1 fuel startDate h3
  obtain ⟨groups, hgroups, hforall⟩ :=
    dayLoop_groups template endDate exceptions now utcOffset fuel hweek htemplate hexceptions
      hd hb h1 fuel startDate h3
  have hflat : l = groups.flatten := Except.ok.inj (hl.symm.trans hgroups)
  obtain ⟨hinside, hchain⟩ := chain_within_range
    (visitedRanges template exceptions utcOffset startDate endDate)
    (template.bufferTime * msPerMinute)
    (visitedRanges_pairwise template exceptions utcOffset startDate endDate htemplate
      hexceptions)
    _ groups (List.Sublist.refl _) (hforall.imp (fun p g h => h.2))
  refine ⟨l, groups, hl, ?_, hpw, hpw.chain', hflat, hforall.imp (fun p g h => ⟨h.1, h.2.2⟩),
    ?_, ?_⟩
  · refine hpw.imp_of_mem ?_
    intro x y hx _ hxy
    have := (hin x hx).2
    omega
  · intro s hs
    rw [hflat] at hs
    obtain ⟨p, hp, h1, _, h3⟩ := hinside s hs
    exact ⟨p, hp, h1, h3⟩
  · rw [hflat]
    exact hchain

/-- Witness of C5: the week of Monday 2024-03-04 of the sample template, no exceptions. The
generator walks the range 09:00-12:00 of the five working days; on Monday the slots start at
09:00, 09:40, 10:20 and 11:00, each 10 minutes after the end of the one before. -/
theorem generateAvailableSlots_ordered_witness :
    (∃ fuel₀ : Nat, ∀ fuel : Nat, fuel₀ ≤ fuel →
      ∃ (l : List AppointmentSlot) (groups : List (List AppointmentSlot)),
        generateAvailableSlots fuel 0 0 sampleTemplate monday (monday + 6 * msPerDay) []
          = .ok l ∧
        l.Pairwise (fun x y => x.start < y.start) ∧
        l.Pairwise (fun x y => x.end_ ≤ y.start) ∧
        l.Chain' (fun x y => x.end_ ≤ y.start) ∧
        l = groups.flatten ∧
        List.Forall₂ (fun p g => emittedFrom sampleTemplate 0 fuel p g ∧
            g.Chain' (fun x y => y.start - x.end_ = sampleTemplate.bufferTime * msPerMinute))
          (visitedRanges sampleTemplate [] 0 monday (monday + 6 * msPerDay)) groups ∧
        (∀ s ∈ l, ∃ p ∈ visitedRanges sampleTemplate [] 0 monday (monday + 6 * msPerDay),
          rangeStartTime p ≤ s.start ∧ s.end_ ≤ rangeEndTime p) ∧
        l.Chain' (fun x y =>
          (∃ p ∈ visitedRanges sampleTemplate [] 0 monday (monday + 6 * msPerDay),
            rangeStartTime p ≤ x.start ∧ y.end_ ≤ rangeEndTime p) →
          y.start - x.end_ = sampleTemplate.bufferTime * msPerMinute)) ∧
    (visitedRanges sampleTemplate [] 0 monday (monday + 6 * msPerDay)).map
        (fun p => (p.1, rangeStartTime p, rangeEndTime p))
      = (List.range 5).map (fun (k : Nat) =>
          (monday + (k : Int) * msPerDay, mondayAt (540 + 1440 * (k : Int)),
            mondayAt (720 + 1440 * (k : Int)))) ∧
    slotLoop "d1" 30 10 (mondayAt 720) 0 5 (mondayAt 540) = .ok mondaySlots :=
  ⟨generateAvailableSlots_ordered sampleTemplate monday (monday + 6 * msPerDay) 0 0 []
      (by decide) (by decide) (by simp) (by decide) (by decide),
   by decide, by decide⟩

end MedConnect
